import Mathlib

/-!
HoloPlay runtime: tiling quality, quilt compositing and screenshot requests

A shallow embedding of the parts of the HoloPlay Unreal plugin that its
specification talks about:

* `FHoloPlayTilingQuality` and `Setup` (`Public/HoloPlaySettings.h`),
* the copy-to-quilt loop of `FHoloPlayViewportClient::Draw`,
* the screenshot request state of `FHoloPlayViewportClient`
  (`Private/Render/HoloPlayViewportClient.cpp`),
* `FHoloPlayViewportClient::ParseResolution`,
* the draw cycle `FHoloPlayViewportClient::Draw` as the sequence of pipeline
  stages it issues.

`int32` fields are integers; `/` on `int32` is C++ truncating division,
`Int.tdiv`.  The `float` fields `PortionX`, `PortionY` of the structure hold the
exact quotients, the reading the specification uses for their bounds; the
values the `float` arithmetic of `Setup()` gives are `SetupPortionX` and
`SetupPortionY`.  Values of `float` and `double` are `FloatValue`, with
rounding to nearest, ties to even.
-/

namespace HoloPlay

/-! ## Floating-point values

The `float` and `double` values of the source, with the rounding of IEEE 754
arithmetic (to nearest, ties to even), computed on natural numbers. -/

/-- A value of a binary floating-point type: `± Mantissa * 2 ^ Exponent`, an
infinity, or not-a-number.  Zero is `Mantissa = 0` with `Exponent = 0`. -/
inductive FloatValue where
  | finite (Negative : Bool) (Mantissa : Nat) (Exponent : Int)
  | infinity (Negative : Bool)
  | nan
  deriving DecidableEq

/-- The loop of `Log2`, with the number of steps left. -/
def Log2Loop : Nat → Nat → Nat
  | 0, _ => 0
  | fuel + 1, n => if n ≥ 2 then Log2Loop fuel (n / 2) + 1 else 0

/-- The position of the leading binary digit of `n`: the greatest `l` with
`2 ^ l ≤ n`, and 0 for `n = 0`. -/
def Log2 (n : Nat) : Nat :=
  Log2Loop n n

/-- The binary exponent of the quotient `n / d` of positive numbers: the
greatest `e` with `2 ^ e ≤ n / d`. -/
def floorLog2 (n d : Nat) : Int :=
  let k : Int := (Log2 n : Int) - (Log2 d : Int)
  if d * 2 ^ k.toNat ≤ n * 2 ^ (-k).toNat then k else k - 1

/-- The quotient `n / d` (`d` not 0) rounded to nearest, ties to even, in the
binary format with `Precision` digits, exponents of the last place from
`MinExponent` to `MaxExponent`: the quotient is brought to lowest terms, scaled
to the exponent of its last place, cut to a whole mantissa and rounded; a
mantissa that reaches `2 ^ Precision` moves to the next exponent, and a value
above the format is an infinity. -/
def RoundToFormat (Precision : Nat) (MinExponent MaxExponent : Int) (Negative : Bool)
    (n d : Nat) : FloatValue :=
  let g := Nat.gcd n d
  let n := n / g
  let d := d / g
  let E := max (floorLog2 n d - ((Precision : Int) - 1)) MinExponent
  let N := n * 2 ^ (-E).toNat
  let D := d * 2 ^ E.toNat
  let m := N / D
  let r := N % D
  let m := if 2 * r > D ∨ (2 * r = D ∧ m % 2 = 1) then m + 1 else m
  let E := if m = 2 ^ Precision then E + 1 else E
  let m := if m = 2 ^ Precision then 2 ^ (Precision - 1) else m
  if m = 0 then FloatValue.finite Negative 0 0
  else if E > MaxExponent then FloatValue.infinity Negative
  else FloatValue.finite Negative m E

/-- The numerator of a finite value written as a quotient of natural numbers. -/
def FloatValue.Numerator : FloatValue → Nat
  | FloatValue.finite _ m e => m * 2 ^ e.toNat
  | _ => 0

/-- The denominator of a finite value written as a quotient of natural
numbers, a power of 2. -/
def FloatValue.Denominator : FloatValue → Nat
  | FloatValue.finite _ _ e => 2 ^ (-e).toNat
  | _ => 1

/-- Rounding to `double` (IEEE 754 binary64). -/
def Double.Round (Negative : Bool) (n d : Nat) : FloatValue :=
  RoundToFormat 53 (-1074) 971 Negative n d

namespace Float32

/-- Rounding to `float` (IEEE 754 binary32). -/
def Round (Negative : Bool) (n d : Nat) : FloatValue :=
  RoundToFormat 24 (-149) 104 Negative n d

/-- The conversion `(float)i` of an integer. -/
def ofInt (i : Int) : FloatValue :=
  Round (decide (i < 0)) i.natAbs 1

/-- The conversion `(float)x` of a `double`. -/
def ofDouble : FloatValue → FloatValue
  | FloatValue.finite s m e =>
    Round s (FloatValue.finite s m e).Numerator (FloatValue.finite s m e).Denominator
  | FloatValue.infinity s => FloatValue.infinity s
  | FloatValue.nan => FloatValue.nan

/-- The product `a * b` of two `float` values. -/
def mul : FloatValue → FloatValue → FloatValue
  | FloatValue.nan, _ => FloatValue.nan
  | _, FloatValue.nan => FloatValue.nan
  | FloatValue.infinity s, FloatValue.infinity t => FloatValue.infinity (s != t)
  | FloatValue.infinity s, FloatValue.finite t m _ =>
    if m = 0 then FloatValue.nan else FloatValue.infinity (s != t)
  | FloatValue.finite s m _, FloatValue.infinity t =>
    if m = 0 then FloatValue.nan else FloatValue.infinity (s != t)
  | FloatValue.finite s m e, FloatValue.finite t m2 e2 =>
    Round (s != t)
      ((FloatValue.finite s m e).Numerator * (FloatValue.finite t m2 e2).Numerator)
      ((FloatValue.finite s m e).Denominator * (FloatValue.finite t m2 e2).Denominator)

/-- The quotient `a / b` of two `float` values: `0 / 0` is not a number and a
non-zero value over 0 is an infinity. -/
def div : FloatValue → FloatValue → FloatValue
  | FloatValue.nan, _ => FloatValue.nan
  | _, FloatValue.nan => FloatValue.nan
  | FloatValue.infinity _, FloatValue.infinity _ => FloatValue.nan
  | FloatValue.infinity s, FloatValue.finite t _ _ => FloatValue.infinity (s != t)
  | FloatValue.finite s _ _, FloatValue.infinity t => FloatValue.finite (s != t) 0 0
  | FloatValue.finite s m e, FloatValue.finite t m2 e2 =>
    if m2 = 0 then
      if m = 0 then FloatValue.nan else FloatValue.infinity (s != t)
    else
      Round (s != t)
        ((FloatValue.finite s m e).Numerator * (FloatValue.finite t m2 e2).Denominator)
        ((FloatValue.finite s m e).Denominator * (FloatValue.finite t m2 e2).Numerator)

end Float32

/-! ## Tiling quality (`HoloPlaySettings.h`) -/

/-- The struct `FHoloPlayTilingQuality`; the defaults are the in-class member
initialisers, so `({} : FHoloPlayTilingQuality)` is the value produced by the
default constructor `FHoloPlayTilingQuality() {}`.  The fields `PortionX` and
`PortionY` hold the exact value of the quotient that the source stores rounded
to `float`. -/
structure FHoloPlayTilingQuality where
  TilesX : Int := 4
  TilesY : Int := 8
  QuiltW : Int := 2048
  QuiltH : Int := 2048
  Overscan : Bool := false
  bTilingEditable : Bool := false
  TileSizeX : Int := 0
  TileSizeY : Int := 0
  PortionX : ℚ := 0
  PortionY : ℚ := 0
  Text : String := "Default"
  deriving DecidableEq

namespace FHoloPlayTilingQuality

/-- The method `void Setup()`: tile size by truncating division, then the
fraction of the quilt used for rendering, computed from the new tile size.  The
fraction is kept as the exact quotient; `SetupPortionX` and `SetupPortionY` are
the values of the `float` arithmetic of the source. -/
def Setup (q : FHoloPlayTilingQuality) : FHoloPlayTilingQuality :=
  let TileSizeX := Int.tdiv q.QuiltW q.TilesX
  let TileSizeY := Int.tdiv q.QuiltH q.TilesY
  { q with
    TileSizeX := TileSizeX
    TileSizeY := TileSizeY
    PortionX := (q.TilesX : ℚ) * (TileSizeX : ℚ) / (q.QuiltW : ℚ)
    PortionY := (q.TilesY : ℚ) * (TileSizeY : ℚ) / (q.QuiltH : ℚ) }

/-- The value `Setup()` stores in `PortionX`, as the source computes it:
`(float)TilesX * TileSizeX / (float)QuiltW` in `float` arithmetic, with
`TileSizeX` converted to `float` for the product and every operation rounded. -/
def SetupPortionX (q : FHoloPlayTilingQuality) : FloatValue :=
  let TileSizeX := Int.tdiv q.QuiltW q.TilesX
  Float32.div (Float32.mul (Float32.ofInt q.TilesX) (Float32.ofInt TileSizeX))
    (Float32.ofInt q.QuiltW)

/-- The value `Setup()` stores in `PortionY`, as the source computes it:
`(float)TilesY * TileSizeY / (float)QuiltH` in `float` arithmetic. -/
def SetupPortionY (q : FHoloPlayTilingQuality) : FloatValue :=
  let TileSizeY := Int.tdiv q.QuiltH q.TilesY
  Float32.div (Float32.mul (Float32.ofInt q.TilesY) (Float32.ofInt TileSizeY))
    (Float32.ofInt q.QuiltH)

/-- The default constructor `FHoloPlayTilingQuality() {}`: the member
initialisers and an empty body. -/
def default : FHoloPlayTilingQuality := {}

/-- The constructor
`FHoloPlayTilingQuality(InText, InTilesX, InTilesY, InQuiltW, InQuiltH, InEditable, InOverscan, InAspect)`:
the initialiser list, then `Setup()`.  `InAspect` is accepted and not used. -/
def ctor (InText : String) (InTilesX InTilesY InQuiltW InQuiltH : Int)
    (InEditable InOverscan : Bool) : FHoloPlayTilingQuality :=
  Setup
    { TilesX := InTilesX
      TilesY := InTilesY
      QuiltW := InQuiltW
      QuiltH := InQuiltH
      Overscan := InOverscan
      bTilingEditable := InEditable
      Text := InText }

/-- The method `int32 GetNumTiles() const`, with the `int32` product wrapped. -/
def GetNumTiles (q : FHoloPlayTilingQuality) : Int :=
  (q.TilesX * q.TilesY + 2 ^ 31) % 2 ^ 32 - 2 ^ 31

/-- The method `bool operator==(FHoloPlayTilingQuality& Other) const`. -/
def opEq (A Other : FHoloPlayTilingQuality) : Bool :=
  A.TilesX == Other.TilesX && A.TilesY == Other.TilesY &&
    A.QuiltW == Other.QuiltW && A.QuiltH == Other.QuiltH

end FHoloPlayTilingQuality

/-! ### The tiling presets of `UHoloPlaySettings` -/

/-- The preset `UHoloPlaySettings::AutomaticSettings`. -/
def AutomaticSettings : FHoloPlayTilingQuality :=
  FHoloPlayTilingQuality.ctor "Automatic" 8 6 3360 3360 false false

/-- The preset `UHoloPlaySettings::PortraitSettings`. -/
def PortraitSettings : FHoloPlayTilingQuality :=
  FHoloPlayTilingQuality.ctor "Portrait" 8 6 3360 3360 false false

/-- The preset `UHoloPlaySettings::PortraitHiResSettings`. -/
def PortraitHiResSettings : FHoloPlayTilingQuality :=
  FHoloPlayTilingQuality.ctor "PortraitHiRes" 8 6 3840 3840 false false

/-- The preset `UHoloPlaySettings::FourKSettings`. -/
def FourKSettings : FHoloPlayTilingQuality :=
  FHoloPlayTilingQuality.ctor "4K Res" 5 9 4096 4096 false false

/-- The preset `UHoloPlaySettings::EightKSettings`. -/
def EightKSettings : FHoloPlayTilingQuality :=
  FHoloPlayTilingQuality.ctor "8K Res" 5 9 8192 8192 false false

/-- The preset `UHoloPlaySettings::EightNineLegacy`. -/
def EightNineLegacy : FHoloPlayTilingQuality :=
  FHoloPlayTilingQuality.ctor "Extra Low" 5 9 4096 4096 false false

/-- The preset `UHoloPlaySettings::CustomSettings`. -/
def CustomSettings : FHoloPlayTilingQuality :=
  FHoloPlayTilingQuality.ctor "Custom" 8 6 3360 3360 true false

/-! ## Copy-to-quilt loop of `FHoloPlayViewportClient::Draw` -/

/-- A `FHoloPlayRenderingConfig` as `Draw` reads it: `GetRenderTarget()` (a
pointer that may be null, to a target whose `Resource` may be null),
`GetViewInfoArr()`, `GetViewRows()` and `GetViewColumns()`.  Resources and
view infos are represented by identifiers. -/
structure FHoloPlayRenderingConfig where
  RenderTarget : Option (Option Nat)
  ViewInfoArr : List Nat
  ViewRows : Int
  ViewColumns : Int
  deriving DecidableEq

/-- The aggregate `HoloPlay::FCopyToQuiltRenderContext`, with its members in
the order in which `Draw` initialises them.  `CurrentViewIndex` is `uint32`. -/
structure FCopyToQuiltRenderContext where
  QuiltRT : Nat
  TilingValues : FHoloPlayTilingQuality
  RenderTarget : Nat
  CurrentViewIndex : Nat
  ViewIndex : Int
  TotalViews : Int
  ViewRows : Int
  ViewColumns : Int
  ViewInfo : Nat
  deriving DecidableEq

/-- The inner loop `for (int32 ViewIndex = 0; ViewIndex < Num(); ++ViewIndex)`
of `Draw`, started at `ViewIndex` on the views that remain: one copy-to-quilt
command per view, `CurrentViewIndex++` (a `uint32`) after each.  Returns the
commands and the value of `CurrentViewIndex` after the loop. -/
def copyViews (QuiltRT : Nat) (TilingValues : FHoloPlayTilingQuality)
    (RenderingConfig : FHoloPlayRenderingConfig) (Resource : Nat) :
    List Nat → Nat → Nat → List FCopyToQuiltRenderContext × Nat
  | [], _, CurrentViewIndex => ([], CurrentViewIndex)
  | ViewInfo :: rest, ViewIndex, CurrentViewIndex =>
    let RenderContext : FCopyToQuiltRenderContext :=
      { QuiltRT := QuiltRT
        TilingValues := TilingValues
        RenderTarget := Resource
        CurrentViewIndex := CurrentViewIndex
        ViewIndex := (ViewIndex : Int)
        TotalViews := (RenderingConfig.ViewInfoArr.length : Int)
        ViewRows := RenderingConfig.ViewRows
        ViewColumns := RenderingConfig.ViewColumns
        ViewInfo := ViewInfo }
    let r := copyViews QuiltRT TilingValues RenderingConfig Resource rest (ViewIndex + 1)
      ((CurrentViewIndex + 1) % 2 ^ 32)
    (RenderContext :: r.1, r.2)

/-- The outer loop over `GetRenderingConfigs()` of `Draw`, started with the
given `CurrentViewIndex`.  Returns the copy-to-quilt commands enqueued and
whether the loop left `Draw` through `return` (a null render target or
resource). -/
def copyConfigs (QuiltRT : Nat) (TilingValues : FHoloPlayTilingQuality) :
    List FHoloPlayRenderingConfig → Nat → List FCopyToQuiltRenderContext × Bool
  | [], _ => ([], false)
  | RenderingConfig :: rest, CurrentViewIndex =>
    match RenderingConfig.RenderTarget with
    | some (some Resource) =>
      let r := copyViews QuiltRT TilingValues RenderingConfig Resource
        RenderingConfig.ViewInfoArr 0 CurrentViewIndex
      let r2 := copyConfigs QuiltRT TilingValues rest r.2
      (r.1 ++ r2.1, r2.2)
    | _ => ([], true)

/-- The block `// Copy data from multiple render targets into a single quilt
image` of `Draw`: `uint32 CurrentViewIndex = 0;` and the loops. -/
def copyToQuilt (QuiltRT : Nat) (TilingValues : FHoloPlayTilingQuality)
    (RenderingConfigs : List FHoloPlayRenderingConfig) :
    List FCopyToQuiltRenderContext × Bool :=
  copyConfigs QuiltRT TilingValues RenderingConfigs 0

/-- An integer rectangle `FIntRect`, `(Min.X, Min.Y)-(Max.X, Max.Y)`. -/
structure FIntRect where
  MinX : Int
  MinY : Int
  MaxX : Int
  MaxY : Int
  deriving DecidableEq

/-- Modelled from the spec: the destination rectangle that
`HoloPlay::CopyToQuiltShader_RenderThread` (`Render/HoloPlayRendering.cpp`, not
among the sources) computes from the render context.  The specification places
the view with global index `i` of a quilt with `C` columns at tile row `i / C`
and tile column `i % C`, row-major, each tile `TileSizeX` by `TileSizeY` pixels;
`C` is the quilt's `TilesX`. -/
def CopyToQuiltDestRect (Context : FCopyToQuiltRenderContext) : FIntRect :=
  let i : Int := (Context.CurrentViewIndex : Int)
  let C := Context.TilingValues.TilesX
  let row := Int.tdiv i C
  let column := Int.tmod i C
  { MinX := column * Context.TilingValues.TileSizeX
    MinY := row * Context.TilingValues.TileSizeY
    MaxX := (column + 1) * Context.TilingValues.TileSizeX
    MaxY := (row + 1) * Context.TilingValues.TileSizeY }

/-! ## Screenshot requests (`HoloPlayViewportClient.cpp`) -/

/-- A pixel `FColor`; the channels are `uint8`. -/
structure FColor where
  R : Nat
  G : Nat
  B : Nat
  A : Nat
  deriving DecidableEq

/-- The engine services that the screenshot code calls to build file names:
`GetDefault<UEngine>()->GameScreenshotSaveDirectory.Path`, the path operator
`/` of `FString`, `FPaths::GetBaseFilename(path, bRemovePath)`,
`FPaths::GetExtension` and `FFileHelper::GenerateNextBitmapFilename(pattern,
extension, out)` (the file name it writes to `out`). -/
structure Engine where
  GameScreenshotSaveDirectory : String
  PathCombine : String → String → String
  GetBaseFilename : String → Bool → String
  GetExtension : String → String
  GenerateNextBitmapFilename : String → String → String

/-- The struct `FHoloPlayScreenshotRequest`. -/
structure FHoloPlayScreenshotRequest where
  NextScreenshotName : String := ""
  Filename : String := ""
  HighresScreenshotMaskColorArray : List FColor := []
  deriving DecidableEq

/-- The struct `FHoloPlayLenticularScreenshotRequest`; `new T()` value-initialises
`bShowUI` to `false`. -/
structure FHoloPlayLenticularScreenshotRequest extends FHoloPlayScreenshotRequest where
  bShowUI : Bool := false
  deriving DecidableEq

/-- The method `FHoloPlayScreenshotRequest::CreateViewportScreenShotFilename`,
returning the new value of `InOutFilename`. -/
def CreateViewportScreenShotFilename (E : Engine) (InOutFilename : String) : String :=
  let TypeName := if InOutFilename.isEmpty then "Screenshot" else InOutFilename
  if !(TypeName.contains '/') then
    E.PathCombine E.GameScreenshotSaveDirectory TypeName
  else
    TypeName

/-- The method `FHoloPlayScreenshotRequest::RequestScreenshot(InFilename,
bAddFilenameSuffix)`. -/
def FHoloPlayScreenshotRequest.RequestScreenshot (E : Engine)
    (r : FHoloPlayScreenshotRequest) (InFilename : String) (bAddFilenameSuffix : Bool) :
    FHoloPlayScreenshotRequest :=
  let GeneratedFilename := CreateViewportScreenShotFilename E InFilename
  if bAddFilenameSuffix then
    let GeneratedFilename := E.GetBaseFilename GeneratedFilename false
    { r with Filename := E.GenerateNextBitmapFilename GeneratedFilename "png" }
  else
    let Filename := GeneratedFilename
    if (E.GetExtension Filename).length == 0 then
      { r with Filename := Filename ++ ".png" }
    else
      { r with Filename := Filename }

/-- The method `FHoloPlayLenticularScreenshotRequest::RequestScreenshot(InFilename,
bInShowUI, bAddFilenameSuffix)`. -/
def FHoloPlayLenticularScreenshotRequest.RequestScreenshot (E : Engine)
    (r : FHoloPlayLenticularScreenshotRequest) (InFilename : String)
    (bInShowUI bAddFilenameSuffix : Bool) : FHoloPlayLenticularScreenshotRequest :=
  let base := r.toFHoloPlayScreenshotRequest.RequestScreenshot E InFilename bAddFilenameSuffix
  let r1 : FHoloPlayLenticularScreenshotRequest := { r with toFHoloPlayScreenshotRequest := base }
  if !r1.Filename.isEmpty then { r1 with bShowUI := bInShowUI } else r1

/-- The screenshot request members of `FHoloPlayViewportClient`; a null
`TSharedPtr` is `none`. -/
structure FHoloPlayViewportClient where
  HoloPlayLenticularScreenshotRequest : Option FHoloPlayLenticularScreenshotRequest := none
  HoloPlayQuilScreenshotRequest : Option FHoloPlayScreenshotRequest := none
  HoloPlayScreenshot2DRequest : Option FHoloPlayScreenshotRequest := none
  deriving DecidableEq

namespace FHoloPlayViewportClient

/-- The method `PreparePlayLenticularScreenshot`: the returned flag and the
client afterwards. -/
def PreparePlayLenticularScreenshot (E : Engine) (c : FHoloPlayViewportClient)
    (FileName : String) (bInShowUI bAddFilenameSuffix : Bool) :
    Bool × FHoloPlayViewportClient :=
  if !c.HoloPlayLenticularScreenshotRequest.isSome then
    let Request := ({} : FHoloPlayLenticularScreenshotRequest).RequestScreenshot E FileName
      bInShowUI bAddFilenameSuffix
    (true, { c with HoloPlayLenticularScreenshotRequest := some Request })
  else
    (false, c)

/-- The method `PreparePlayScreenshotQuilt`. -/
def PreparePlayScreenshotQuilt (E : Engine) (c : FHoloPlayViewportClient)
    (FileName : String) (bAddFilenameSuffix : Bool) : Bool × FHoloPlayViewportClient :=
  if !c.HoloPlayQuilScreenshotRequest.isSome then
    let Request := ({} : FHoloPlayScreenshotRequest).RequestScreenshot E FileName
      bAddFilenameSuffix
    (true, { c with HoloPlayQuilScreenshotRequest := some Request })
  else
    (false, c)

/-- The method `PreparePlayScreenshot2D`. -/
def PreparePlayScreenshot2D (E : Engine) (c : FHoloPlayViewportClient)
    (FileName : String) (bAddFilenameSuffix : Bool) : Bool × FHoloPlayViewportClient :=
  if !c.HoloPlayScreenshot2DRequest.isSome then
    let Request := ({} : FHoloPlayScreenshotRequest).RequestScreenshot E FileName
      bAddFilenameSuffix
    (true, { c with HoloPlayScreenshot2DRequest := some Request })
  else
    (false, c)

end FHoloPlayViewportClient

/-! ### Servicing the requests -/

/-- An integer point `FIntPoint`. -/
structure FIntPoint where
  X : Int
  Y : Int
  deriving DecidableEq

/-- What the screenshot code reads of a `UTextureRenderTarget2D`: its size. -/
structure UTextureRenderTarget2D where
  SizeX : Int
  SizeY : Int
  deriving DecidableEq

/-- The effects of servicing a request that are visible outside the client:
a file written by `FFileHelper::SaveArrayToFile` (with the size and pixels given
to `FImageUtils::CompressImageArray`), a broadcast of one of the three
completion delegates, the 2D render pass `Render2DView(X, Y)` and the
assignment of the globals `GScreenshotResolutionX`, `GScreenshotResolutionY`. -/
inductive Effect where
  | SaveArrayToFile (Filename : String) (SizeX SizeY : Int) (Bitmap : List FColor)
  | OnScreenshotQuiltRequestProcessed
  | OnScreenshot3DRequestProcessed
  | OnScreenshot2DRequestProcessed
  | Render2DView (X Y : Int)
  | SetGScreenshotResolution (X Y : Int)
  deriving DecidableEq

/-- The method `FHoloPlayViewportClient::GetRenderTargetScreenShot`.
`ReadPixels` is the outcome of `RenderTarget->ReadPixels(Bitmap, Flags,
ViewRect)`: the flag it returns and the contents of `Bitmap` after the call.
The result is the flag returned and `Bitmap` afterwards.  (The `check` on the
bitmap length is an engine assertion and computes nothing.) -/
def GetRenderTargetScreenShot (ReadPixels : Bool × List FColor) : Bool × List FColor :=
  if ReadPixels.1 then
    (true, ReadPixels.2.map fun color => { color with A := 255 })
  else
    (false, ReadPixels.2)

/-- The file name under which the three servicing routines save: when the
requested name has an extension, its base name followed by `.png`. -/
def ScreenShotName (E : Engine) (Filename : String) : String :=
  if !(E.GetExtension Filename).isEmpty then
    E.GetBaseFilename Filename false ++ ".png"
  else
    Filename

/-- What `ProcessScreenShotLenticular` reads from the engine: the viewport size
`InViewport->GetSizeXY()`, whether `GetWindow()` is valid, whether
`FSlateApplication::IsInitialized()`, the outcome of
`FSlateApplication::TakeScreenshot` (flag, bitmap, size written) and the outcome
of `GetViewportScreenShot` (flag, bitmap). -/
structure LenticularCapture where
  SizeXY : FIntPoint
  WindowValid : Bool
  SlateInitialized : Bool
  TakeScreenshot : Bool × List FColor × FIntPoint
  GetViewportScreenShot : Bool × List FColor

namespace FHoloPlayViewportClient

/-- The method `ProcessScreenshotQuilts(InQuiltRT)`: the client afterwards and
the effects in the order performed. -/
def ProcessScreenshotQuilts (E : Engine) (InQuiltRT : UTextureRenderTarget2D)
    (ReadPixels : Bool × List FColor) (c : FHoloPlayViewportClient) :
    FHoloPlayViewportClient × List Effect :=
  match c.HoloPlayQuilScreenshotRequest with
  | some Request =>
    if Request.Filename.isEmpty then
      ({ c with HoloPlayQuilScreenshotRequest := none }, [])
    else
      let shot := GetRenderTargetScreenShot ReadPixels
      let bScreenshotSuccessful := shot.1
      let Bitmap := shot.2
      let saved :=
        if bScreenshotSuccessful then
          [Effect.SaveArrayToFile (ScreenShotName E Request.Filename)
            InQuiltRT.SizeX InQuiltRT.SizeY Bitmap]
        else []
      ({ c with HoloPlayQuilScreenshotRequest := none },
        saved ++ [Effect.OnScreenshotQuiltRequestProcessed])
  | none => (c, [])

/-- The method `ProcessScreenShotLenticular(InViewport)`: the flag returned,
the client afterwards and the effects in the order performed. -/
def ProcessScreenShotLenticular (E : Engine) (V : LenticularCapture)
    (c : FHoloPlayViewportClient) : Bool × FHoloPlayViewportClient × List Effect :=
  match c.HoloPlayLenticularScreenshotRequest with
  | some Request =>
    if Request.Filename.isEmpty then
      (false, { c with HoloPlayLenticularScreenshotRequest := none }, [])
    else
      let bShowUI := Request.bShowUI && V.WindowValid
      let viaSlate := bShowUI && V.SlateInitialized
      let bScreenshotSuccessful :=
        if viaSlate then V.TakeScreenshot.1 else V.GetViewportScreenShot.1
      let Bitmap := if viaSlate then V.TakeScreenshot.2.1 else V.GetViewportScreenShot.2
      let Size := if viaSlate then V.TakeScreenshot.2.2 else V.SizeXY
      let globals := if viaSlate then [Effect.SetGScreenshotResolution Size.X Size.Y] else []
      let saved :=
        if bScreenshotSuccessful then
          [Effect.SaveArrayToFile (ScreenShotName E Request.Filename) Size.X Size.Y
            (Bitmap.map fun color => { color with A := 255 })]
        else []
      (true, { c with HoloPlayLenticularScreenshotRequest := none },
        globals ++ saved ++ [Effect.OnScreenshot3DRequestProcessed])
  | none => (false, c, [])

/-- The method `ProcessScreenshot2D(HoloPlayCaptureComponent)`.  `Resolution` is
`GetDefault<UHoloPlaySettings>()->HoloPlayScreenshot2DSettings.Resolution`,
`RenderTarget` the target `GetTextureTarget2DRendering()` returns after the
render pass, `ReadPixels` the outcome of its readback. -/
def ProcessScreenshot2D (E : Engine) (Resolution : FIntPoint)
    (RenderTarget : UTextureRenderTarget2D) (ReadPixels : Bool × List FColor)
    (c : FHoloPlayViewportClient) : FHoloPlayViewportClient × List Effect :=
  match c.HoloPlayScreenshot2DRequest with
  | some Request =>
    if Request.Filename.isEmpty then
      ({ c with HoloPlayScreenshot2DRequest := none }, [])
    else
      let ScreenshotResolutionX := Resolution.X
      let ScreenshotResolutionY := Resolution.Y
      if ScreenshotResolutionX ≤ 0 || ScreenshotResolutionY ≤ 0 then
        (c, [])
      else
        let shot := GetRenderTargetScreenShot ReadPixels
        let bScreenshotSuccessful := shot.1
        let Bitmap := shot.2
        let saved :=
          if bScreenshotSuccessful then
            [Effect.SaveArrayToFile (ScreenShotName E Request.Filename)
              RenderTarget.SizeX RenderTarget.SizeY Bitmap]
          else []
        ({ c with HoloPlayScreenshot2DRequest := none },
          [Effect.Render2DView ScreenshotResolutionX ScreenshotResolutionY] ++ saved ++
            [Effect.OnScreenshot2DRequestProcessed])
  | none => (c, [])

end FHoloPlayViewportClient

/-- A simple instance of the engine's file-name services: screenshots go to
`Saved/Screenshots`, paths are joined with `/`, a file name's extension is what
follows its last `.` and the next free bitmap name has index `00000`. -/
def Engine.sample : Engine where
  GameScreenshotSaveDirectory := "Saved/Screenshots"
  PathCombine := fun a b => a ++ "/" ++ b
  GetBaseFilename := fun path _ =>
    if path.contains '.' then
      String.intercalate "." ((path.splitOn ".").dropLast)
    else path
  GetExtension := fun path =>
    if path.contains '.' then (path.splitOn ".").getLastD "" else ""
  GenerateNextBitmapFilename := fun Pattern Extension => Pattern ++ "00000." ++ Extension

/-! ## Resolution strings (`FHoloPlayViewportClient::ParseResolution`)

A `TCHAR` string is the list of its characters.  The engine's string
helpers that `ParseResolution` calls are written out below as the engine
defines them; `Atof` is the C function `strtod` followed by the conversion to
`float`. -/

/-- The engine's `FChar::IsWhitespace`, on the white-space characters of the
C locale: space, tab, line feed, vertical tab, form feed, carriage return. -/
def IsWhitespace (c : Char) : Bool :=
  c == ' ' || (9 ≤ c.toNat && c.toNat ≤ 13)

/-- The engine's `FString::TrimStartAndEnd`: white space removed at the end
and at the start. -/
def TrimStartAndEnd (s : List Char) : List Char :=
  ((s.reverse.dropWhile IsWhitespace).reverse).dropWhile IsWhitespace

/-- The engine's `FString::ToLower`: the letters `A` to `Z` lowered. -/
def ToLower (s : List Char) : List Char :=
  s.map Char.toLower

/-- The engine's `FCString::Strchr(s, c)`: the rest of `s` from the first
occurrence of `c` on, or null. -/
def Strchr : List Char → Char → Option (List Char)
  | [], _ => none
  | a :: rest, c => if a == c then some (a :: rest) else Strchr rest c

/-- The loop of the engine's `FCString::IsNumeric`: digits with at most one
`.`; `bHasDot` tells whether a `.` has been read. -/
def IsNumericLoop : List Char → Bool → Bool
  | [], _ => true
  | a :: rest, bHasDot =>
    if a == '.' then
      if bHasDot then false else IsNumericLoop rest true
    else if !a.isDigit then false
    else IsNumericLoop rest bHasDot

/-- The engine's `FString::IsNumeric`: false for the empty string, otherwise
`FCString::IsNumeric`, which skips one leading `-` or `+` and runs the loop. -/
def IsNumeric (s : List Char) : Bool :=
  if s.isEmpty then false
  else
    match s with
    | '-' :: rest => IsNumericLoop rest false
    | '+' :: rest => IsNumericLoop rest false
    | _ => IsNumericLoop s false

/-- The number written by a list of decimal digits, most significant first. -/
def digitsValue (ds : List Char) : Nat :=
  ds.foldl (fun acc c => 10 * acc + (c.toNat - 48)) 0

/-- Whether `c` is a hexadecimal digit. -/
def IsHexDigit (c : Char) : Bool :=
  c.isDigit || (97 ≤ c.toNat && c.toNat ≤ 102) || (65 ≤ c.toNat && c.toNat ≤ 70)

/-- The value of a hexadecimal digit. -/
def hexDigitValue (c : Char) : Nat :=
  if c.isDigit then c.toNat - 48 else if 97 ≤ c.toNat then c.toNat - 87 else c.toNat - 55

/-- The number written by a list of hexadecimal digits, most significant
first. -/
def hexDigitsValue (ds : List Char) : Nat :=
  ds.foldl (fun acc c => 16 * acc + hexDigitValue c) 0

/-- The exponent part of a numeral of `strtod`: the marker (`e` or `p`, in
either case), an optional sign and decimal digits.  The value is 0 when the
text does not start with the marker followed by a number. -/
def ReadExponent (Marker : Char) (s : List Char) : Int :=
  match s with
  | [] => 0
  | c :: rest =>
    if c.toLower == Marker then
      let digits :=
        (if rest.head? == some '-' || rest.head? == some '+' then rest.tail else rest).takeWhile
          Char.isDigit
      if rest.head? == some '-' then -((digitsValue digits : Nat) : Int)
      else ((digitsValue digits : Nat) : Int)
    else 0

/-- The text after `0x` or `0X` at the start of `s`; nothing when `s` does not
start so. -/
def HexText (s : List Char) : List Char :=
  match s with
  | '0' :: x :: rest => if x == 'x' || x == 'X' then rest else []
  | _ => []

/-- The digits of a fraction: those that follow a point at the start of `s`. -/
def FractionDigits (IsDigit : Char → Bool) (s : List Char) : List Char :=
  match s with
  | '.' :: rest => rest.takeWhile IsDigit
  | _ => []

/-- The text after a fraction: what follows the point at the start of `s` and
its digits, or `s` when it does not start with a point. -/
def AfterFraction (IsDigit : Char → Bool) (s : List Char) : List Char :=
  match s with
  | '.' :: rest => rest.dropWhile IsDigit
  | _ => s

/-- The C function `strtod`, which the engine's `FCString::Atof` calls: white
space is skipped and an optional sign read; then `inf` or `nan` in either case,
or a hexadecimal numeral (`0x`, hexadecimal digits with an optional point, an
optional binary exponent after `p`), or a decimal numeral (digits with an
optional point, an optional decimal exponent after `e`) is read, up to the first
character that does not continue it; the value is rounded to `double`.  A text
with no numeral gives 0. -/
def Strtod (s : List Char) : FloatValue :=
  let s1 := s.dropWhile IsWhitespace
  let negative := s1.head? == some '-'
  let s2 := if s1.head? == some '-' || s1.head? == some '+' then s1.tail else s1
  if ToLower (s2.take 3) == ['i', 'n', 'f'] then FloatValue.infinity negative
  else if ToLower (s2.take 3) == ['n', 'a', 'n'] then FloatValue.nan
  else
    let hexInteger := (HexText s2).takeWhile IsHexDigit
    let hexFraction := FractionDigits IsHexDigit ((HexText s2).dropWhile IsHexDigit)
    if !(hexInteger.isEmpty && hexFraction.isEmpty) then
      let p := ReadExponent 'p' (AfterFraction IsHexDigit ((HexText s2).dropWhile IsHexDigit))
      Double.Round negative (hexDigitsValue (hexInteger ++ hexFraction) * 2 ^ p.toNat)
        (16 ^ hexFraction.length * 2 ^ (-p).toNat)
    else
      let integerPart := s2.takeWhile Char.isDigit
      let fraction := FractionDigits Char.isDigit (s2.dropWhile Char.isDigit)
      if integerPart.isEmpty && fraction.isEmpty then FloatValue.finite false 0 0
      else
        let e := ReadExponent 'e' (AfterFraction Char.isDigit (s2.dropWhile Char.isDigit))
        Double.Round negative (digitsValue (integerPart ++ fraction) * 10 ^ e.toNat)
          (10 ^ fraction.length * 10 ^ (-e).toNat)

/-- The engine's `FCString::Atof`: the `double` read by the C library,
converted to `float`. -/
def Atof (s : List Char) : FloatValue :=
  Float32.ofDouble (Strtod s)

/-- The engine's `FMath::Max(x, 0.0f)`, `(x >= 0.0f) ? x : 0.0f`: a negative
value, and a value that is not a number, give `0.0f`. -/
def MaxZero (x : FloatValue) : FloatValue :=
  match x with
  | FloatValue.finite s m e =>
    if s && m != 0 then FloatValue.finite false 0 0 else FloatValue.finite s m e
  | FloatValue.infinity s =>
    if s then FloatValue.finite false 0 0 else FloatValue.infinity s
  | FloatValue.nan => FloatValue.finite false 0 0

/-- The conversion to `uint32` of a `float` that is not negative: the fraction
is dropped.  A value of `2 ^ 32` or more is outside the range of the conversion
in C++; the model gives what the conversion instruction of x86-64 leaves, the
low 32 bits of the whole part, and 0 for an infinity. -/
def toUInt32 (x : FloatValue) : Nat :=
  match x with
  | FloatValue.finite _ m e => (m * 2 ^ e.toNat / 2 ^ (-e).toNat) % 2 ^ 32
  | _ => 0

/-- The method `FHoloPlayViewportClient::ParseResolution(InResolution, OutX,
OutY)`: the flag returned and the values of `OutX` and `OutY` afterwards. -/
def ParseResolution (InResolution : String) (OutX OutY : Nat) : Bool × Nat × Nat :=
  if !InResolution.toList.isEmpty then
    let CmdString := ToLower (TrimStartAndEnd InResolution.toList)
    match Strchr CmdString 'x' with
    | some found =>
      let YValue := found.tail
      let YString := TrimStartAndEnd YValue
      if YString.length > 0 then
        if IsNumeric YString then
          let X := toUInt32 (MaxZero (Atof CmdString))
          let Y := toUInt32 (MaxZero (Atof YValue))
          (true, X, Y)
        else (false, OutX, OutY)
      else (false, OutX, OutY)
    | none => (false, OutX, OutY)
  else (false, OutX, OutY)

/-! ## The draw cycle (`FHoloPlayViewportClient::Draw`) -/

/-- The struct `FHoloPlayScreenshotSettings`; `InputKey` is the name of the key. -/
structure FHoloPlayScreenshotSettings where
  FileName : String := ""
  InputKey : String := "F9"
  Resolution : FIntPoint := { X := 0, Y := 0 }
  bResolutionVisible : Bool := false
  deriving DecidableEq

/-- The constructor `FHoloPlayScreenshotSettings(InFileName, InInputKey,
InScreenshotResolutionX, InScreenshotResolutionY)`. -/
def FHoloPlayScreenshotSettings.ctor (InFileName InInputKey : String)
    (InScreenshotResolutionX InScreenshotResolutionY : Int) : FHoloPlayScreenshotSettings :=
  { FileName := InFileName
    InputKey := InInputKey
    Resolution := { X := InScreenshotResolutionX, Y := InScreenshotResolutionY }
    bResolutionVisible := !(InScreenshotResolutionX == 0 && InScreenshotResolutionY == 0) }

/-- The struct `FHoloPlayRenderingSettings`; `CustomAspect` is `(X, Y)`, with
the default `FVector2D(3.f, 4.0f)`. -/
structure FHoloPlayRenderingSettings where
  bVsync : Bool := true
  QuiltMode : Bool := false
  bRender2D : Bool := false
  bUseCustomAspect : Bool := false
  CustomAspect : FloatValue × FloatValue := (Float32.ofInt 3, Float32.ofInt 4)
  deriving DecidableEq

/-- The enum `EHoloPlayModeType`. -/
inductive EHoloPlayModeType where
  | PlayMode_InSeparateWindow
  | PlayMode_InMainViewport
  deriving DecidableEq

/-- The struct `FHoloPlayWindowLocation` with the values of its default
constructor. -/
structure FHoloPlayWindowLocation where
  ClientSize : FIntPoint := { X := 2560, Y := 1600 }
  ScreenPosition : FIntPoint := { X := 2560, Y := 0 }
  deriving DecidableEq

/-- The struct `FHoloPlayWindowSettings`.  `PlacementMode` is the value of the
`uint8` enum `EHoloPlayPlacement` (0 `Automatic`, 1 `CustomWindow`,
2 `AlwaysDebugWindow`), which a cast from an integer can set to any value below
256. -/
structure FHoloPlayWindowSettings where
  PlacementMode : Nat := 0
  ScreenIndex : Int := 0
  CustomWindowLocation : FHoloPlayWindowLocation := {}
  DebugWindowLocation : FHoloPlayWindowLocation :=
    { ClientSize := { X := 800, Y := 800 }, ScreenPosition := { X := 200, Y := 200 } }
  LastExecutedPlayModeType : EHoloPlayModeType := EHoloPlayModeType.PlayMode_InSeparateWindow
  bLockInMainViewport : Bool := false
  deriving DecidableEq

/-- The settings object `UHoloPlaySettings` as the viewport client reads and
writes it: the three screenshot settings, the rendering settings and the window
settings, with the defaults of the class. -/
structure UHoloPlaySettings where
  HoloPlayLenticularScreenshotSettings : FHoloPlayScreenshotSettings :=
    FHoloPlayScreenshotSettings.ctor "LenticularScreenshot" "F10" 0 0
  HoloPlayScreenshotQuiltSettings : FHoloPlayScreenshotSettings :=
    FHoloPlayScreenshotSettings.ctor "ScreenshotQuilt" "F9" 0 0
  HoloPlayScreenshot2DSettings : FHoloPlayScreenshotSettings :=
    FHoloPlayScreenshotSettings.ctor "Screenshot2D" "F8" 1280 720
  HoloPlayRenderingSettings : FHoloPlayRenderingSettings := {}
  HoloPlayWindowSettings : FHoloPlayWindowSettings := {}
  deriving DecidableEq

/-- The capture component `UHoloPlaySceneCaptureComponent2D` as `Draw` reads
it: `GetTilingValues()`, `GetRenderingConfigs()`, `GetOverrideQuiltTexture2D()`
(null, or a texture with its `Resource`), and the target
`GetTextureTarget2DRendering()` of the 2D render with its `Resource`. -/
structure UHoloPlaySceneCaptureComponent2D where
  TilingValues : FHoloPlayTilingQuality
  RenderingConfigs : List FHoloPlayRenderingConfig
  OverrideQuiltTexture2D : Option (Option Nat)
  TextureTarget2DRendering : UTextureRenderTarget2D
  TextureTarget2DResource : Option Nat
  deriving DecidableEq

/-- The aggregate `HoloPlay::FRender2DViewContext`: the viewport and the
resource of the 2D render target. -/
structure FRender2DViewContext where
  Viewport : Nat
  RenderTarget : Option Nat
  deriving DecidableEq

/-- The aggregate `HoloPlay::FLenticularRenderContext`, with its members in
the order in which `Draw` initialises them. -/
structure FLenticularRenderContext where
  Viewport : Nat
  QuiltRT : Nat
  TilingValues : FHoloPlayTilingQuality
  OverrideQuiltTexture2D : Option Nat
  Settings : UHoloPlaySettings
  deriving DecidableEq

/-- The colours `Draw` clears the canvas to. -/
inductive FLinearColor where
  | Black
  | Blue
  | Green
  | Red
  deriving DecidableEq

/-- The pipeline stages a `Draw` call issues, in the order issued: canvas
clears, the allocation and resizing of the quilt target by `GetQuiltRT`, the
failed `ensureMsgf`, the 2D view render and its render command, the two
screenshot servicing calls with the effects they perform, `RenderViews`, the
copy-to-quilt commands, the error logged for a null render target,
`FlushRenderingCommands` and the lenticular shader command. -/
inductive Stage where
  | Clear (Color : FLinearColor)
  | NewQuiltRT (SizeX SizeY : Int)
  | ResizeTarget (SizeX SizeY : Int)
  | UpdateResourceImmediate
  | EnsureNoRenderingConfigs
  | Render2DView
  | Render2DView_RenderThread (Context : FRender2DViewContext)
  | ProcessScreenshot2D (Effects : List Effect)
  | RenderViews
  | CopyToQuiltShader_RenderThread (Context : FCopyToQuiltRenderContext)
  | LogRenderTargetNull
  | FlushRenderingCommands
  | ProcessScreenshotQuilts (Effects : List Effect)
  | RenderLenticularShader_RenderThread (Context : FLenticularRenderContext)
  deriving DecidableEq

/-- The method `FHoloPlayViewportClient::GetQuiltRT`, on the member `QuiltRT`
(null is `none`): the quilt target afterwards and the stages issued. -/
def GetQuiltRT (TilingValues : FHoloPlayTilingQuality)
    (QuiltRT : Option UTextureRenderTarget2D) : UTextureRenderTarget2D × List Stage :=
  let created : UTextureRenderTarget2D × List Stage :=
    match QuiltRT with
    | none =>
      ({ SizeX := TilingValues.QuiltW, SizeY := TilingValues.QuiltH },
        [Stage.NewQuiltRT TilingValues.QuiltW TilingValues.QuiltH,
          Stage.UpdateResourceImmediate])
    | some Target => (Target, [])
  if TilingValues.QuiltW != created.1.SizeX || TilingValues.QuiltH != created.1.SizeY then
    ({ SizeX := TilingValues.QuiltW, SizeY := TilingValues.QuiltH },
      created.2 ++ [Stage.ResizeTarget TilingValues.QuiltW TilingValues.QuiltH,
        Stage.UpdateResourceImmediate])
  else created

/-- What a `Draw` call reads from outside the client: the settings object, the
capture component `GetGameHoloPlayCaptureComponent()` (`none` when it is not
valid), the viewport, the resource of the quilt target, and the outcomes of the
pixel readbacks of the 2D target and of the quilt target. -/
structure DrawInputs where
  Settings : UHoloPlaySettings
  CaptureComponent : Option UHoloPlaySceneCaptureComponent2D
  Viewport : Nat
  QuiltResource : Nat
  ReadPixels2D : Bool × List FColor
  ReadPixelsQuilt : Bool × List FColor

/-- The method `FHoloPlayViewportClient::Draw(InViewport, InCanvas)`, on the
request members of the client and its member `QuiltRT`: the client and `QuiltRT`
afterwards, and the stages issued. -/
def Draw (E : Engine) (I : DrawInputs) (QuiltRT : Option UTextureRenderTarget2D)
    (c : FHoloPlayViewportClient) :
    FHoloPlayViewportClient × Option UTextureRenderTarget2D × List Stage :=
  let RenderingSettings := I.Settings.HoloPlayRenderingSettings
  match I.CaptureComponent with
  | none => (c, QuiltRT, [Stage.Clear FLinearColor.Black, Stage.Clear FLinearColor.Blue])
  | some HoloPlayCaptureComponent =>
    let quilt := GetQuiltRT HoloPlayCaptureComponent.TilingValues QuiltRT
    let s0 := [Stage.Clear FLinearColor.Black] ++ quilt.2
    if HoloPlayCaptureComponent.RenderingConfigs.length == 0 then
      (c, some quilt.1,
        s0 ++ [Stage.EnsureNoRenderingConfigs, Stage.Clear FLinearColor.Green])
    else if RenderingSettings.bRender2D == true then
      let Render2DViewContext : FRender2DViewContext :=
        { Viewport := I.Viewport
          RenderTarget := HoloPlayCaptureComponent.TextureTarget2DResource }
      (c, some quilt.1,
        s0 ++ [Stage.Render2DView, Stage.Render2DView_RenderThread Render2DViewContext])
    else
      let bIsOverrideQuiltTexture2D := HoloPlayCaptureComponent.OverrideQuiltTexture2D.isSome
      let shot2D := c.ProcessScreenshot2D E I.Settings.HoloPlayScreenshot2DSettings.Resolution
        HoloPlayCaptureComponent.TextureTarget2DRendering I.ReadPixels2D
      let s1 := s0 ++ [Stage.ProcessScreenshot2D shot2D.2]
      let copy : List FCopyToQuiltRenderContext × Bool :=
        if !bIsOverrideQuiltTexture2D then
          copyToQuilt I.QuiltResource HoloPlayCaptureComponent.TilingValues
            HoloPlayCaptureComponent.RenderingConfigs
        else ([], false)
      let s2 := s1 ++ (if !bIsOverrideQuiltTexture2D then [Stage.RenderViews] else []) ++
        copy.1.map Stage.CopyToQuiltShader_RenderThread
      if copy.2 then
        (shot2D.1, some quilt.1, s2 ++ [Stage.LogRenderTargetNull])
      else
        let shotQuilt := shot2D.1.ProcessScreenshotQuilts E quilt.1 I.ReadPixelsQuilt
        let RenderContext : FLenticularRenderContext :=
          { Viewport := I.Viewport
            QuiltRT := I.QuiltResource
            TilingValues := HoloPlayCaptureComponent.TilingValues
            OverrideQuiltTexture2D :=
              match HoloPlayCaptureComponent.OverrideQuiltTexture2D with
              | some Texture => Texture
              | none => none
            Settings := I.Settings }
        (shotQuilt.1, some quilt.1,
          s2 ++ [Stage.FlushRenderingCommands, Stage.ProcessScreenshotQuilts shotQuilt.2,
            Stage.RenderLenticularShader_RenderThread RenderContext])

/-- Whether a stage is a copy-to-quilt command. -/
def Stage.isCopyToQuilt : Stage → Bool
  | Stage.CopyToQuiltShader_RenderThread _ => true
  | _ => false

/-- Whether a stage is a lenticular shader command. -/
def Stage.isLenticular : Stage → Bool
  | Stage.RenderLenticularShader_RenderThread _ => true
  | _ => false

/-- Whether a stage is a `Render2DView_RenderThread` command. -/
def Stage.isRender2DCommand : Stage → Bool
  | Stage.Render2DView_RenderThread _ => true
  | _ => false

/-- Whether a stage is a call of `ProcessScreenshotQuilts`. -/
def Stage.isQuiltServicing : Stage → Bool
  | Stage.ProcessScreenshotQuilts _ => true
  | _ => false

/-- The render contexts of the copy-to-quilt commands among some stages, in
the order issued. -/
def copyCommands (stages : List Stage) : List FCopyToQuiltRenderContext :=
  stages.filterMap fun s =>
    match s with
    | Stage.CopyToQuiltShader_RenderThread Context => some Context
    | _ => none

/-- The render contexts of the lenticular shader commands among some stages. -/
def lenticularCommands (stages : List Stage) : List FLenticularRenderContext :=
  stages.filterMap fun s =>
    match s with
    | Stage.RenderLenticularShader_RenderThread Context => some Context
    | _ => none

/-- Whether a rendering config has a render target with a resource. -/
def FHoloPlayRenderingConfig.hasResource (cfg : FHoloPlayRenderingConfig) : Bool :=
  match cfg.RenderTarget with
  | some (some _) => true
  | _ => false

/-- A capture component for the 2 by 2 quilt of tile size 50 by 50 with two
rendering configs, the first with no view and the second with two views. -/
def UHoloPlaySceneCaptureComponent2D.sample : UHoloPlaySceneCaptureComponent2D :=
  { TilingValues := FHoloPlayTilingQuality.ctor "Quilt" 2 2 100 100 false false
    RenderingConfigs :=
      [{ RenderTarget := some (some 1), ViewInfoArr := [], ViewRows := 0, ViewColumns := 0 },
       { RenderTarget := some (some 2), ViewInfoArr := [10, 11], ViewRows := 1,
         ViewColumns := 2 }]
    OverrideQuiltTexture2D := none
    TextureTarget2DRendering := { SizeX := 1280, SizeY := 720 }
    TextureTarget2DResource := some 3 }

/-- Inputs of a draw call with the sample capture component, the default
settings with `bRender2D` as given, and readbacks that succeed with no pixel. -/
def DrawInputs.sample (bRender2D : Bool) : DrawInputs :=
  { Settings := { HoloPlayRenderingSettings := { bRender2D := bRender2D } }
    CaptureComponent := some UHoloPlaySceneCaptureComponent2D.sample
    Viewport := 0
    QuiltResource := 4
    ReadPixels2D := (true, [])
    ReadPixelsQuilt := (true, []) }

/-- A capture component whose second rendering config has a render target
without resource, between two configs that have one. -/
def UHoloPlaySceneCaptureComponent2D.sampleNullTarget : UHoloPlaySceneCaptureComponent2D :=
  { UHoloPlaySceneCaptureComponent2D.sample with
    RenderingConfigs :=
      [{ RenderTarget := some (some 1), ViewInfoArr := [10, 11], ViewRows := 1,
         ViewColumns := 2 },
       { RenderTarget := some none, ViewInfoArr := [12], ViewRows := 1, ViewColumns := 1 },
       { RenderTarget := some (some 2), ViewInfoArr := [13], ViewRows := 1,
         ViewColumns := 1 }] }

/-- The sample capture component with an override quilt texture whose resource
is number 9. -/
def UHoloPlaySceneCaptureComponent2D.sampleOverride : UHoloPlaySceneCaptureComponent2D :=
  { UHoloPlaySceneCaptureComponent2D.sample with OverrideQuiltTexture2D := some (some 9) }

/-- Inputs of a draw call in hologram mode with the given capture component. -/
def DrawInputs.sampleFor (Component : UHoloPlaySceneCaptureComponent2D) : DrawInputs :=
  { DrawInputs.sample false with CaptureComponent := some Component }

/-- A client on which a quilt request and a 2D request are pending, both for
the file `Shot.png`. -/
def FHoloPlayViewportClient.samplePending : FHoloPlayViewportClient :=
  { HoloPlayQuilScreenshotRequest := some { Filename := "Shot.png" }
    HoloPlayScreenshot2DRequest := some { Filename := "Shot.png" } }

/-- The sample capture component with two rendering configs, of two views
and of one view. -/
def UHoloPlaySceneCaptureComponent2D.sampleTwoConfigs : UHoloPlaySceneCaptureComponent2D :=
  { UHoloPlaySceneCaptureComponent2D.sample with
    RenderingConfigs :=
      [{ RenderTarget := some (some 1), ViewInfoArr := [10, 11], ViewRows := 1,
         ViewColumns := 2 },
       { RenderTarget := some (some 2), ViewInfoArr := [12], ViewRows := 1,
         ViewColumns := 1 }] }

/-! ## Cropping a screenshot (`ClipScreenshot`) -/

/-- An integer vector `FIntVector`. -/
structure FIntVector where
  X : Int
  Y : Int
  Z : Int
  deriving DecidableEq

/-- The engine's `FIntRect::Width`. -/
def FIntRect.Width (r : FIntRect) : Int := r.MaxX - r.MinX

/-- The engine's `FIntRect::Height`. -/
def FIntRect.Height (r : FIntRect) : Int := r.MaxY - r.MinY

/-- The engine's `FIntRect::IsEmpty`: the rectangle is 0 by 0. -/
def FIntRect.IsEmpty (r : FIntRect) : Bool := r.Width == 0 && r.Height == 0

/-- The engine's `FMemory::Memmove` inside one array, in elements: `Count`
elements read from index `Src` on are written from index `Dest` on, all of them
read before any is written.  Both ranges are taken to lie inside the array. -/
def Memmove (Data : List FColor) (Dest Src Count : Nat) : List FColor :=
  Data.take Dest ++ (Data.drop Src).take Count ++ Data.drop (Dest + Count)

/-- The engine's `TArray::RemoveAt(Index, Count, bAllowShrinking)`. -/
def RemoveAt (Data : List FColor) (Index Count : Nat) : List FColor :=
  Data.take Index ++ Data.drop (Index + Count)

/-- The loop `for (int32 Row = 0; Row < NewHeight; Row++)` of `ClipScreenshot`
with `remaining` rows to go from `Row` on: each row of the capture region is
moved to its place in the clipped bitmap. -/
def ClipRows (OldWidth NewWidth CaptureTopRow CaptureLeftColumn : Int) :
    Nat → Nat → List FColor → List FColor
  | 0, _, Data => Data
  | remaining + 1, Row, Data =>
    ClipRows OldWidth NewWidth CaptureTopRow CaptureLeftColumn remaining (Row + 1)
      (Memmove Data ((Row : Int) * NewWidth).toNat
        (((Row : Int) + CaptureTopRow) * OldWidth + CaptureLeftColumn).toNat NewWidth.toNat)

/-- The function `ClipScreenshot(Size, SourceRect, Bitmap)`: `Size` and
`Bitmap` afterwards. -/
def ClipScreenshot (Size : FIntVector) (SourceRect : FIntRect) (Bitmap : List FColor) :
    FIntVector × List FColor :=
  if !SourceRect.IsEmpty then
    let OldWidth := Size.X
    let OldHeight := Size.Y
    let NewWidth := SourceRect.Width
    let NewHeight := SourceRect.Height
    let CaptureTopRow := SourceRect.MinY
    let CaptureLeftColumn := SourceRect.MinX
    let Data := ClipRows OldWidth NewWidth CaptureTopRow CaptureLeftColumn NewHeight.toNat 0
      Bitmap
    ({ X := NewWidth, Y := NewHeight, Z := 0 },
      RemoveAt Data (NewWidth * NewHeight).toNat
        (OldWidth * OldHeight - NewWidth * NewHeight).toNat)
  else (Size, Bitmap)

/-- A 4 by 3 bitmap whose pixel at row `r` and column `c` has red `10 * r + c`. -/
def sampleBitmap : List FColor :=
  (List.range 12).map fun i => { R := 10 * (i / 4) + i % 4, G := 0, B := 0, A := 255 }

/-! ## Console commands (`FHoloPlayViewportClient::Exec`)

The command line is the list of its characters.  `Exec` and its handlers
return the flag, the state afterwards and the calls made to the player, the
settings store and the capture component, in order. -/

/-- The enum `EHoloPlayQualitySettings`. -/
inductive EHoloPlayQualitySettings where
  | Q_Automatic
  | Q_Portrait
  | Q_PortraitHighRes
  | Q_FourK
  | Q_EightK
  | Q_EightPointNineLegacy
  | Q_Custom
  deriving DecidableEq

/-- The calibration record `FHoloPlayDisplayMetrics::FCalibration` as
`HandleShaderCommand` writes it: the four `float` fields it assigns. -/
structure FCalibration where
  Pitch : FloatValue
  Center : FloatValue
  ViewCone : FloatValue
  DPI : FloatValue
  deriving DecidableEq

/-- What the command handlers read and write: the viewport client,
`GetMutableDefault<UHoloPlaySettings>()` and the display manager's
`GetCalibrationSettingsMutable()`. -/
structure ExecState where
  Client : FHoloPlayViewportClient
  Settings : UHoloPlaySettings
  Calibration : FCalibration
  deriving DecidableEq

/-- The calls a handler makes outside the state: `IHoloPlayRuntime::Get().
RestartPlayer(mode)`, `UHoloPlaySettings::HoloPlaySave()` and the capture
component's `UpdateTillingProperties(quality)`. -/
inductive CommandEffect where
  | RestartPlayer (PlayModeType : EHoloPlayModeType)
  | HoloPlaySave
  | UpdateTillingProperties (TilingSettings : EHoloPlayQualitySettings)
  deriving DecidableEq

/-- What `Exec` reads from its surroundings: the engine's file-name services,
whether the member `Viewport` is non-null, whether
`GetGameHoloPlayCaptureComponent()` is valid, and the engine's
`FParse::Param(Cmd, "nosuffix")` as a function of `Cmd`. -/
structure ExecInputs where
  E : Engine
  Viewport : Bool
  CaptureComponentValid : Bool
  ParamNoSuffix : List Char → Bool

/-- The conversion of an integer value to `int32`: the value modulo `2 ^ 32`,
taken from `-2 ^ 31` on. -/
def toInt32 (x : Int) : Int :=
  (x + 2 ^ 31) % 2 ^ 32 - 2 ^ 31

/-- The engine's `FChar::IsAlnum` on the characters of the C locale: letters
and digits. -/
def IsAlnum (c : Char) : Bool :=
  c.isAlphanum

/-- The loop `while (**Stream == ' ' || **Stream == '\t') (*Stream)++` of
`FParse::Command`. -/
def SkipBlanks (Stream : List Char) : List Char :=
  Stream.dropWhile fun c => c == ' ' || c == '\t'

/-- The engine's `FParse::Command(&Stream, Match)`: the flag returned and
`Stream` afterwards.  Blanks are skipped; when the next characters are `Match`
but for case (`Strnicmp`) and the character after them is not alphanumeric (the
end of the string is not), `Stream` moves past them and the blanks that follow,
and the flag is `true`; otherwise `Stream` stays after the first blanks and the
flag is `false`. -/
def FParse.Command (Stream : List Char) (Match : String) : Bool × List Char :=
  let Stream := SkipBlanks Stream
  let MatchLen := Match.length
  if ToLower (Stream.take MatchLen) == ToLower Match.toList then
    match Stream.drop MatchLen with
    | [] => (true, [])
    | c :: Rest => if !IsAlnum c then (true, SkipBlanks (c :: Rest)) else (false, Stream)
  else (false, Stream)

/-- The engine's `FCString::Atoi`, the C function: white space is skipped, then
an optional sign and the decimal digits up to the first other character are
read; no digit gives 0.  The value is converted to `int32`. -/
def Atoi (s : List Char) : Int :=
  let s1 := s.dropWhile IsWhitespace
  let negative := s1.head? == some '-'
  let s2 := if s1.head? == some '-' || s1.head? == some '+' then s1.tail else s1
  let value : Int := (digitsValue (s2.takeWhile Char.isDigit) : Nat)
  toInt32 (if negative then -value else value)

/-- The engine's `FString::ParseIntoArray(Args, " ")`: the parts of the string
between spaces, the empty parts left out. -/
def ParseIntoArray (CmdString : String) : List String :=
  (CmdString.splitOn " ").filter fun Arg => !Arg.isEmpty

/-- The method `FHoloPlayViewportClient::ParseScreenshotCommand(Cmd, InName,
InSuffix)`: the values of `InName` and `InSuffix` afterwards. -/
def ParseScreenshotCommand (I : ExecInputs) (Cmd : List Char) (InName : String)
    (InSuffix : Bool) : String × Bool :=
  let CmdString := String.mk Cmd
  let Args := ParseIntoArray CmdString
  let InName := if Args.length > 1 then Args.headD InName else CmdString
  let InSuffix := if I.ParamNoSuffix Cmd then false else InSuffix
  (InName, InSuffix)

/-- The method `HandleLenticularScreenshotCommand`. -/
def HandleLenticularScreenshotCommand (I : ExecInputs) (s : ExecState) (Cmd : List Char) :
    Bool × ExecState × List CommandEffect :=
  if I.Viewport then
    let Parsed := ParseScreenshotCommand I Cmd "" true
    let r := s.Client.PreparePlayLenticularScreenshot I.E Parsed.1 false Parsed.2
    (r.1, { s with Client := r.2 }, [])
  else (true, s, [])

/-- The method `HandleScreenshotQuiltCommand`. -/
def HandleScreenshotQuiltCommand (I : ExecInputs) (s : ExecState) (Cmd : List Char) :
    Bool × ExecState × List CommandEffect :=
  if I.Viewport then
    let Parsed := ParseScreenshotCommand I Cmd "" true
    let r := s.Client.PreparePlayScreenshotQuilt I.E Parsed.1 Parsed.2
    (r.1, { s with Client := r.2 }, [])
  else (true, s, [])

/-- The method `HandleScreenshot2DCommand`. -/
def HandleScreenshot2DCommand (I : ExecInputs) (s : ExecState) (Cmd : List Char) :
    Bool × ExecState × List CommandEffect :=
  if I.Viewport then
    let Parsed := ParseScreenshotCommand I Cmd "" true
    let r := s.Client.PreparePlayScreenshot2D I.E Parsed.1 Parsed.2
    (r.1, { s with Client := r.2 }, [])
  else (true, s, [])

/-- The assignment `HoloPlaySettings->HoloPlayWindowSettings = Value`. -/
def ExecState.setWindow (s : ExecState) (Value : FHoloPlayWindowSettings) : ExecState :=
  { s with Settings := { s.Settings with HoloPlayWindowSettings := Value } }

/-- The assignment `HoloPlaySettings->HoloPlayRenderingSettings = Value`. -/
def ExecState.setRendering (s : ExecState) (Value : FHoloPlayRenderingSettings) : ExecState :=
  { s with Settings := { s.Settings with HoloPlayRenderingSettings := Value } }

/-- The assignment `HoloPlaySettings->HoloPlayWindowSettings.CustomWindowLocation.
ClientSize = Value`. -/
def ExecState.setClientSize (s : ExecState) (Value : FIntPoint) : ExecState :=
  let Window := s.Settings.HoloPlayWindowSettings
  let Location : FHoloPlayWindowLocation := { Window.CustomWindowLocation with ClientSize := Value }
  s.setWindow { Window with CustomWindowLocation := Location }

/-- The value of `HoloPlaySettings->HoloPlayWindowSettings.CustomWindowLocation.
ClientSize`. -/
def ExecState.ClientSize (s : ExecState) : FIntPoint :=
  s.Settings.HoloPlayWindowSettings.CustomWindowLocation.ClientSize

/-- The method `HandleWindowCommand`.  `FIntPoint(X, Y)` takes the `uint32`
values as `int32`; the cast to `EHoloPlayPlacement` keeps the low 8 bits. -/
def HandleWindowCommand (s : ExecState) (Cmd : List Char) :
    Bool × ExecState × List CommandEffect :=
  let c1 := FParse.Command Cmd "ClientSize"
  let afterClientSize : ExecState × List CommandEffect × Bool :=
    if c1.1 then
      let Parsed := ParseResolution (String.mk c1.2) 0 0
      let X := Parsed.2.1
      let Y := Parsed.2.2
      let s1 := if X > 0 && Y > 0 then s.setClientSize { X := toInt32 X, Y := toInt32 Y } else s
      (s1, [CommandEffect.RestartPlayer s1.Settings.HoloPlayWindowSettings.LastExecutedPlayModeType],
        true)
    else (s, [], false)
  let s1 := afterClientSize.1
  let c2 := FParse.Command c1.2 "PlacementMode"
  let afterPlacementMode : ExecState × Bool :=
    if c2.1 then
      if IsNumeric c2.2 then
        let NewVal := Atoi c2.2
        (s1.setWindow { s1.Settings.HoloPlayWindowSettings with
            PlacementMode := (NewVal % 256).toNat }, true)
      else (s1, afterClientSize.2.2)
    else (s1, afterClientSize.2.2)
  let bWasHandled := afterPlacementMode.2
  if bWasHandled then
    (bWasHandled, afterPlacementMode.1, afterClientSize.2.1 ++ [CommandEffect.HoloPlaySave])
  else
    (bWasHandled, afterPlacementMode.1, afterClientSize.2.1)

/-- The method `HandleShaderCommand`.
`c1` to `c8` are the calls of `FParse::Command` of the `else if` chain, each on
the stream the one before left; a call is used only when those before failed. -/
def HandleShaderCommand (s : ExecState) (Cmd : List Char) :
    Bool × ExecState × List CommandEffect :=
  let Rendering := s.Settings.HoloPlayRenderingSettings
  let c1 := FParse.Command Cmd "QuiltMode"
  let c2 := FParse.Command c1.2 "Pitch"
  let c3 := FParse.Command c2.2 "Center"
  let c4 := FParse.Command c3.2 "ViewCone"
  let c5 := FParse.Command c4.2 "DPI"
  let c6 := FParse.Command c5.2 "CustomAspect"
  let c7 := FParse.Command c6.2 "CustomAspectX"
  let c8 := FParse.Command c7.2 "CustomAspectY"
  let r : Bool × ExecState :=
    if c1.1 then
      let NewVal := Atoi c1.2
      (true, s.setRendering { Rendering with QuiltMode := NewVal != 0 })
    else if c2.1 then
      let NewVal := Atof c2.2
      (true, { s with Calibration := { s.Calibration with Pitch := NewVal } })
    else if c3.1 then
      let NewVal := Atof c3.2
      (true, { s with Calibration := { s.Calibration with Center := NewVal } })
    else if c4.1 then
      let NewVal := Atof c4.2
      (true, { s with Calibration := { s.Calibration with ViewCone := NewVal } })
    else if c5.1 then
      let NewVal := Atof c5.2
      (true, { s with Calibration := { s.Calibration with DPI := NewVal } })
    else if c6.1 then
      let NewVal := Atoi c6.2
      (true, s.setRendering { Rendering with bUseCustomAspect := NewVal != 0 })
    else if c7.1 then
      let NewVal := Atof c7.2
      (true, s.setRendering { Rendering with CustomAspect := (NewVal, Rendering.CustomAspect.2) })
    else if c8.1 then
      let NewVal := Atof c8.2
      (true, s.setRendering { Rendering with CustomAspect := (Rendering.CustomAspect.1, NewVal) })
    else (false, s)
  let bWasHandled := r.1
  if bWasHandled then (bWasHandled, r.2, [CommandEffect.HoloPlaySave])
  else (bWasHandled, r.2, [])

/-- The method `HandleSceneCommand`. -/
def HandleSceneCommand (s : ExecState) (_Cmd : List Char) :
    Bool × ExecState × List CommandEffect :=
  (true, s, [])

/-- The method `HandleTillingCommand`; `c1` to `c6` are the calls of
`FParse::Command` of the `else if` chain, each on the stream the one before
left, and `none` is the `else` branch that returns `false`. -/
def HandleTillingCommand (I : ExecInputs) (s : ExecState) (Cmd : List Char) :
    Bool × ExecState × List CommandEffect :=
  if !I.CaptureComponentValid then (false, s, [])
  else
    let c1 := FParse.Command Cmd "Automatic"
    let c2 := FParse.Command c1.2 "Portrait"
    let c3 := FParse.Command c2.2 "PortraitHiRes"
    let c4 := FParse.Command c3.2 "FourK"
    let c5 := FParse.Command c4.2 "EightK"
    let c6 := FParse.Command c5.2 "EightNineLegacy"
    let TilingSettings : Option EHoloPlayQualitySettings :=
      if c1.1 then some EHoloPlayQualitySettings.Q_Automatic
      else if c2.1 then some EHoloPlayQualitySettings.Q_Portrait
      else if c3.1 then some EHoloPlayQualitySettings.Q_PortraitHighRes
      else if c4.1 then some EHoloPlayQualitySettings.Q_FourK
      else if c5.1 then some EHoloPlayQualitySettings.Q_EightK
      else if c6.1 then some EHoloPlayQualitySettings.Q_EightPointNineLegacy
      else none
    match TilingSettings with
    | none => (false, s, [])
    | some Quality =>
      (true, s, [CommandEffect.UpdateTillingProperties Quality, CommandEffect.HoloPlaySave])

/-- The method `HandleRenderingCommand`. -/
def HandleRenderingCommand (s : ExecState) (Cmd : List Char) :
    Bool × ExecState × List CommandEffect :=
  let Rendering := s.Settings.HoloPlayRenderingSettings
  let c1 := FParse.Command Cmd "Render2D"
  let r : Bool × ExecState :=
    if c1.1 then
      if IsNumeric c1.2 then
        let NewVal := Atoi c1.2
        (true, s.setRendering { Rendering with bRender2D := NewVal != 0 })
      else (true, s)
    else (false, s)
  let bWasHandled := r.1
  if bWasHandled then (bWasHandled, r.2, [CommandEffect.HoloPlaySave])
  else (bWasHandled, r.2, [])

/-- The method `FHoloPlayViewportClient::Exec`; `c1` to `c8` are the calls of
`FParse::Command` of the `else if` chain, each on the stream the one before
left. -/
def Exec (I : ExecInputs) (s : ExecState) (Cmd : List Char) :
    Bool × ExecState × List CommandEffect :=
  let c1 := FParse.Command Cmd "HoloPlay.LenticularScreenshot"
  let c2 := FParse.Command c1.2 "HoloPlay.ScreenshotQuilt"
  let c3 := FParse.Command c2.2 "HoloPlay.Screenshot2D"
  let c4 := FParse.Command c3.2 "HoloPlay.Window"
  let c5 := FParse.Command c4.2 "HoloPlay.Shader"
  let c6 := FParse.Command c5.2 "HoloPlay.Scene"
  let c7 := FParse.Command c6.2 "HoloPlay.Tilling"
  let c8 := FParse.Command c7.2 "HoloPlay.Rendering"
  if c1.1 then HandleLenticularScreenshotCommand I s c1.2
  else if c2.1 then HandleScreenshotQuiltCommand I s c2.2
  else if c3.1 then HandleScreenshot2DCommand I s c3.2
  else if c4.1 then HandleWindowCommand s c4.2
  else if c5.1 then HandleShaderCommand s c5.2
  else if c6.1 then HandleSceneCommand s c6.2
  else if c7.1 then HandleTillingCommand I s c7.2
  else if c8.1 then HandleRenderingCommand s c8.2
  else (false, s, [])

/-- The eight command names of `Exec`, in the order it tries them. -/
def ExecCommands : List String :=
  ["HoloPlay.LenticularScreenshot", "HoloPlay.ScreenshotQuilt", "HoloPlay.Screenshot2D",
    "HoloPlay.Window", "HoloPlay.Shader", "HoloPlay.Scene", "HoloPlay.Tilling",
    "HoloPlay.Rendering"]

/-- The sub-commands of `HandleWindowCommand`. -/
def WindowCommands : List String :=
  ["ClientSize", "PlacementMode"]

/-- The sub-commands of `HandleShaderCommand`. -/
def ShaderCommands : List String :=
  ["QuiltMode", "Pitch", "Center", "ViewCone", "DPI", "CustomAspect", "CustomAspectX",
    "CustomAspectY"]

/-- The sub-commands of `HandleTillingCommand`. -/
def TillingCommands : List String :=
  ["Automatic", "Portrait", "PortraitHiRes", "FourK", "EightK", "EightNineLegacy"]

/-- The sub-commands of `HandleRenderingCommand`. -/
def RenderingCommands : List String :=
  ["Render2D"]

/-- Whether `FParse::Command` recognises one of `Names` at the start of `Cmd`. -/
def Recognised (Cmd : List Char) (Names : List String) : Bool :=
  Names.any fun Match => (FParse.Command Cmd Match).1

/-- A simple instance of the surroundings of `Exec`: a viewport, a valid
capture component, and `nosuffix` found when `-nosuffix` is a word of the
command line. -/
def ExecInputs.sample : ExecInputs where
  E := Engine.sample
  Viewport := true
  CaptureComponentValid := true
  ParamNoSuffix := fun Cmd => ((String.mk Cmd).splitOn " ").contains "-nosuffix"

/-- A state with no pending request, the default settings and the calibration
of a sample display. -/
def ExecState.sample : ExecState where
  Client := {}
  Settings := {}
  Calibration :=
    { Pitch := Float32.ofInt 50, Center := Float32.ofInt 0, ViewCone := Float32.ofInt 40,
      DPI := Float32.ofInt 338 }

/-! ## Theorems: tiling quality -/

namespace FHoloPlayTilingQuality

/-- The method `Setup` writes the four derived fields only. -/
theorem Setup_inputs (q : FHoloPlayTilingQuality) :
    q.Setup.TilesX = q.TilesX ∧ q.Setup.TilesY = q.TilesY ∧
      q.Setup.QuiltW = q.QuiltW ∧ q.Setup.QuiltH = q.QuiltH ∧
      q.Setup.Overscan = q.Overscan ∧ q.Setup.bTilingEditable = q.bTilingEditable ∧
      q.Setup.Text = q.Text :=
  ⟨rfl, rfl, rfl, rfl, rfl, rfl, rfl⟩

/-- Truncating division of a non-negative dividend by a positive divisor is
the floor division of the integers. -/
theorem tdiv_eq_div_of_pos {a b : Int} (ha : 0 ≤ a) (hb : 1 ≤ b) : Int.tdiv a b = a / b :=
  Int.tdiv_eq_ediv ha (by omega)

/-- The truncated quotient times the divisor does not exceed the dividend. -/
theorem tdiv_mul_le_of_pos {a b : Int} (ha : 0 ≤ a) (hb : 1 ≤ b) : Int.tdiv a b * b ≤ a := by
  rw [tdiv_eq_div_of_pos ha hb]
  exact Int.ediv_mul_le a (by omega)

/-- A dividend at least as large as its positive divisor has a positive
truncated quotient. -/
theorem one_le_tdiv {a b : Int} (hb : 1 ≤ b) (hab : b ≤ a) : 1 ≤ Int.tdiv a b := by
  rw [tdiv_eq_div_of_pos (by omega) hb]
  exact (Int.le_ediv_iff_mul_le (by omega)).2 (by omega)

/-- The fraction `b * (a tdiv b) / a` lies in `(0, 1]` when `1 ≤ b ≤ a`. -/
theorem portion_bounds {a b : Int} (hb : 1 ≤ b) (hab : b ≤ a) :
    0 < (b : ℚ) * ((Int.tdiv a b : Int) : ℚ) / (a : ℚ) ∧
      (b : ℚ) * ((Int.tdiv a b : Int) : ℚ) / (a : ℚ) ≤ 1 := by
  have ha : (0 : ℚ) < (a : ℚ) := by exact_mod_cast (by omega : (0 : Int) < a)
  have hb0 : (0 : ℚ) < (b : ℚ) := by exact_mod_cast (by omega : (0 : Int) < b)
  have ht : (0 : ℚ) < ((Int.tdiv a b : Int) : ℚ) := by
    exact_mod_cast (by have := one_le_tdiv hb hab; omega : (0 : Int) < Int.tdiv a b)
  have hle : (b : ℚ) * ((Int.tdiv a b : Int) : ℚ) ≤ (a : ℚ) := by
    have h := tdiv_mul_le_of_pos (by omega : (0 : Int) ≤ a) hb
    have h2 : b * Int.tdiv a b ≤ a := by rw [mul_comm]; exact h
    exact_mod_cast h2
  exact ⟨div_pos (mul_pos hb0 ht) ha, (div_le_one ha).2 hle⟩

/-- C1: for a tiling quality with `TilesX ≥ 1`, `TilesY ≥ 1` and non-negative
`QuiltW`, `QuiltH`, after `Setup()` the tile size is the truncated quotient
`QuiltW div TilesX`, `QuiltH div TilesY` (which for these operands is also the
floor quotient: the largest `t` with `t * Tiles ≤ Quilt`), and `TilesX`,
`TilesY`, `QuiltW`, `QuiltH` are what they were. -/
theorem Setup_tileSize_eq_div (q : FHoloPlayTilingQuality)
    (hX : 1 ≤ q.TilesX) (hY : 1 ≤ q.TilesY) (hW : 0 ≤ q.QuiltW) (hH : 0 ≤ q.QuiltH) :
    (q.Setup.TileSizeX = Int.tdiv q.QuiltW q.TilesX ∧
      q.Setup.TileSizeY = Int.tdiv q.QuiltH q.TilesY) ∧
    (q.Setup.TileSizeX = q.QuiltW / q.TilesX ∧ q.Setup.TileSizeY = q.QuiltH / q.TilesY) ∧
    (q.Setup.TileSizeX * q.TilesX ≤ q.QuiltW ∧ q.QuiltW < (q.Setup.TileSizeX + 1) * q.TilesX) ∧
    (q.Setup.TileSizeY * q.TilesY ≤ q.QuiltH ∧ q.QuiltH < (q.Setup.TileSizeY + 1) * q.TilesY) ∧
    (q.Setup.TilesX = q.TilesX ∧ q.Setup.TilesY = q.TilesY ∧
      q.Setup.QuiltW = q.QuiltW ∧ q.Setup.QuiltH = q.QuiltH) := by
  have eX : q.Setup.TileSizeX = q.QuiltW / q.TilesX := tdiv_eq_div_of_pos hW hX
  have eY : q.Setup.TileSizeY = q.QuiltH / q.TilesY := tdiv_eq_div_of_pos hH hY
  refine ⟨⟨rfl, rfl⟩, ⟨eX, eY⟩, ⟨?_, ?_⟩, ⟨?_, ?_⟩, ⟨rfl, rfl, rfl, rfl⟩⟩
  · rw [eX]; exact Int.ediv_mul_le _ (by omega)
  · rw [eX]; exact Int.lt_ediv_add_one_mul_self _ (by omega)
  · rw [eY]; exact Int.ediv_mul_le _ (by omega)
  · rw [eY]; exact Int.lt_ediv_add_one_mul_self _ (by omega)

/-- The parameterised constructor establishes the derived-field relation. -/
theorem ctor_tileSize (InText : String) (InTilesX InTilesY InQuiltW InQuiltH : Int)
    (InEditable InOverscan : Bool) :
    (ctor InText InTilesX InTilesY InQuiltW InQuiltH InEditable InOverscan).TileSizeX =
        Int.tdiv InQuiltW InTilesX ∧
      (ctor InText InTilesX InTilesY InQuiltW InQuiltH InEditable InOverscan).TileSizeY =
        Int.tdiv InQuiltH InTilesY ∧
      (ctor InText InTilesX InTilesY InQuiltW InQuiltH InEditable InOverscan).TilesX = InTilesX ∧
      (ctor InText InTilesX InTilesY InQuiltW InQuiltH InEditable InOverscan).TilesY = InTilesY ∧
      (ctor InText InTilesX InTilesY InQuiltW InQuiltH InEditable InOverscan).QuiltW = InQuiltW ∧
      (ctor InText InTilesX InTilesY InQuiltW InQuiltH InEditable InOverscan).QuiltH = InQuiltH :=
  ⟨rfl, rfl, rfl, rfl, rfl, rfl⟩

/-- C2: the value built by the default constructor `FHoloPlayTilingQuality()`
has `TilesX = 4`, `TilesY = 8`, `QuiltW = QuiltH = 2048` and tile size `0 x 0`,
while `QuiltW div TilesX = 512` and `QuiltH div TilesY = 256`: the derived-field
relation does not hold after default construction, and holds once `Setup()` has
run on that value. -/
theorem default_ctor_tileSize_stale :
    (FHoloPlayTilingQuality.default.TilesX = 4 ∧ FHoloPlayTilingQuality.default.TilesY = 8 ∧
      FHoloPlayTilingQuality.default.QuiltW = 2048 ∧
      FHoloPlayTilingQuality.default.QuiltH = 2048) ∧
    (FHoloPlayTilingQuality.default.TileSizeX = 0 ∧
      FHoloPlayTilingQuality.default.TileSizeY = 0) ∧
    (Int.tdiv FHoloPlayTilingQuality.default.QuiltW FHoloPlayTilingQuality.default.TilesX = 512 ∧
      Int.tdiv FHoloPlayTilingQuality.default.QuiltH FHoloPlayTilingQuality.default.TilesY
        = 256) ∧
    FHoloPlayTilingQuality.default.TileSizeX ≠
      Int.tdiv FHoloPlayTilingQuality.default.QuiltW FHoloPlayTilingQuality.default.TilesX ∧
    FHoloPlayTilingQuality.default.TileSizeY ≠
      Int.tdiv FHoloPlayTilingQuality.default.QuiltH FHoloPlayTilingQuality.default.TilesY ∧
    (FHoloPlayTilingQuality.default.Setup.TileSizeX = 512 ∧
      FHoloPlayTilingQuality.default.Setup.TileSizeY = 256) := by
  refine ⟨⟨rfl, rfl, rfl, rfl⟩, ⟨rfl, rfl⟩, ⟨by decide, by decide⟩, by decide, by decide,
    ⟨by decide, by decide⟩⟩

/-- C3: for `TilesX, TilesY ≥ 1`, `QuiltW ≥ TilesX` and `QuiltH ≥ TilesY`, the
fields computed by `Setup()` satisfy `TileSizeX * TilesX ≤ QuiltW` and
`TileSizeY * TilesY ≤ QuiltH`: no tile extends past the quilt texture. -/
theorem Setup_tiles_within_quilt (q : FHoloPlayTilingQuality)
    (hX : 1 ≤ q.TilesX) (hY : 1 ≤ q.TilesY) (hW : q.TilesX ≤ q.QuiltW)
    (hH : q.TilesY ≤ q.QuiltH) :
    q.Setup.TileSizeX * q.Setup.TilesX ≤ q.Setup.QuiltW ∧
      q.Setup.TileSizeY * q.Setup.TilesY ≤ q.Setup.QuiltH :=
  ⟨tdiv_mul_le_of_pos (by omega) hX, tdiv_mul_le_of_pos (by omega) hY⟩

/-- C4: for `TilesX, TilesY ≥ 1`, `QuiltW ≥ TilesX` and `QuiltH ≥ TilesY`, the
portions computed by `Setup()`, as the exact rationals
`TilesX * TileSizeX / QuiltW` and `TilesY * TileSizeY / QuiltH`, lie in `(0, 1]`. -/
theorem Setup_portion_bounds (q : FHoloPlayTilingQuality)
    (hX : 1 ≤ q.TilesX) (hY : 1 ≤ q.TilesY) (hW : q.TilesX ≤ q.QuiltW)
    (hH : q.TilesY ≤ q.QuiltH) :
    (q.Setup.PortionX = (q.Setup.TilesX : ℚ) * (q.Setup.TileSizeX : ℚ) / (q.Setup.QuiltW : ℚ) ∧
      q.Setup.PortionY = (q.Setup.TilesY : ℚ) * (q.Setup.TileSizeY : ℚ) / (q.Setup.QuiltH : ℚ)) ∧
    (0 < q.Setup.PortionX ∧ q.Setup.PortionX ≤ 1) ∧
    (0 < q.Setup.PortionY ∧ q.Setup.PortionY ≤ 1) :=
  ⟨⟨rfl, rfl⟩, portion_bounds hX hW, portion_bounds hY hH⟩

/-- C1 at the geometry of the 4K preset, where the division truncates:
`4096 div 5 = 819` and `4096 div 9 = 455`. -/
theorem Setup_tileSize_eq_div_witness :
    ((1 : Int) ≤ 5 ∧ (1 : Int) ≤ 9 ∧ (0 : Int) ≤ 4096 ∧ (0 : Int) ≤ 4096) ∧
      (Setup { TilesX := 5, TilesY := 9, QuiltW := 4096, QuiltH := 4096 }).TileSizeX = 819 ∧
      (Setup { TilesX := 5, TilesY := 9, QuiltW := 4096, QuiltH := 4096 }).TileSizeY = 455 ∧
      (Setup { TilesX := 5, TilesY := 9, QuiltW := 4096, QuiltH := 4096 }).TilesX = 5 ∧
      (Setup { TilesX := 5, TilesY := 9, QuiltW := 4096, QuiltH := 4096 }).QuiltW = 4096 :=
  have h := Setup_tileSize_eq_div { TilesX := 5, TilesY := 9, QuiltW := 4096, QuiltH := 4096 }
    (by decide) (by decide) (by decide) (by decide)
  ⟨by decide, h.2.1.1.trans (by decide), h.2.1.2.trans (by decide), h.2.2.2.2.1,
    h.2.2.2.2.2.2.1⟩

/-- C3 at the geometry of the 4K preset: `819 * 5 = 4095 ≤ 4096` and
`455 * 9 = 4095 ≤ 4096`. -/
theorem Setup_tiles_within_quilt_witness :
    ((1 : Int) ≤ 5 ∧ (1 : Int) ≤ 9 ∧ (5 : Int) ≤ 4096 ∧ (9 : Int) ≤ 4096) ∧
      (Setup { TilesX := 5, TilesY := 9, QuiltW := 4096, QuiltH := 4096 }).TileSizeX *
          (Setup { TilesX := 5, TilesY := 9, QuiltW := 4096, QuiltH := 4096 }).TilesX ≤
        (Setup { TilesX := 5, TilesY := 9, QuiltW := 4096, QuiltH := 4096 }).QuiltW ∧
      (Setup { TilesX := 5, TilesY := 9, QuiltW := 4096, QuiltH := 4096 }).TileSizeY *
          (Setup { TilesX := 5, TilesY := 9, QuiltW := 4096, QuiltH := 4096 }).TilesY ≤
        (Setup { TilesX := 5, TilesY := 9, QuiltW := 4096, QuiltH := 4096 }).QuiltH :=
  ⟨by decide,
    Setup_tiles_within_quilt { TilesX := 5, TilesY := 9, QuiltW := 4096, QuiltH := 4096 }
      (by decide) (by decide) (by decide) (by decide)⟩

/-- C4 at the geometry of the 4K preset: both portions are `4095 / 4096`. -/
theorem Setup_portion_bounds_witness :
    ((1 : Int) ≤ 5 ∧ (1 : Int) ≤ 9 ∧ (5 : Int) ≤ 4096 ∧ (9 : Int) ≤ 4096) ∧
      (0 < (Setup { TilesX := 5, TilesY := 9, QuiltW := 4096, QuiltH := 4096 }).PortionX ∧
        (Setup { TilesX := 5, TilesY := 9, QuiltW := 4096, QuiltH := 4096 }).PortionX ≤ 1) ∧
      (0 < (Setup { TilesX := 5, TilesY := 9, QuiltW := 4096, QuiltH := 4096 }).PortionY ∧
        (Setup { TilesX := 5, TilesY := 9, QuiltW := 4096, QuiltH := 4096 }).PortionY ≤ 1) :=
  ⟨by decide,
    (Setup_portion_bounds { TilesX := 5, TilesY := 9, QuiltW := 4096, QuiltH := 4096 }
      (by decide) (by decide) (by decide) (by decide)).2⟩

/-- The derived fields for 8 by 6 tiles on a 3360 by 3360 quilt. -/
theorem ctor_8_6_3360_fields (InText : String) (InEditable InOverscan : Bool) :
    (ctor InText 8 6 3360 3360 InEditable InOverscan).TileSizeX = 420 ∧
      (ctor InText 8 6 3360 3360 InEditable InOverscan).TileSizeY = 560 ∧
      (ctor InText 8 6 3360 3360 InEditable InOverscan).PortionX = 1 ∧
      (ctor InText 8 6 3360 3360 InEditable InOverscan).PortionY = 1 := by
  have hx : Int.tdiv 3360 8 = 420 := by decide
  have hy : Int.tdiv 3360 6 = 560 := by decide
  refine ⟨hx, hy, ?_, ?_⟩
  · show ((8 : Int) : ℚ) * ((Int.tdiv 3360 8 : Int) : ℚ) / ((3360 : Int) : ℚ) = 1
    rw [hx]; norm_num
  · show ((6 : Int) : ℚ) * ((Int.tdiv 3360 6 : Int) : ℚ) / ((3360 : Int) : ℚ) = 1
    rw [hy]; norm_num

end FHoloPlayTilingQuality

/-- C5: a tiling quality constructed with `TilesX = 8`, `TilesY = 6`,
`QuiltW = QuiltH = 3360` (whatever its label and flags) has `TileSizeX = 420`,
`TileSizeY = 560`, `PortionX = 1` and `PortionY = 1`, and running `Setup()` on it
again yields the same four values; the presets `AutomaticSettings`,
`PortraitSettings` and `CustomSettings` are such values. -/
theorem tiling_8_6_3360 :
    (∀ (InText : String) (InEditable InOverscan : Bool),
      (FHoloPlayTilingQuality.ctor InText 8 6 3360 3360 InEditable InOverscan).TileSizeX = 420 ∧
      (FHoloPlayTilingQuality.ctor InText 8 6 3360 3360 InEditable InOverscan).TileSizeY = 560 ∧
      (FHoloPlayTilingQuality.ctor InText 8 6 3360 3360 InEditable InOverscan).PortionX = 1 ∧
      (FHoloPlayTilingQuality.ctor InText 8 6 3360 3360 InEditable InOverscan).PortionY = 1 ∧
      (FHoloPlayTilingQuality.ctor InText 8 6 3360 3360 InEditable InOverscan).Setup =
        FHoloPlayTilingQuality.ctor InText 8 6 3360 3360 InEditable InOverscan) ∧
    (AutomaticSettings.TileSizeX = 420 ∧ AutomaticSettings.TileSizeY = 560 ∧
      AutomaticSettings.PortionX = 1 ∧ AutomaticSettings.PortionY = 1) ∧
    (PortraitSettings.TileSizeX = 420 ∧ PortraitSettings.TileSizeY = 560 ∧
      PortraitSettings.PortionX = 1 ∧ PortraitSettings.PortionY = 1) ∧
    (CustomSettings.TileSizeX = 420 ∧ CustomSettings.TileSizeY = 560 ∧
      CustomSettings.PortionX = 1 ∧ CustomSettings.PortionY = 1) := by
  refine ⟨fun InText InEditable InOverscan => ?_,
    FHoloPlayTilingQuality.ctor_8_6_3360_fields _ _ _,
    FHoloPlayTilingQuality.ctor_8_6_3360_fields _ _ _,
    FHoloPlayTilingQuality.ctor_8_6_3360_fields _ _ _⟩
  obtain ⟨h1, h2, h3, h4⟩ :=
    FHoloPlayTilingQuality.ctor_8_6_3360_fields InText InEditable InOverscan
  exact ⟨h1, h2, h3, h4, rfl⟩

/-- C6: `A == B` holds exactly when the two values agree on
`(TilesX, TilesY, QuiltW, QuiltH)`; `==` is reflexive and symmetric; changing
the label, `Overscan`, `bTilingEditable` or the derived fields of a value gives
a value equal to it under `==`, as for the presets `AutomaticSettings` and
`CustomSettings`, which differ in label and `bTilingEditable`. -/
theorem opEq_iff_geometry :
    (∀ A B : FHoloPlayTilingQuality,
      FHoloPlayTilingQuality.opEq A B = true ↔
        (A.TilesX, A.TilesY, A.QuiltW, A.QuiltH) = (B.TilesX, B.TilesY, B.QuiltW, B.QuiltH)) ∧
    (∀ A : FHoloPlayTilingQuality, FHoloPlayTilingQuality.opEq A A = true) ∧
    (∀ A B : FHoloPlayTilingQuality,
      FHoloPlayTilingQuality.opEq A B = FHoloPlayTilingQuality.opEq B A) ∧
    (∀ (A : FHoloPlayTilingQuality) (InText : String) (InOverscan InEditable : Bool)
      (sx sy : Int) (px py : ℚ),
      FHoloPlayTilingQuality.opEq A
        { A with Text := InText, Overscan := InOverscan, bTilingEditable := InEditable,
                 TileSizeX := sx, TileSizeY := sy, PortionX := px, PortionY := py } = true) ∧
    (FHoloPlayTilingQuality.opEq AutomaticSettings CustomSettings = true ∧
      AutomaticSettings.Text ≠ CustomSettings.Text ∧
      AutomaticSettings.bTilingEditable ≠ CustomSettings.bTilingEditable) := by
  refine ⟨fun A B => ?_, fun A => ?_, fun A B => ?_, fun A _ _ _ _ _ _ _ => ?_, ?_, ?_, ?_⟩
  · simp [FHoloPlayTilingQuality.opEq, and_assoc]
  · simp [FHoloPlayTilingQuality.opEq]
  · simp only [FHoloPlayTilingQuality.opEq]
    rw [Bool.eq_iff_iff]
    simp only [Bool.and_eq_true, beq_iff_eq]
    constructor <;> rintro ⟨⟨⟨h1, h2⟩, h3⟩, h4⟩ <;> exact ⟨⟨⟨h1.symm, h2.symm⟩, h3.symm⟩, h4.symm⟩
  · simp [FHoloPlayTilingQuality.opEq]
  · decide
  · decide
  · decide

/-! ## Theorems: the copy-to-quilt loop -/

/-- The inner loop of `Draw` issues one command per remaining view, numbers
them consecutively (as `uint32`) from the index it starts with, gives each the
tiling values, and leaves `CurrentViewIndex` advanced by the number of views. -/
theorem copyViews_index (QuiltRT : Nat) (T : FHoloPlayTilingQuality)
    (cfg : FHoloPlayRenderingConfig) (Resource : Nat) :
    ∀ (views : List Nat) (vi cur : Nat), cur < 2 ^ 32 →
      (copyViews QuiltRT T cfg Resource views vi cur).1.length = views.length ∧
      (copyViews QuiltRT T cfg Resource views vi cur).2 = (cur + views.length) % 2 ^ 32 ∧
      ∀ (k : Nat) (ctx : FCopyToQuiltRenderContext),
        (copyViews QuiltRT T cfg Resource views vi cur).1[k]? = some ctx →
          ctx.CurrentViewIndex = (cur + k) % 2 ^ 32 ∧ ctx.TilingValues = T := by
  intro views
  induction views with
  | nil =>
    intro vi cur hcur
    refine ⟨rfl, ?_, ?_⟩
    · simp only [copyViews, List.length_nil, Nat.add_zero]
      exact (Nat.mod_eq_of_lt hcur).symm
    · intro k ctx h
      simp [copyViews] at h
  | cons v rest ih =>
    intro vi cur hcur
    have hlt : (cur + 1) % 2 ^ 32 < 2 ^ 32 := Nat.mod_lt _ (by norm_num)
    obtain ⟨hlen, hfin, hidx⟩ := ih (vi + 1) ((cur + 1) % 2 ^ 32) hlt
    refine ⟨?_, ?_, ?_⟩
    · simp only [copyViews, List.length_cons, hlen]
    · simp only [copyViews, List.length_cons, hfin]
      omega
    · intro k ctx h
      cases k with
      | zero =>
        simp only [copyViews, List.getElem?_cons_zero, Option.some.injEq] at h
        subst h
        exact ⟨(Nat.mod_eq_of_lt hcur).symm, rfl⟩
      | succ k =>
        simp only [copyViews, List.getElem?_cons_succ] at h
        obtain ⟨h1, h2⟩ := hidx k ctx h
        refine ⟨?_, h2⟩
        rw [h1]
        omega

/-- The commands issued by the loops of `Draw` are numbered consecutively (as
`uint32`) from the starting index, across rendering configs, and each carries
the tiling values. -/
theorem copyConfigs_index (QuiltRT : Nat) (T : FHoloPlayTilingQuality) :
    ∀ (cfgs : List FHoloPlayRenderingConfig) (cur : Nat), cur < 2 ^ 32 →
      ∀ (k : Nat) (ctx : FCopyToQuiltRenderContext),
        (copyConfigs QuiltRT T cfgs cur).1[k]? = some ctx →
          ctx.CurrentViewIndex = (cur + k) % 2 ^ 32 ∧ ctx.TilingValues = T := by
  intro cfgs
  induction cfgs with
  | nil =>
    intro cur _ k ctx h
    simp [copyConfigs] at h
  | cons cfg rest ih =>
    intro cur hcur k ctx h
    rcases hrt : cfg.RenderTarget with _ | _ | Resource
    · simp [copyConfigs, hrt] at h
    · simp [copyConfigs, hrt] at h
    · obtain ⟨hlen, hfin, hidx⟩ := copyViews_index QuiltRT T cfg Resource cfg.ViewInfoArr 0 cur hcur
      simp only [copyConfigs, hrt] at h
      by_cases hk : k < cfg.ViewInfoArr.length
      · rw [List.getElem?_append_left (by rw [hlen]; exact hk)] at h
        exact hidx k ctx h
      · rw [List.getElem?_append_right (by rw [hlen]; omega), hlen] at h
        have hlt : (copyViews QuiltRT T cfg Resource cfg.ViewInfoArr 0 cur).2 < 2 ^ 32 := by
          rw [hfin]; exact Nat.mod_lt _ (by norm_num)
        obtain ⟨h1, h2⟩ := ih _ hlt _ ctx h
        refine ⟨?_, h2⟩
        rw [h1, hfin]
        omega

/-- C7: the `i`-th copy-to-quilt command that `Draw` issues (counting from 0
across all rendering configs) carries the global view index `i`, and the
destination rectangle computed from its context is the tile in row
`i / TilesX` and column `i % TilesX` of the quilt, row-major.  For 2 by 2
tiles on a 100 by 100 quilt (tile size 50 by 50) the four views go to
`(0,0)-(50,50)`, `(50,0)-(100,50)`, `(0,50)-(50,100)` and `(50,50)-(100,100)`,
whether they come from one rendering config or from two. -/
theorem copyToQuilt_tile_placement :
    (∀ (QuiltRT : Nat) (T : FHoloPlayTilingQuality) (cfgs : List FHoloPlayRenderingConfig)
        (i : Nat) (ctx : FCopyToQuiltRenderContext),
      1 ≤ T.TilesX → i < 2 ^ 32 → (copyToQuilt QuiltRT T cfgs).1[i]? = some ctx →
        ctx.CurrentViewIndex = i ∧
        CopyToQuiltDestRect ctx =
          { MinX := ((i : Int) % T.TilesX) * T.TileSizeX
            MinY := ((i : Int) / T.TilesX) * T.TileSizeY
            MaxX := ((i : Int) % T.TilesX + 1) * T.TileSizeX
            MaxY := ((i : Int) / T.TilesX + 1) * T.TileSizeY }) ∧
    ((FHoloPlayTilingQuality.ctor "Quilt" 2 2 100 100 false false).TileSizeX = 50 ∧
      (FHoloPlayTilingQuality.ctor "Quilt" 2 2 100 100 false false).TileSizeY = 50) ∧
    (copyToQuilt 0 (FHoloPlayTilingQuality.ctor "Quilt" 2 2 100 100 false false)
        [{ RenderTarget := some (some 1), ViewInfoArr := [10, 11, 12, 13],
           ViewRows := 2, ViewColumns := 2 }]).1.map CopyToQuiltDestRect =
      [{ MinX := 0, MinY := 0, MaxX := 50, MaxY := 50 },
       { MinX := 50, MinY := 0, MaxX := 100, MaxY := 50 },
       { MinX := 0, MinY := 50, MaxX := 50, MaxY := 100 },
       { MinX := 50, MinY := 50, MaxX := 100, MaxY := 100 }] ∧
    (copyToQuilt 0 (FHoloPlayTilingQuality.ctor "Quilt" 2 2 100 100 false false)
        [{ RenderTarget := some (some 1), ViewInfoArr := [10, 11],
           ViewRows := 1, ViewColumns := 2 },
         { RenderTarget := some (some 2), ViewInfoArr := [12, 13],
           ViewRows := 1, ViewColumns := 2 }]).1.map CopyToQuiltDestRect =
      [{ MinX := 0, MinY := 0, MaxX := 50, MaxY := 50 },
       { MinX := 50, MinY := 0, MaxX := 100, MaxY := 50 },
       { MinX := 0, MinY := 50, MaxX := 50, MaxY := 100 },
       { MinX := 50, MinY := 50, MaxX := 100, MaxY := 100 }] := by
  refine ⟨?_, ⟨by decide, by decide⟩, by decide, by decide⟩
  intro QuiltRT T cfgs i ctx hT hi h
  obtain ⟨h1, h2⟩ := copyConfigs_index QuiltRT T cfgs 0 (by norm_num) i ctx h
  have hidx : ctx.CurrentViewIndex = i := by
    rw [h1, Nat.zero_add]; exact Nat.mod_eq_of_lt hi
  refine ⟨hidx, ?_⟩
  have hi0 : (0 : Int) ≤ (i : Int) := Int.ofNat_nonneg i
  have hT0 : (0 : Int) ≤ T.TilesX := by omega
  simp only [CopyToQuiltDestRect, h2, hidx, Int.tdiv_eq_ediv hi0 hT0,
    Int.tmod_eq_emod hi0 hT0]

/-- C7 at view 3 of four views on a 2 by 2 quilt of tile size 50 by 50: the
command exists, carries index 3 and goes to `(50,50)-(100,100)`. -/
theorem copyToQuilt_tile_placement_witness :
    ∃ ctx : FCopyToQuiltRenderContext,
      (copyToQuilt 0 (FHoloPlayTilingQuality.ctor "Quilt" 2 2 100 100 false false)
        [{ RenderTarget := some (some 1), ViewInfoArr := [10, 11, 12, 13],
           ViewRows := 2, ViewColumns := 2 }]).1[3]? = some ctx ∧
      ctx.CurrentViewIndex = 3 ∧
      CopyToQuiltDestRect ctx = { MinX := 50, MinY := 50, MaxX := 100, MaxY := 100 } := by
  refine ⟨_, rfl, ?_⟩
  have h := copyToQuilt_tile_placement.1 0
    (FHoloPlayTilingQuality.ctor "Quilt" 2 2 100 100 false false)
    [{ RenderTarget := some (some 1), ViewInfoArr := [10, 11, 12, 13],
       ViewRows := 2, ViewColumns := 2 }] 3 _ (by decide) (by norm_num) rfl
  exact ⟨h.1, h.2.trans (by decide)⟩

/-! ## Theorems: screenshot requests -/

namespace FHoloPlayViewportClient

/-- C8: for each screenshot kind, when a request of that kind is pending the
`PreparePlay...` call returns `false` and leaves the client as it was, so the
pending request, its file name included, is the one that was there before,
whatever file name and flags the rejected call was given. -/
theorem PreparePlay_rejected_when_pending (E : Engine) (c : FHoloPlayViewportClient)
    (FileName : String) (bInShowUI bAddFilenameSuffix : Bool) :
    (∀ Request : FHoloPlayScreenshotRequest, c.HoloPlayQuilScreenshotRequest = some Request →
      (PreparePlayScreenshotQuilt E c FileName bAddFilenameSuffix).1 = false ∧
      (PreparePlayScreenshotQuilt E c FileName bAddFilenameSuffix).2 = c ∧
      (PreparePlayScreenshotQuilt E c FileName
        bAddFilenameSuffix).2.HoloPlayQuilScreenshotRequest = some Request) ∧
    (∀ Request : FHoloPlayLenticularScreenshotRequest,
      c.HoloPlayLenticularScreenshotRequest = some Request →
      (PreparePlayLenticularScreenshot E c FileName bInShowUI bAddFilenameSuffix).1 = false ∧
      (PreparePlayLenticularScreenshot E c FileName bInShowUI bAddFilenameSuffix).2 = c ∧
      (PreparePlayLenticularScreenshot E c FileName bInShowUI
        bAddFilenameSuffix).2.HoloPlayLenticularScreenshotRequest = some Request) ∧
    (∀ Request : FHoloPlayScreenshotRequest, c.HoloPlayScreenshot2DRequest = some Request →
      (PreparePlayScreenshot2D E c FileName bAddFilenameSuffix).1 = false ∧
      (PreparePlayScreenshot2D E c FileName bAddFilenameSuffix).2 = c ∧
      (PreparePlayScreenshot2D E c FileName
        bAddFilenameSuffix).2.HoloPlayScreenshot2DRequest = some Request) := by
  refine ⟨fun Request h => ?_, fun Request h => ?_, fun Request h => ?_⟩
  · simp [PreparePlayScreenshotQuilt, h]
  · simp [PreparePlayLenticularScreenshot, h]
  · simp [PreparePlayScreenshot2D, h]

/-- C8 for a client on which a quilt request for `Saved/Screenshots/First00000.png`
is pending: a second quilt request, for `Second`, is refused and the pending
file name stays. -/
theorem PreparePlay_rejected_when_pending_witness :
    (PreparePlayScreenshotQuilt Engine.sample
        { HoloPlayQuilScreenshotRequest := some { Filename := "Saved/Screenshots/First00000.png" } }
        "Second" true).1 = false ∧
      ((PreparePlayScreenshotQuilt Engine.sample
        { HoloPlayQuilScreenshotRequest := some { Filename := "Saved/Screenshots/First00000.png" } }
        "Second" true).2.HoloPlayQuilScreenshotRequest.map fun r => r.Filename) =
        some "Saved/Screenshots/First00000.png" := by
  have h := (PreparePlay_rejected_when_pending Engine.sample
    { HoloPlayQuilScreenshotRequest := some { Filename := "Saved/Screenshots/First00000.png" } }
    "Second" false true).1 { Filename := "Saved/Screenshots/First00000.png" } rfl
  exact ⟨h.1, by rw [h.2.2]; rfl⟩

/-- C9: for each screenshot kind, the `PreparePlay...` call returns `true`
exactly when no request of that kind is pending, whatever the state of the
other two kinds; after the call a request of that kind is pending, and the
requests of the other two kinds are what they were. -/
theorem PreparePlay_true_iff_not_pending (E : Engine) (c : FHoloPlayViewportClient)
    (FileName : String) (bInShowUI bAddFilenameSuffix : Bool) :
    (((PreparePlayScreenshotQuilt E c FileName bAddFilenameSuffix).1 = true ↔
        c.HoloPlayQuilScreenshotRequest = none) ∧
      (PreparePlayScreenshotQuilt E c FileName
        bAddFilenameSuffix).2.HoloPlayQuilScreenshotRequest.isSome = true ∧
      (PreparePlayScreenshotQuilt E c FileName
        bAddFilenameSuffix).2.HoloPlayLenticularScreenshotRequest =
          c.HoloPlayLenticularScreenshotRequest ∧
      (PreparePlayScreenshotQuilt E c FileName
        bAddFilenameSuffix).2.HoloPlayScreenshot2DRequest = c.HoloPlayScreenshot2DRequest) ∧
    (((PreparePlayLenticularScreenshot E c FileName bInShowUI bAddFilenameSuffix).1 = true ↔
        c.HoloPlayLenticularScreenshotRequest = none) ∧
      (PreparePlayLenticularScreenshot E c FileName bInShowUI
        bAddFilenameSuffix).2.HoloPlayLenticularScreenshotRequest.isSome = true ∧
      (PreparePlayLenticularScreenshot E c FileName bInShowUI
        bAddFilenameSuffix).2.HoloPlayQuilScreenshotRequest = c.HoloPlayQuilScreenshotRequest ∧
      (PreparePlayLenticularScreenshot E c FileName bInShowUI
        bAddFilenameSuffix).2.HoloPlayScreenshot2DRequest = c.HoloPlayScreenshot2DRequest) ∧
    (((PreparePlayScreenshot2D E c FileName bAddFilenameSuffix).1 = true ↔
        c.HoloPlayScreenshot2DRequest = none) ∧
      (PreparePlayScreenshot2D E c FileName
        bAddFilenameSuffix).2.HoloPlayScreenshot2DRequest.isSome = true ∧
      (PreparePlayScreenshot2D E c FileName
        bAddFilenameSuffix).2.HoloPlayQuilScreenshotRequest = c.HoloPlayQuilScreenshotRequest ∧
      (PreparePlayScreenshot2D E c FileName
        bAddFilenameSuffix).2.HoloPlayLenticularScreenshotRequest =
          c.HoloPlayLenticularScreenshotRequest) := by
  refine ⟨?_, ?_, ?_⟩
  · cases h : c.HoloPlayQuilScreenshotRequest <;> simp [PreparePlayScreenshotQuilt, h]
  · cases h : c.HoloPlayLenticularScreenshotRequest <;>
      simp [PreparePlayLenticularScreenshot, h]
  · cases h : c.HoloPlayScreenshot2DRequest <;> simp [PreparePlayScreenshot2D, h]

/-- The quilt and lenticular servicing routines leave no request of their kind
pending, and so does the 2D routine when the pending file name is empty or the
configured resolution is positive in both dimensions. -/
theorem Process_clears_request (E : Engine) (c : FHoloPlayViewportClient)
    (InQuiltRT RenderTarget : UTextureRenderTarget2D) (ReadPixels : Bool × List FColor)
    (V : LenticularCapture) (Resolution : FIntPoint) :
    (ProcessScreenshotQuilts E InQuiltRT ReadPixels c).1.HoloPlayQuilScreenshotRequest = none ∧
    (ProcessScreenShotLenticular E V c).2.1.HoloPlayLenticularScreenshotRequest = none ∧
    (∀ Request : FHoloPlayScreenshotRequest, c.HoloPlayScreenshot2DRequest = some Request →
      Request.Filename.isEmpty = true ∨ (0 < Resolution.X ∧ 0 < Resolution.Y) →
      (ProcessScreenshot2D E Resolution RenderTarget ReadPixels
        c).1.HoloPlayScreenshot2DRequest = none) := by
  refine ⟨?_, ?_, fun Request h hor => ?_⟩
  · cases h : c.HoloPlayQuilScreenshotRequest with
    | none => simp [ProcessScreenshotQuilts, h]
    | some Request =>
      by_cases hf : Request.Filename.isEmpty = true <;> simp [ProcessScreenshotQuilts, h, hf]
  · cases h : c.HoloPlayLenticularScreenshotRequest with
    | none => simp [ProcessScreenShotLenticular, h]
    | some Request =>
      by_cases hf : Request.Filename.isEmpty = true <;>
        simp [ProcessScreenShotLenticular, h, hf]
  · by_cases hf : Request.Filename.isEmpty = true
    · simp [ProcessScreenshot2D, h, hf]
    · rcases hor with hor | ⟨hx, hy⟩
      · exact absurd hor hf
      · have hx2 : ¬ Resolution.X ≤ 0 := by omega
        have hy2 : ¬ Resolution.Y ≤ 0 := by omega
        simp [ProcessScreenshot2D, h, hf, hx2, hy2]

/-- C10: with a 2D request for `Shot.png` pending and the 2D screenshot
resolution configured as `0 x 720`, `ProcessScreenshot2D` returns with the
client unchanged and no effect performed: the request is still pending (no
delegate is broadcast), and the next `PreparePlayScreenshot2D` is refused. -/
theorem ProcessScreenshot2D_zero_resolution_keeps_request (E : Engine)
    (RenderTarget : UTextureRenderTarget2D) (ReadPixels : Bool × List FColor) :
    ProcessScreenshot2D E { X := 0, Y := 720 } RenderTarget ReadPixels
        { HoloPlayScreenshot2DRequest := some { Filename := "Shot.png" } } =
      ({ HoloPlayScreenshot2DRequest := some { Filename := "Shot.png" } }, []) ∧
    (ProcessScreenshot2D E { X := 0, Y := 720 } RenderTarget ReadPixels
        { HoloPlayScreenshot2DRequest := some { Filename := "Shot.png" } }
      ).1.HoloPlayScreenshot2DRequest.isSome = true ∧
    (PreparePlayScreenshot2D E
      (ProcessScreenshot2D E { X := 0, Y := 720 } RenderTarget ReadPixels
        { HoloPlayScreenshot2DRequest := some { Filename := "Shot.png" } }).1
      "Next" true).1 = false := by
  have hf : ("Shot.png" : String).isEmpty = false := by decide
  have h : ProcessScreenshot2D E { X := 0, Y := 720 } RenderTarget ReadPixels
        { HoloPlayScreenshot2DRequest := some { Filename := "Shot.png" } } =
      ({ HoloPlayScreenshot2DRequest := some { Filename := "Shot.png" } }, []) := by
    simp [ProcessScreenshot2D, hf]
  refine ⟨h, ?_, ?_⟩
  · rw [h]; rfl
  · rw [h]; rfl

end FHoloPlayViewportClient

/-! ## Theorems: the draw cycle -/

/-- The stages issued by `GetQuiltRT` are allocations, resizes and resource
updates of the quilt target. -/
theorem GetQuiltRT_stages (T : FHoloPlayTilingQuality) (Q : Option UTextureRenderTarget2D) :
    ∀ s ∈ (GetQuiltRT T Q).2,
      s = Stage.NewQuiltRT T.QuiltW T.QuiltH ∨ s = Stage.ResizeTarget T.QuiltW T.QuiltH ∨
        s = Stage.UpdateResourceImmediate := by
  intro s hs
  unfold GetQuiltRT at hs
  cases Q with
  | none =>
    simp only [] at hs
    split at hs <;> simp at hs <;> aesop
  | some Target =>
    simp only [] at hs
    split at hs <;> simp at hs
    aesop

/-- None of the stages issued by `GetQuiltRT` is a render, a copy-to-quilt
command, a lenticular command or a screenshot servicing call. -/
theorem GetQuiltRT_no_render (T : FHoloPlayTilingQuality) (Q : Option UTextureRenderTarget2D) :
    copyCommands (GetQuiltRT T Q).2 = [] ∧ lenticularCommands (GetQuiltRT T Q).2 = [] ∧
      (GetQuiltRT T Q).2.filter Stage.isRender2DCommand = [] ∧
      (GetQuiltRT T Q).2.filter Stage.isQuiltServicing = [] ∧
      (GetQuiltRT T Q).2.count Stage.RenderViews = 0 ∧
      (GetQuiltRT T Q).2.count Stage.Render2DView = 0 := by
  have h := GetQuiltRT_stages T Q
  refine ⟨?_, ?_, ?_, ?_, ?_, ?_⟩
  · rw [copyCommands, List.filterMap_eq_nil_iff]
    intro s hs
    rcases h s hs with rfl | rfl | rfl <;> rfl
  · rw [lenticularCommands, List.filterMap_eq_nil_iff]
    intro s hs
    rcases h s hs with rfl | rfl | rfl <;> rfl
  · rw [List.filter_eq_nil_iff]
    intro s hs
    rcases h s hs with rfl | rfl | rfl <;> simp [Stage.isRender2DCommand]
  · rw [List.filter_eq_nil_iff]
    intro s hs
    rcases h s hs with rfl | rfl | rfl <;> simp [Stage.isQuiltServicing]
  · rw [List.count_eq_zero]
    intro hs
    rcases h _ hs with h1 | h1 | h1 <;> simp at h1
  · rw [List.count_eq_zero]
    intro hs
    rcases h _ hs with h1 | h1 | h1 <;> simp at h1

/-- The copy-to-quilt commands among mapped render contexts are the contexts. -/
theorem copyCommands_map (l : List FCopyToQuiltRenderContext) :
    copyCommands (l.map Stage.CopyToQuiltShader_RenderThread) = l := by
  induction l with
  | nil => rfl
  | cons a l ih => simpa [copyCommands] using ih

/-- The copy-to-quilt commands of two runs of stages, one after the other. -/
theorem copyCommands_append (a b : List Stage) :
    copyCommands (a ++ b) = copyCommands a ++ copyCommands b := by
  simp [copyCommands, List.filterMap_append]

/-- The lenticular commands of two runs of stages, one after the other. -/
theorem lenticularCommands_append (a b : List Stage) :
    lenticularCommands (a ++ b) = lenticularCommands a ++ lenticularCommands b := by
  simp [lenticularCommands, List.filterMap_append]

/-- No lenticular command is among mapped copy-to-quilt commands. -/
theorem lenticularCommands_map (l : List FCopyToQuiltRenderContext) :
    lenticularCommands (l.map Stage.CopyToQuiltShader_RenderThread) = [] := by
  induction l with
  | nil => rfl
  | cons a l ih => simp [lenticularCommands]

/-- C17: in a draw call with a valid capture component, at least one rendering
config and `bRender2D` set, the stages issued are the canvas clear, the stages
of `GetQuiltRT`, one `Render2DView` and one `Render2DView_RenderThread` command
for the viewport and the 2D target, in that order; they contain exactly one
`Render2DView`, exactly one `Render2DView_RenderThread` command, no
`RenderViews`, no copy-to-quilt command and no lenticular shader command. -/
theorem Draw_render2D_stages (E : Engine) (I : DrawInputs)
    (QuiltRT : Option UTextureRenderTarget2D) (c : FHoloPlayViewportClient)
    (Component : UHoloPlaySceneCaptureComponent2D)
    (hComponent : I.CaptureComponent = some Component)
    (hConfigs : Component.RenderingConfigs ≠ [])
    (h2D : I.Settings.HoloPlayRenderingSettings.bRender2D = true) :
    (Draw E I QuiltRT c).2.2 =
        [Stage.Clear FLinearColor.Black] ++ (GetQuiltRT Component.TilingValues QuiltRT).2 ++
          [Stage.Render2DView,
            Stage.Render2DView_RenderThread
              { Viewport := I.Viewport, RenderTarget := Component.TextureTarget2DResource }] ∧
      (Draw E I QuiltRT c).2.2.count Stage.Render2DView = 1 ∧
      ((Draw E I QuiltRT c).2.2.filter Stage.isRender2DCommand).length = 1 ∧
      (Draw E I QuiltRT c).2.2.count Stage.RenderViews = 0 ∧
      copyCommands (Draw E I QuiltRT c).2.2 = [] ∧
      lenticularCommands (Draw E I QuiltRT c).2.2 = [] := by
  have hlen : ¬ Component.RenderingConfigs.length = 0 := by
    intro h
    exact hConfigs (List.length_eq_zero.mp h)
  have hstages : (Draw E I QuiltRT c).2.2 =
      [Stage.Clear FLinearColor.Black] ++ (GetQuiltRT Component.TilingValues QuiltRT).2 ++
        [Stage.Render2DView,
          Stage.Render2DView_RenderThread
            { Viewport := I.Viewport, RenderTarget := Component.TextureTarget2DResource }] := by
    simp [Draw, hComponent, hlen, h2D]
  obtain ⟨g1, g2, g3, _, g5, g6⟩ := GetQuiltRT_no_render Component.TilingValues QuiltRT
  refine ⟨hstages, ?_, ?_, ?_, ?_, ?_⟩
  · rw [hstages]
    simp [List.count_append, g6]
  · rw [hstages]
    simp [List.filter_append, g3, Stage.isRender2DCommand]
  · rw [hstages]
    simp [List.count_append, g5]
  · rw [hstages, copyCommands_append, copyCommands_append, g1]
    rfl
  · rw [hstages, lenticularCommands_append, lenticularCommands_append, g2]
    rfl

/-- C17 at the sample capture component with `bRender2D` set, no quilt target
allocated yet and no request pending. -/
theorem Draw_render2D_stages_witness :
    (Draw Engine.sample (DrawInputs.sample true) none {}).2.2.count Stage.Render2DView = 1 ∧
      ((Draw Engine.sample (DrawInputs.sample true) none {}).2.2.filter
        Stage.isRender2DCommand).length = 1 ∧
      (Draw Engine.sample (DrawInputs.sample true) none {}).2.2.count Stage.RenderViews = 0 ∧
      copyCommands (Draw Engine.sample (DrawInputs.sample true) none {}).2.2 = [] ∧
      lenticularCommands (Draw Engine.sample (DrawInputs.sample true) none {}).2.2 = [] :=
  (Draw_render2D_stages Engine.sample (DrawInputs.sample true) none {}
    UHoloPlaySceneCaptureComponent2D.sample rfl (by decide) rfl).2

/-- A draw call with an override quilt texture, in the modes other than 2D:
the client and the stages. -/
theorem Draw_override (E : Engine) (I : DrawInputs) (QuiltRT : Option UTextureRenderTarget2D)
    (c : FHoloPlayViewportClient) (Component : UHoloPlaySceneCaptureComponent2D)
    (Texture : Option Nat)
    (hComponent : I.CaptureComponent = some Component)
    (hConfigs : Component.RenderingConfigs ≠ [])
    (h2D : I.Settings.HoloPlayRenderingSettings.bRender2D = false)
    (hOverride : Component.OverrideQuiltTexture2D = some Texture) :
    (Draw E I QuiltRT c).1 =
        ((c.ProcessScreenshot2D E I.Settings.HoloPlayScreenshot2DSettings.Resolution
          Component.TextureTarget2DRendering I.ReadPixels2D).1.ProcessScreenshotQuilts E
          (GetQuiltRT Component.TilingValues QuiltRT).1 I.ReadPixelsQuilt).1 ∧
      (Draw E I QuiltRT c).2.2 =
        [Stage.Clear FLinearColor.Black] ++ (GetQuiltRT Component.TilingValues QuiltRT).2 ++
          [Stage.ProcessScreenshot2D
            (c.ProcessScreenshot2D E I.Settings.HoloPlayScreenshot2DSettings.Resolution
              Component.TextureTarget2DRendering I.ReadPixels2D).2,
           Stage.FlushRenderingCommands,
           Stage.ProcessScreenshotQuilts
            ((c.ProcessScreenshot2D E I.Settings.HoloPlayScreenshot2DSettings.Resolution
              Component.TextureTarget2DRendering I.ReadPixels2D).1.ProcessScreenshotQuilts E
              (GetQuiltRT Component.TilingValues QuiltRT).1 I.ReadPixelsQuilt).2,
           Stage.RenderLenticularShader_RenderThread
            { Viewport := I.Viewport, QuiltRT := I.QuiltResource,
              TilingValues := Component.TilingValues, OverrideQuiltTexture2D := Texture,
              Settings := I.Settings }] := by
  have hlen : ¬ Component.RenderingConfigs.length = 0 := by
    intro h
    exact hConfigs (List.length_eq_zero.mp h)
  constructor <;> simp [Draw, hComponent, hlen, h2D, hOverride]

/-- A draw call without override quilt texture whose copy loop meets a null
render target, in the modes other than 2D: the client and the stages. -/
theorem Draw_aborted (E : Engine) (I : DrawInputs) (QuiltRT : Option UTextureRenderTarget2D)
    (c : FHoloPlayViewportClient) (Component : UHoloPlaySceneCaptureComponent2D)
    (hComponent : I.CaptureComponent = some Component)
    (hConfigs : Component.RenderingConfigs ≠ [])
    (h2D : I.Settings.HoloPlayRenderingSettings.bRender2D = false)
    (hOverride : Component.OverrideQuiltTexture2D = none)
    (hAbort : (copyToQuilt I.QuiltResource Component.TilingValues
      Component.RenderingConfigs).2 = true) :
    (Draw E I QuiltRT c).1 =
        (c.ProcessScreenshot2D E I.Settings.HoloPlayScreenshot2DSettings.Resolution
          Component.TextureTarget2DRendering I.ReadPixels2D).1 ∧
      (Draw E I QuiltRT c).2.2 =
        [Stage.Clear FLinearColor.Black] ++ (GetQuiltRT Component.TilingValues QuiltRT).2 ++
          [Stage.ProcessScreenshot2D
            (c.ProcessScreenshot2D E I.Settings.HoloPlayScreenshot2DSettings.Resolution
              Component.TextureTarget2DRendering I.ReadPixels2D).2,
           Stage.RenderViews] ++
          (copyToQuilt I.QuiltResource Component.TilingValues
            Component.RenderingConfigs).1.map Stage.CopyToQuiltShader_RenderThread ++
          [Stage.LogRenderTargetNull] := by
  have hlen : ¬ Component.RenderingConfigs.length = 0 := by
    intro h
    exact hConfigs (List.length_eq_zero.mp h)
  constructor <;> simp [Draw, hComponent, hlen, h2D, hOverride, hAbort]

/-- A draw call without override quilt texture whose copy loop runs to its
end, in the modes other than 2D: the client and the stages. -/
theorem Draw_composited (E : Engine) (I : DrawInputs) (QuiltRT : Option UTextureRenderTarget2D)
    (c : FHoloPlayViewportClient) (Component : UHoloPlaySceneCaptureComponent2D)
    (hComponent : I.CaptureComponent = some Component)
    (hConfigs : Component.RenderingConfigs ≠ [])
    (h2D : I.Settings.HoloPlayRenderingSettings.bRender2D = false)
    (hOverride : Component.OverrideQuiltTexture2D = none)
    (hDone : (copyToQuilt I.QuiltResource Component.TilingValues
      Component.RenderingConfigs).2 = false) :
    (Draw E I QuiltRT c).1 =
        ((c.ProcessScreenshot2D E I.Settings.HoloPlayScreenshot2DSettings.Resolution
          Component.TextureTarget2DRendering I.ReadPixels2D).1.ProcessScreenshotQuilts E
          (GetQuiltRT Component.TilingValues QuiltRT).1 I.ReadPixelsQuilt).1 ∧
      (Draw E I QuiltRT c).2.2 =
        [Stage.Clear FLinearColor.Black] ++ (GetQuiltRT Component.TilingValues QuiltRT).2 ++
          [Stage.ProcessScreenshot2D
            (c.ProcessScreenshot2D E I.Settings.HoloPlayScreenshot2DSettings.Resolution
              Component.TextureTarget2DRendering I.ReadPixels2D).2,
           Stage.RenderViews] ++
          (copyToQuilt I.QuiltResource Component.TilingValues
            Component.RenderingConfigs).1.map Stage.CopyToQuiltShader_RenderThread ++
          [Stage.FlushRenderingCommands,
           Stage.ProcessScreenshotQuilts
            ((c.ProcessScreenshot2D E I.Settings.HoloPlayScreenshot2DSettings.Resolution
              Component.TextureTarget2DRendering I.ReadPixels2D).1.ProcessScreenshotQuilts E
              (GetQuiltRT Component.TilingValues QuiltRT).1 I.ReadPixelsQuilt).2,
           Stage.RenderLenticularShader_RenderThread
            { Viewport := I.Viewport, QuiltRT := I.QuiltResource,
              TilingValues := Component.TilingValues, OverrideQuiltTexture2D := none,
              Settings := I.Settings }] := by
  have hlen : ¬ Component.RenderingConfigs.length = 0 := by
    intro h
    exact hConfigs (List.length_eq_zero.mp h)
  constructor <;> simp [Draw, hComponent, hlen, h2D, hOverride, hDone]

/-- The copy loop stops at a rendering config without render target or
resource: the commands issued are those of the configs before it. -/
theorem copyConfigs_null (QuiltRT : Nat) (T : FHoloPlayTilingQuality)
    (bad : FHoloPlayRenderingConfig) (post : List FHoloPlayRenderingConfig)
    (hbad : bad.hasResource = false) :
    ∀ (pre : List FHoloPlayRenderingConfig) (cur : Nat),
      copyConfigs QuiltRT T (pre ++ bad :: post) cur = ((copyConfigs QuiltRT T pre cur).1, true) := by
  intro pre
  induction pre with
  | nil =>
    intro cur
    rcases hrt : bad.RenderTarget with _ | _ | Resource
    · simp [copyConfigs, hrt]
    · simp [copyConfigs, hrt]
    · simp [FHoloPlayRenderingConfig.hasResource, hrt] at hbad
  | cons cfg rest ih =>
    intro cur
    rcases hrt : cfg.RenderTarget with _ | _ | Resource
    · simp [copyConfigs, hrt]
    · simp [copyConfigs, hrt]
    · simp [copyConfigs, hrt, ih]

/-- When every rendering config has a render target with a resource, the copy
loop runs to its end and issues one command per view. -/
theorem copyConfigs_complete (QuiltRT : Nat) (T : FHoloPlayTilingQuality) :
    ∀ (cfgs : List FHoloPlayRenderingConfig) (cur : Nat), cur < 2 ^ 32 →
      (∀ cfg ∈ cfgs, cfg.hasResource = true) →
      (copyConfigs QuiltRT T cfgs cur).2 = false ∧
        (copyConfigs QuiltRT T cfgs cur).1.length =
          (cfgs.map fun cfg => cfg.ViewInfoArr.length).sum := by
  intro cfgs
  induction cfgs with
  | nil =>
    intro cur _ _
    simp [copyConfigs]
  | cons cfg rest ih =>
    intro cur hcur hall
    have hcfg := hall cfg (List.mem_cons_self _ _)
    rcases hrt : cfg.RenderTarget with _ | _ | Resource
    · simp [FHoloPlayRenderingConfig.hasResource, hrt] at hcfg
    · simp [FHoloPlayRenderingConfig.hasResource, hrt] at hcfg
    · obtain ⟨hlen, hfin, _⟩ :=
        copyViews_index QuiltRT T cfg Resource cfg.ViewInfoArr 0 cur hcur
      have hlt : (copyViews QuiltRT T cfg Resource cfg.ViewInfoArr 0 cur).2 < 2 ^ 32 := by
        rw [hfin]; exact Nat.mod_lt _ (by norm_num)
      obtain ⟨h1, h2⟩ := ih _ hlt (fun x hx => hall x (List.mem_cons_of_mem _ hx))
      simp [copyConfigs, hrt, h1, h2, hlen]

namespace FHoloPlayViewportClient

/-- The 2D servicing routine does not touch the quilt and lenticular requests. -/
theorem ProcessScreenshot2D_others (E : Engine) (Resolution : FIntPoint)
    (RenderTarget : UTextureRenderTarget2D) (ReadPixels : Bool × List FColor)
    (c : FHoloPlayViewportClient) :
    (ProcessScreenshot2D E Resolution RenderTarget ReadPixels c).1.HoloPlayQuilScreenshotRequest =
        c.HoloPlayQuilScreenshotRequest ∧
      (ProcessScreenshot2D E Resolution RenderTarget ReadPixels
        c).1.HoloPlayLenticularScreenshotRequest = c.HoloPlayLenticularScreenshotRequest := by
  unfold ProcessScreenshot2D
  cases c.HoloPlayScreenshot2DRequest with
  | none => exact ⟨rfl, rfl⟩
  | some Request =>
    simp only []
    split
    · exact ⟨rfl, rfl⟩
    · split
      · exact ⟨rfl, rfl⟩
      · exact ⟨rfl, rfl⟩

/-- The quilt servicing routine does not touch the 2D and lenticular requests. -/
theorem ProcessScreenshotQuilts_others (E : Engine) (InQuiltRT : UTextureRenderTarget2D)
    (ReadPixels : Bool × List FColor) (c : FHoloPlayViewportClient) :
    (ProcessScreenshotQuilts E InQuiltRT ReadPixels c).1.HoloPlayScreenshot2DRequest =
        c.HoloPlayScreenshot2DRequest ∧
      (ProcessScreenshotQuilts E InQuiltRT ReadPixels c).1.HoloPlayLenticularScreenshotRequest =
        c.HoloPlayLenticularScreenshotRequest := by
  unfold ProcessScreenshotQuilts
  cases c.HoloPlayQuilScreenshotRequest with
  | none => exact ⟨rfl, rfl⟩
  | some Request =>
    simp only []
    split
    · exact ⟨rfl, rfl⟩
    · exact ⟨rfl, rfl⟩

end FHoloPlayViewportClient

/-- No screenshot servicing call is among mapped copy-to-quilt commands. -/
theorem filter_isQuiltServicing_map (l : List FCopyToQuiltRenderContext) :
    (l.map Stage.CopyToQuiltShader_RenderThread).filter Stage.isQuiltServicing = [] := by
  induction l with
  | nil => rfl
  | cons a l ih => simp [Stage.isQuiltServicing]

/-- A draw call for a valid capture component without rendering config: the
stages issued, with no copy-to-quilt and no lenticular command. -/
theorem Draw_zero_configs_aborts_aux (E : Engine) (I : DrawInputs)
    (QuiltRT : Option UTextureRenderTarget2D) (c : FHoloPlayViewportClient)
    (Component : UHoloPlaySceneCaptureComponent2D)
    (hComponent : I.CaptureComponent = some Component)
    (hnil : Component.RenderingConfigs = []) :
    (Draw E I QuiltRT c).2.2 =
        [Stage.Clear FLinearColor.Black] ++ (GetQuiltRT Component.TilingValues QuiltRT).2 ++
          [Stage.EnsureNoRenderingConfigs, Stage.Clear FLinearColor.Green] ∧
      copyCommands (Draw E I QuiltRT c).2.2 = [] ∧
      lenticularCommands (Draw E I QuiltRT c).2.2 = [] := by
  obtain ⟨g1, g2, _, _, _, _⟩ := GetQuiltRT_no_render Component.TilingValues QuiltRT
  have hstages : (Draw E I QuiltRT c).2.2 =
      [Stage.Clear FLinearColor.Black] ++ (GetQuiltRT Component.TilingValues QuiltRT).2 ++
        [Stage.EnsureNoRenderingConfigs, Stage.Clear FLinearColor.Green] := by
    simp [Draw, hComponent, hnil]
  refine ⟨hstages, ?_, ?_⟩
  · rw [hstages, copyCommands_append, copyCommands_append, g1]
    rfl
  · rw [hstages, lenticularCommands_append, lenticularCommands_append, g2]
    rfl

/-- C18 as stated fails: with the sample capture component, whose first
rendering config has no view and whose second has two, a draw call in hologram
mode issues two copy-to-quilt commands and one lenticular shader command. -/
theorem Draw_zero_view_config_not_aborted :
    (UHoloPlaySceneCaptureComponent2D.sample.RenderingConfigs.map
        fun cfg => cfg.ViewInfoArr.length) = [0, 2] ∧
      (DrawInputs.sample false).Settings.HoloPlayRenderingSettings.bRender2D = false ∧
      UHoloPlaySceneCaptureComponent2D.sample.OverrideQuiltTexture2D = none ∧
      (copyCommands (Draw Engine.sample (DrawInputs.sample false) none {}).2.2).length = 2 ∧
      (lenticularCommands (Draw Engine.sample (DrawInputs.sample false) none {}).2.2).length
        = 1 := by
  refine ⟨by decide, by decide, by decide, by decide, by decide⟩

/-- C18, amended: in hologram mode (`bRender2D` false, no override quilt), a
draw call for a capture component with no rendering config at all aborts the
frame: it clears to green, issues no copy-to-quilt and no lenticular shader
command and leaves the client as it was.  With at least one rendering config,
all with a render target and resource, the frame is not aborted, whatever the
numbers of views: one lenticular shader command is issued and the number of
copy-to-quilt commands is the total number of views, none for a config with
zero views. -/
theorem Draw_zero_configs_aborts (E : Engine) (I : DrawInputs)
    (QuiltRT : Option UTextureRenderTarget2D) (c : FHoloPlayViewportClient)
    (Component : UHoloPlaySceneCaptureComponent2D)
    (hComponent : I.CaptureComponent = some Component)
    (h2D : I.Settings.HoloPlayRenderingSettings.bRender2D = false)
    (hOverride : Component.OverrideQuiltTexture2D = none) :
    (Component.RenderingConfigs = [] →
      (Draw E I QuiltRT c).2.2 =
          [Stage.Clear FLinearColor.Black] ++ (GetQuiltRT Component.TilingValues QuiltRT).2 ++
            [Stage.EnsureNoRenderingConfigs, Stage.Clear FLinearColor.Green] ∧
        copyCommands (Draw E I QuiltRT c).2.2 = [] ∧
        lenticularCommands (Draw E I QuiltRT c).2.2 = [] ∧
        (Draw E I QuiltRT c).1 = c) ∧
    (Component.RenderingConfigs ≠ [] →
      (∀ cfg ∈ Component.RenderingConfigs, cfg.hasResource = true) →
      (lenticularCommands (Draw E I QuiltRT c).2.2).length = 1 ∧
        (copyCommands (Draw E I QuiltRT c).2.2).length =
          (Component.RenderingConfigs.map fun cfg => cfg.ViewInfoArr.length).sum) := by
  obtain ⟨g1, g2, _, _, _, _⟩ := GetQuiltRT_no_render Component.TilingValues QuiltRT
  constructor
  · intro hnil
    have hstages : (Draw E I QuiltRT c).2.2 =
        [Stage.Clear FLinearColor.Black] ++ (GetQuiltRT Component.TilingValues QuiltRT).2 ++
          [Stage.EnsureNoRenderingConfigs, Stage.Clear FLinearColor.Green] := by
      simp [Draw, hComponent, hnil]
    refine ⟨hstages, ?_, ?_, ?_⟩
    · rw [hstages, copyCommands_append, copyCommands_append, g1]
      rfl
    · rw [hstages, lenticularCommands_append, lenticularCommands_append, g2]
      rfl
    · simp [Draw, hComponent, hnil]
  · intro hne hall
    obtain ⟨hdone, hlen⟩ := copyConfigs_complete I.QuiltResource Component.TilingValues
      Component.RenderingConfigs 0 (by norm_num) hall
    obtain ⟨_, hstages⟩ := Draw_composited E I QuiltRT c Component hComponent hne h2D
      hOverride hdone
    constructor
    · rw [hstages]
      simp only [lenticularCommands_append, g2, lenticularCommands_map]
      rfl
    · rw [hstages]
      simp only [copyCommands_append, g1, copyCommands_map]
      simpa [copyCommands, copyToQuilt] using hlen

/-- C18, amended, at the sample capture component: its first config has no
view, and the draw call issues one lenticular command and two copy-to-quilt
commands. -/
theorem Draw_zero_configs_aborts_witness :
    (lenticularCommands (Draw Engine.sample (DrawInputs.sample false) none {}).2.2).length = 1 ∧
      (copyCommands (Draw Engine.sample (DrawInputs.sample false) none {}).2.2).length =
        (UHoloPlaySceneCaptureComponent2D.sample.RenderingConfigs.map
          fun cfg => cfg.ViewInfoArr.length).sum :=
  (Draw_zero_configs_aborts Engine.sample (DrawInputs.sample false) none {}
    UHoloPlaySceneCaptureComponent2D.sample rfl rfl rfl).2 (by decide) (by decide)

/-- C19: in hologram mode (`bRender2D` false, no override quilt), when a
rendering config has a null render target or a null resource, the draw call
issues no lenticular shader command and does not call `ProcessScreenshotQuilts`
(the quilt request is what it was before the call), and the copy-to-quilt
commands it issues are exactly those of the configs before that one. -/
theorem Draw_null_render_target (E : Engine) (I : DrawInputs)
    (QuiltRT : Option UTextureRenderTarget2D) (c : FHoloPlayViewportClient)
    (Component : UHoloPlaySceneCaptureComponent2D)
    (pre : List FHoloPlayRenderingConfig) (bad : FHoloPlayRenderingConfig)
    (post : List FHoloPlayRenderingConfig)
    (hComponent : I.CaptureComponent = some Component)
    (h2D : I.Settings.HoloPlayRenderingSettings.bRender2D = false)
    (hOverride : Component.OverrideQuiltTexture2D = none)
    (hConfigs : Component.RenderingConfigs = pre ++ bad :: post)
    (hbad : bad.hasResource = false) :
    lenticularCommands (Draw E I QuiltRT c).2.2 = [] ∧
      (Draw E I QuiltRT c).2.2.filter Stage.isQuiltServicing = [] ∧
      (Draw E I QuiltRT c).1.HoloPlayQuilScreenshotRequest = c.HoloPlayQuilScreenshotRequest ∧
      copyCommands (Draw E I QuiltRT c).2.2 =
        (copyToQuilt I.QuiltResource Component.TilingValues pre).1 := by
  have hne : Component.RenderingConfigs ≠ [] := by
    rw [hConfigs]; simp
  have hcopy : copyToQuilt I.QuiltResource Component.TilingValues Component.RenderingConfigs =
      ((copyToQuilt I.QuiltResource Component.TilingValues pre).1, true) := by
    rw [hConfigs]
    exact copyConfigs_null I.QuiltResource Component.TilingValues bad post hbad pre 0
  have habort : (copyToQuilt I.QuiltResource Component.TilingValues
      Component.RenderingConfigs).2 = true := by rw [hcopy]
  obtain ⟨hclient, hstages⟩ := Draw_aborted E I QuiltRT c Component hComponent hne h2D
    hOverride habort
  obtain ⟨g1, g2, _, g4, _, _⟩ := GetQuiltRT_no_render Component.TilingValues QuiltRT
  refine ⟨?_, ?_, ?_, ?_⟩
  · rw [hstages]
    simp only [lenticularCommands_append, g2, lenticularCommands_map]
    rfl
  · rw [hstages]
    simp only [List.filter_append, g4, filter_isQuiltServicing_map]
    rfl
  · rw [hclient]
    exact (FHoloPlayViewportClient.ProcessScreenshot2D_others E _ _ _ c).1
  · rw [hstages]
    simp only [copyCommands_append, g1, copyCommands_map, hcopy]
    simp [copyCommands]

/-- C19 at a capture component whose second of three rendering configs has no
resource: only the two views of the first config are copied. -/
theorem Draw_null_render_target_witness :
    lenticularCommands (Draw Engine.sample
        (DrawInputs.sampleFor UHoloPlaySceneCaptureComponent2D.sampleNullTarget) none
        FHoloPlayViewportClient.samplePending).2.2 = [] ∧
      (Draw Engine.sample
        (DrawInputs.sampleFor UHoloPlaySceneCaptureComponent2D.sampleNullTarget) none
        FHoloPlayViewportClient.samplePending).2.2.filter Stage.isQuiltServicing = [] ∧
      (Draw Engine.sample
        (DrawInputs.sampleFor UHoloPlaySceneCaptureComponent2D.sampleNullTarget) none
        FHoloPlayViewportClient.samplePending).1.HoloPlayQuilScreenshotRequest =
          FHoloPlayViewportClient.samplePending.HoloPlayQuilScreenshotRequest ∧
      (copyCommands (Draw Engine.sample
        (DrawInputs.sampleFor UHoloPlaySceneCaptureComponent2D.sampleNullTarget) none
        FHoloPlayViewportClient.samplePending).2.2).length = 2 := by
  have h := Draw_null_render_target Engine.sample
    (DrawInputs.sampleFor UHoloPlaySceneCaptureComponent2D.sampleNullTarget) none
    FHoloPlayViewportClient.samplePending UHoloPlaySceneCaptureComponent2D.sampleNullTarget
    [{ RenderTarget := some (some 1), ViewInfoArr := [10, 11], ViewRows := 1, ViewColumns := 2 }]
    { RenderTarget := some none, ViewInfoArr := [12], ViewRows := 1, ViewColumns := 1 }
    [{ RenderTarget := some (some 2), ViewInfoArr := [13], ViewRows := 1, ViewColumns := 1 }]
    rfl rfl rfl rfl rfl
  exact ⟨h.1, h.2.1, h.2.2.1, by rw [h.2.2.2]; rfl⟩

/-- C20: in a draw call with a valid capture component and `bRender2D` false,
when the component supplies an override quilt texture no `RenderViews` call and
no copy-to-quilt command is issued, every lenticular render context issued
carries the resource of the override texture, and with at least one rendering
config exactly one such context is issued; when no override is supplied, every
lenticular render context issued has a null override field. -/
theorem Draw_override_quilt (E : Engine) (I : DrawInputs)
    (QuiltRT : Option UTextureRenderTarget2D) (c : FHoloPlayViewportClient)
    (Component : UHoloPlaySceneCaptureComponent2D)
    (hComponent : I.CaptureComponent = some Component)
    (h2D : I.Settings.HoloPlayRenderingSettings.bRender2D = false) :
    (∀ Texture : Option Nat, Component.OverrideQuiltTexture2D = some Texture →
      (Draw E I QuiltRT c).2.2.count Stage.RenderViews = 0 ∧
      copyCommands (Draw E I QuiltRT c).2.2 = [] ∧
      (∀ Context ∈ lenticularCommands (Draw E I QuiltRT c).2.2,
        Context.OverrideQuiltTexture2D = Texture) ∧
      (Component.RenderingConfigs ≠ [] →
        ∃ Context, lenticularCommands (Draw E I QuiltRT c).2.2 = [Context] ∧
          Context.OverrideQuiltTexture2D = Texture)) ∧
    (Component.OverrideQuiltTexture2D = none →
      ∀ Context ∈ lenticularCommands (Draw E I QuiltRT c).2.2,
        Context.OverrideQuiltTexture2D = none) := by
  obtain ⟨g1, g2, _, _, g5, _⟩ := GetQuiltRT_no_render Component.TilingValues QuiltRT
  have hzero := fun hOv => (Draw_zero_configs_aborts_aux E I QuiltRT c Component hComponent hOv)
  constructor
  · intro Texture hOverride
    by_cases hnil : Component.RenderingConfigs = []
    · obtain ⟨hstages, hc, hl⟩ := hzero hnil
      refine ⟨?_, hc, ?_, fun h => absurd hnil h⟩
      · rw [hstages]
        simp [List.count_append, g5]
      · rw [hl]
        simp
    · obtain ⟨_, hstages⟩ := Draw_override E I QuiltRT c Component Texture hComponent hnil h2D
        hOverride
      have hlent : lenticularCommands (Draw E I QuiltRT c).2.2 =
          [{ Viewport := I.Viewport, QuiltRT := I.QuiltResource,
             TilingValues := Component.TilingValues, OverrideQuiltTexture2D := Texture,
             Settings := I.Settings }] := by
        rw [hstages]
        simp only [lenticularCommands_append, g2]
        rfl
      refine ⟨?_, ?_, ?_, fun _ => ⟨_, hlent, rfl⟩⟩
      · rw [hstages]
        simp [List.count_append, g5]
      · rw [hstages]
        simp only [copyCommands_append, g1]
        rfl
      · rw [hlent]
        simp
  · intro hOverride Context hmem
    by_cases hnil : Component.RenderingConfigs = []
    · obtain ⟨_, _, hl⟩ := hzero hnil
      rw [hl] at hmem
      simp at hmem
    · cases hcopy : (copyToQuilt I.QuiltResource Component.TilingValues
          Component.RenderingConfigs).2 with
      | true =>
        obtain ⟨_, hstages⟩ := Draw_aborted E I QuiltRT c Component hComponent hnil h2D
          hOverride hcopy
        have hl : lenticularCommands (Draw E I QuiltRT c).2.2 = [] := by
          rw [hstages]
          simp only [lenticularCommands_append, g2, lenticularCommands_map]
          rfl
        rw [hl] at hmem
        simp at hmem
      | false =>
        obtain ⟨_, hstages⟩ := Draw_composited E I QuiltRT c Component hComponent hnil h2D
          hOverride hcopy
        have hl : lenticularCommands (Draw E I QuiltRT c).2.2 =
            [{ Viewport := I.Viewport, QuiltRT := I.QuiltResource,
               TilingValues := Component.TilingValues, OverrideQuiltTexture2D := none,
               Settings := I.Settings }] := by
          rw [hstages]
          simp only [lenticularCommands_append, g2, lenticularCommands_map]
          rfl
        rw [hl] at hmem
        simp at hmem
        rw [hmem]

/-- C20 at the sample capture component with an override quilt texture of
resource 9: no `RenderViews`, no copy-to-quilt command, and the one lenticular
render context carries resource 9. -/
theorem Draw_override_quilt_witness :
    (Draw Engine.sample (DrawInputs.sampleFor UHoloPlaySceneCaptureComponent2D.sampleOverride)
        none {}).2.2.count Stage.RenderViews = 0 ∧
      copyCommands (Draw Engine.sample
        (DrawInputs.sampleFor UHoloPlaySceneCaptureComponent2D.sampleOverride) none {}).2.2
        = [] ∧
      ∃ Context, lenticularCommands (Draw Engine.sample
        (DrawInputs.sampleFor UHoloPlaySceneCaptureComponent2D.sampleOverride) none {}).2.2
          = [Context] ∧ Context.OverrideQuiltTexture2D = some 9 := by
  have h := (Draw_override_quilt Engine.sample
    (DrawInputs.sampleFor UHoloPlaySceneCaptureComponent2D.sampleOverride) none {}
    UHoloPlaySceneCaptureComponent2D.sampleOverride rfl rfl).1 (some 9) rfl
  exact ⟨h.1, h.2.1, h.2.2.2 (by decide)⟩

/-- C12 as stated fails: in 2D render mode, with the sample capture component
(valid, two rendering configs), a quilt request and a 2D request pending when
`Draw` starts are still pending when it returns, and no servicing call is among
the stages. -/
theorem Draw_render2D_keeps_requests :
    (DrawInputs.sample true).Settings.HoloPlayRenderingSettings.bRender2D = true ∧
      FHoloPlayViewportClient.samplePending.HoloPlayQuilScreenshotRequest.isSome = true ∧
      FHoloPlayViewportClient.samplePending.HoloPlayScreenshot2DRequest.isSome = true ∧
      (Draw Engine.sample (DrawInputs.sample true) none
        FHoloPlayViewportClient.samplePending).1.HoloPlayQuilScreenshotRequest.isSome = true ∧
      (Draw Engine.sample (DrawInputs.sample true) none
        FHoloPlayViewportClient.samplePending).1.HoloPlayScreenshot2DRequest.isSome = true ∧
      (Draw Engine.sample (DrawInputs.sample true) none
        FHoloPlayViewportClient.samplePending).2.2.filter Stage.isQuiltServicing = [] := by
  refine ⟨by decide, by decide, by decide, by decide, by decide, by decide⟩

/-- C12, amended: for a draw call with a valid capture component that has at
least one rendering config.  In 2D render mode the client is left as it was:
no pending request is serviced.  In the other modes (hologram, quilt-debug,
override quilt), a 2D request pending at the start is cleared at the return
when its file name is empty or the configured 2D resolution is positive in both
dimensions, and a quilt request pending at the start is cleared at the return
when an override quilt is supplied or every rendering config has a render
target with a resource. -/
theorem Draw_clears_requests (E : Engine) (I : DrawInputs)
    (QuiltRT : Option UTextureRenderTarget2D) (c : FHoloPlayViewportClient)
    (Component : UHoloPlaySceneCaptureComponent2D)
    (hComponent : I.CaptureComponent = some Component)
    (hConfigs : Component.RenderingConfigs ≠ []) :
    (I.Settings.HoloPlayRenderingSettings.bRender2D = true → (Draw E I QuiltRT c).1 = c) ∧
    (I.Settings.HoloPlayRenderingSettings.bRender2D = false →
      (∀ Request : FHoloPlayScreenshotRequest, c.HoloPlayScreenshot2DRequest = some Request →
        (Request.Filename.isEmpty = true ∨
          (0 < I.Settings.HoloPlayScreenshot2DSettings.Resolution.X ∧
            0 < I.Settings.HoloPlayScreenshot2DSettings.Resolution.Y)) →
        (Draw E I QuiltRT c).1.HoloPlayScreenshot2DRequest = none) ∧
      ((Component.OverrideQuiltTexture2D.isSome = true ∨
          ∀ cfg ∈ Component.RenderingConfigs, cfg.hasResource = true) →
        (Draw E I QuiltRT c).1.HoloPlayQuilScreenshotRequest = none)) := by
  have hlen : ¬ Component.RenderingConfigs.length = 0 := by
    intro h
    exact hConfigs (List.length_eq_zero.mp h)
  constructor
  · intro h2D
    simp [Draw, hComponent, hlen, h2D]
  · intro h2D
    have hclient : (Draw E I QuiltRT c).1 =
          (c.ProcessScreenshot2D E I.Settings.HoloPlayScreenshot2DSettings.Resolution
            Component.TextureTarget2DRendering I.ReadPixels2D).1 ∨
        (Draw E I QuiltRT c).1 =
          ((c.ProcessScreenshot2D E I.Settings.HoloPlayScreenshot2DSettings.Resolution
            Component.TextureTarget2DRendering I.ReadPixels2D).1.ProcessScreenshotQuilts E
            (GetQuiltRT Component.TilingValues QuiltRT).1 I.ReadPixelsQuilt).1 := by
      cases hOv : Component.OverrideQuiltTexture2D with
      | some Texture =>
        exact Or.inr (Draw_override E I QuiltRT c Component Texture hComponent hConfigs h2D hOv).1
      | none =>
        cases hcopy : (copyToQuilt I.QuiltResource Component.TilingValues
            Component.RenderingConfigs).2 with
        | true =>
          exact Or.inl (Draw_aborted E I QuiltRT c Component hComponent hConfigs h2D hOv hcopy).1
        | false =>
          exact Or.inr
            (Draw_composited E I QuiltRT c Component hComponent hConfigs h2D hOv hcopy).1
    constructor
    · intro Request hReq hor
      have h2 := (FHoloPlayViewportClient.Process_clears_request E c
        (GetQuiltRT Component.TilingValues QuiltRT).1 Component.TextureTarget2DRendering
        I.ReadPixels2D
        { SizeXY := { X := 0, Y := 0 }, WindowValid := false, SlateInitialized := false,
          TakeScreenshot := (false, [], { X := 0, Y := 0 }),
          GetViewportScreenShot := (false, []) }
        I.Settings.HoloPlayScreenshot2DSettings.Resolution).2.2 Request hReq hor
      rcases hclient with h | h
      · rw [h]; exact h2
      · rw [h, (FHoloPlayViewportClient.ProcessScreenshotQuilts_others E _ _ _).1]
        exact h2
    · intro hor
      have hquilt : (Draw E I QuiltRT c).1 =
          ((c.ProcessScreenshot2D E I.Settings.HoloPlayScreenshot2DSettings.Resolution
            Component.TextureTarget2DRendering I.ReadPixels2D).1.ProcessScreenshotQuilts E
            (GetQuiltRT Component.TilingValues QuiltRT).1 I.ReadPixelsQuilt).1 := by
        cases hOv : Component.OverrideQuiltTexture2D with
        | some Texture =>
          exact (Draw_override E I QuiltRT c Component Texture hComponent hConfigs h2D hOv).1
        | none =>
          rcases hor with hor | hall
          · simp [hOv] at hor
          · have hdone := (copyConfigs_complete I.QuiltResource Component.TilingValues
              Component.RenderingConfigs 0 (by norm_num) hall).1
            exact (Draw_composited E I QuiltRT c Component hComponent hConfigs h2D hOv hdone).1
      rw [hquilt]
      exact (FHoloPlayViewportClient.Process_clears_request E _
        (GetQuiltRT Component.TilingValues QuiltRT).1 Component.TextureTarget2DRendering
        I.ReadPixelsQuilt
        { SizeXY := { X := 0, Y := 0 }, WindowValid := false, SlateInitialized := false,
          TakeScreenshot := (false, [], { X := 0, Y := 0 }),
          GetViewportScreenShot := (false, []) }
        I.Settings.HoloPlayScreenshot2DSettings.Resolution).1

/-- C12, amended, at the sample capture component in hologram mode with a quilt
request and a 2D request pending (2D resolution 1280 by 720): both are cleared
when `Draw` returns. -/
theorem Draw_clears_requests_witness :
    (Draw Engine.sample (DrawInputs.sample false) none
        FHoloPlayViewportClient.samplePending).1.HoloPlayScreenshot2DRequest = none ∧
      (Draw Engine.sample (DrawInputs.sample false) none
        FHoloPlayViewportClient.samplePending).1.HoloPlayQuilScreenshotRequest = none := by
  have h := (Draw_clears_requests Engine.sample (DrawInputs.sample false) none
    FHoloPlayViewportClient.samplePending UHoloPlaySceneCaptureComponent2D.sample rfl
    (by decide)).2 rfl
  exact ⟨h.1 { Filename := "Shot.png" } rfl (Or.inr (by decide)), h.2 (Or.inr (by decide))⟩

/-! ## Theorems: completion delegates -/

namespace FHoloPlayViewportClient

/-- C11 as stated fails: when the pending request has an empty file name, each
of the three servicing routines clears the request and performs no effect, so
the completion delegate of its kind is broadcast zero times, not once. -/
theorem Process_empty_filename_no_broadcast :
    ((ProcessScreenshotQuilts Engine.sample { SizeX := 100, SizeY := 100 } (true, [])
        { HoloPlayQuilScreenshotRequest := some { Filename := "" } }).2.count
        Effect.OnScreenshotQuiltRequestProcessed = 0 ∧
      (ProcessScreenshotQuilts Engine.sample { SizeX := 100, SizeY := 100 } (true, [])
        { HoloPlayQuilScreenshotRequest := some { Filename := "" } }
        ).1.HoloPlayQuilScreenshotRequest = none) ∧
    ((ProcessScreenShotLenticular Engine.sample
        { SizeXY := { X := 100, Y := 100 }, WindowValid := true, SlateInitialized := true,
          TakeScreenshot := (true, [], { X := 100, Y := 100 }),
          GetViewportScreenShot := (true, []) }
        { HoloPlayLenticularScreenshotRequest := some { Filename := "" } }).2.2.count
        Effect.OnScreenshot3DRequestProcessed = 0 ∧
      (ProcessScreenShotLenticular Engine.sample
        { SizeXY := { X := 100, Y := 100 }, WindowValid := true, SlateInitialized := true,
          TakeScreenshot := (true, [], { X := 100, Y := 100 }),
          GetViewportScreenShot := (true, []) }
        { HoloPlayLenticularScreenshotRequest := some { Filename := "" } }
        ).2.1.HoloPlayLenticularScreenshotRequest = none) ∧
    ((ProcessScreenshot2D Engine.sample { X := 1280, Y := 720 } { SizeX := 1280, SizeY := 720 }
        (true, []) { HoloPlayScreenshot2DRequest := some { Filename := "" } }).2.count
        Effect.OnScreenshot2DRequestProcessed = 0 ∧
      (ProcessScreenshot2D Engine.sample { X := 1280, Y := 720 } { SizeX := 1280, SizeY := 720 }
        (true, []) { HoloPlayScreenshot2DRequest := some { Filename := "" } }
        ).1.HoloPlayScreenshot2DRequest = none) := by
  refine ⟨⟨by decide, by decide⟩, ⟨by decide, by decide⟩, ⟨by decide, by decide⟩⟩

/-- C11, amended: when a servicing routine runs while a request of its kind
is pending, the completion delegate of the kind is broadcast exactly once if
the request's file name is not empty, whether or not the readback succeeded
and the image was saved, and is not broadcast if the file name is empty; for
the 2D routine this is for a configured resolution positive in both
dimensions.  No routine broadcasts the delegate of another kind. -/
theorem Process_broadcast_count (E : Engine) (c : FHoloPlayViewportClient)
    (InQuiltRT RenderTarget : UTextureRenderTarget2D) (ReadPixels : Bool × List FColor)
    (V : LenticularCapture) (Resolution : FIntPoint) :
    (∀ Request : FHoloPlayScreenshotRequest, c.HoloPlayQuilScreenshotRequest = some Request →
      (ProcessScreenshotQuilts E InQuiltRT ReadPixels c).2.count
          Effect.OnScreenshotQuiltRequestProcessed =
        (if Request.Filename.isEmpty then 0 else 1) ∧
      (ProcessScreenshotQuilts E InQuiltRT ReadPixels c).2.count
          Effect.OnScreenshot3DRequestProcessed = 0 ∧
      (ProcessScreenshotQuilts E InQuiltRT ReadPixels c).2.count
          Effect.OnScreenshot2DRequestProcessed = 0) ∧
    (∀ Request : FHoloPlayLenticularScreenshotRequest,
      c.HoloPlayLenticularScreenshotRequest = some Request →
      (ProcessScreenShotLenticular E V c).2.2.count Effect.OnScreenshot3DRequestProcessed =
        (if Request.Filename.isEmpty then 0 else 1) ∧
      (ProcessScreenShotLenticular E V c).2.2.count
          Effect.OnScreenshotQuiltRequestProcessed = 0 ∧
      (ProcessScreenShotLenticular E V c).2.2.count
          Effect.OnScreenshot2DRequestProcessed = 0) ∧
    (∀ Request : FHoloPlayScreenshotRequest, c.HoloPlayScreenshot2DRequest = some Request →
      0 < Resolution.X → 0 < Resolution.Y →
      (ProcessScreenshot2D E Resolution RenderTarget ReadPixels c).2.count
          Effect.OnScreenshot2DRequestProcessed =
        (if Request.Filename.isEmpty then 0 else 1) ∧
      (ProcessScreenshot2D E Resolution RenderTarget ReadPixels c).2.count
          Effect.OnScreenshotQuiltRequestProcessed = 0 ∧
      (ProcessScreenshot2D E Resolution RenderTarget ReadPixels c).2.count
          Effect.OnScreenshot3DRequestProcessed = 0) := by
  refine ⟨fun Request h => ?_, fun Request h => ?_, fun Request h hx hy => ?_⟩
  · by_cases hf : Request.Filename.isEmpty = true
    · simp [ProcessScreenshotQuilts, h, hf]
    · cases hr : (GetRenderTargetScreenShot ReadPixels).1 <;>
        simp [ProcessScreenshotQuilts, h, hf, hr, List.count_cons]
  · by_cases hf : Request.Filename.isEmpty = true
    · simp [ProcessScreenShotLenticular, h, hf]
    · by_cases hs : (Request.bShowUI && V.WindowValid && V.SlateInitialized) = true
      · cases hr : V.TakeScreenshot.1 <;>
          simp [ProcessScreenShotLenticular, h, hf, hs, hr, List.count_cons, List.count_append]
      · cases hr : V.GetViewportScreenShot.1 <;>
          simp [ProcessScreenShotLenticular, h, hf, hs, hr, List.count_cons, List.count_append]
  · have hx2 : ¬ Resolution.X ≤ 0 := by omega
    have hy2 : ¬ Resolution.Y ≤ 0 := by omega
    by_cases hf : Request.Filename.isEmpty = true
    · simp [ProcessScreenshot2D, h, hf]
    · cases hr : (GetRenderTargetScreenShot ReadPixels).1 <;>
        simp [ProcessScreenshot2D, h, hf, hx2, hy2, hr, List.count_cons, List.count_append]

/-- C11, amended, at a client with requests for `Shot.png` pending: the quilt
routine broadcasts the quilt delegate once and the lenticular routine the 3D
delegate once, and at a request with empty file name the quilt delegate is not
broadcast. -/
theorem Process_broadcast_count_witness :
    (ProcessScreenshotQuilts Engine.sample { SizeX := 100, SizeY := 100 } (true, [])
        samplePending).2.count Effect.OnScreenshotQuiltRequestProcessed = 1 ∧
      (ProcessScreenshot2D Engine.sample { X := 1280, Y := 720 } { SizeX := 1280, SizeY := 720 }
        (false, []) samplePending).2.count Effect.OnScreenshot2DRequestProcessed = 1 ∧
      (ProcessScreenshotQuilts Engine.sample { SizeX := 100, SizeY := 100 } (true, [])
        { HoloPlayQuilScreenshotRequest := some { Filename := "" } }).2.count
        Effect.OnScreenshotQuiltRequestProcessed = 0 := by
  have V : LenticularCapture :=
    { SizeXY := { X := 100, Y := 100 }, WindowValid := false, SlateInitialized := false,
      TakeScreenshot := (false, [], { X := 0, Y := 0 }), GetViewportScreenShot := (true, []) }
  have h1 := (Process_broadcast_count Engine.sample samplePending { SizeX := 100, SizeY := 100 }
    { SizeX := 1280, SizeY := 720 } (true, []) V { X := 1280, Y := 720 }).1
    { Filename := "Shot.png" } rfl
  have h2 := (Process_broadcast_count Engine.sample samplePending { SizeX := 100, SizeY := 100 }
    { SizeX := 1280, SizeY := 720 } (false, []) V { X := 1280, Y := 720 }).2.2
    { Filename := "Shot.png" } rfl (by decide) (by decide)
  have h3 := (Process_broadcast_count Engine.sample
    { HoloPlayQuilScreenshotRequest := some { Filename := "" } } { SizeX := 100, SizeY := 100 }
    { SizeX := 1280, SizeY := 720 } (true, []) V { X := 1280, Y := 720 }).1
    { Filename := "" } rfl
  exact ⟨h1.1.trans (by decide), h2.1.trans (by decide), h3.1.trans (by decide)⟩

end FHoloPlayViewportClient

/-! ## Theorems: floating-point rounding -/

/-- The loop of `Log2` finds the leading binary digit. -/
theorem Log2Loop_spec : ∀ (fuel n : Nat), n ≤ fuel → 0 < n →
    2 ^ Log2Loop fuel n ≤ n ∧ n < 2 ^ (Log2Loop fuel n + 1) := by
  intro fuel
  induction fuel with
  | zero => intro n h1 h2; omega
  | succ fuel ih =>
    intro n h1 h2
    unfold Log2Loop
    by_cases h : n ≥ 2
    · simp only [h, if_true]
      obtain ⟨a, b⟩ := ih (n / 2) (by omega) (by omega)
      rw [pow_succ, pow_succ]
      constructor <;> omega
    · simp only [h, if_false]
      have : n = 1 := by omega
      subst this
      simp

/-- The number `Log2 n` is the position of the leading binary digit of `n`. -/
theorem Log2_spec (n : Nat) (h : 0 < n) : 2 ^ Log2 n ≤ n ∧ n < 2 ^ (Log2 n + 1) :=
  Log2Loop_spec n n (Nat.le_refl n) h

/-- The function `Log2` is monotone on positive numbers. -/
theorem Log2_mono (a b : Nat) (ha : 0 < a) (hab : a ≤ b) : Log2 a ≤ Log2 b := by
  have h1 := (Log2_spec a ha).1
  have h2 := (Log2_spec b (by omega)).2
  have h3 : 2 ^ Log2 a < 2 ^ (Log2 b + 1) := by omega
  have := (Nat.pow_lt_pow_iff_right (by norm_num : 1 < 2)).mp h3
  omega

/-- The binary exponent of a whole number. -/
theorem floorLog2_one (w : Nat) (h : 0 < w) : floorLog2 w 1 = Log2 w := by
  have h1 := (Log2_spec w h).1
  have e1 : Log2 1 = 0 := by decide
  unfold floorLog2
  simp only [e1, Nat.cast_zero, sub_zero, Int.toNat_ofNat, one_mul]
  have e2 : (-(Log2 w : Int)).toNat = 0 := by omega
  rw [e2, pow_zero, mul_one, if_pos h1]

/-- The binary exponent of a quotient below 1 is negative. -/
theorem floorLog2_neg (P Q : Nat) (h0 : 0 < P) (hlt : P < Q) : floorLog2 P Q ≤ -1 := by
  have hm := Log2_mono P Q h0 (by omega)
  unfold floorLog2
  simp only
  split
  · rename_i hc
    by_cases hk : Log2 P = Log2 Q
    · rw [hk] at hc
      simp only [sub_self, Int.toNat_zero, pow_zero, mul_one, neg_zero] at hc
      omega
    · omega
  · omega

/-- Rounding depends on the quotient only. -/
theorem RoundToFormat_scale (Precision : Nat) (MinExponent MaxExponent : Int) (s : Bool)
    (n d k : Nat) (hk : 0 < k) :
    RoundToFormat Precision MinExponent MaxExponent s (n * k) (d * k) =
      RoundToFormat Precision MinExponent MaxExponent s n d := by
  unfold RoundToFormat
  simp only [Nat.gcd_mul_right, Nat.mul_div_mul_right _ _ hk]

/-- A whole number below `2 ^ Precision` is not changed by rounding. -/
theorem RoundToFormat_integer (Precision : Nat) (MinExponent MaxExponent : Int) (s : Bool)
    (w : Nat) (hmin : MinExponent ≤ -((Precision : Int) - 1))
    (hmax : 0 ≤ MaxExponent) (h0 : 0 < w) (hw : w < 2 ^ Precision) :
    RoundToFormat Precision MinExponent MaxExponent s w 1 =
      FloatValue.finite s (w * 2 ^ (Precision - 1 - Log2 w))
        ((Log2 w : Int) - ((Precision : Int) - 1)) := by
  obtain ⟨l1, l2⟩ := Log2_spec w h0
  have hl : Log2 w < Precision := by
    have : 2 ^ Log2 w < 2 ^ Precision := by omega
    exact (Nat.pow_lt_pow_iff_right (by norm_num : 1 < 2)).mp this
  have hE : max ((Log2 w : Int) - ((Precision : Int) - 1)) MinExponent =
      (Log2 w : Int) - ((Precision : Int) - 1) := by
    apply max_eq_left
    omega
  have e1 : (-((Log2 w : Int) - ((Precision : Int) - 1))).toNat = Precision - 1 - Log2 w := by
    omega
  have e2 : ((Log2 w : Int) - ((Precision : Int) - 1)).toNat = 0 := by omega
  have hlt : w * 2 ^ (Precision - 1 - Log2 w) < 2 ^ Precision := by
    have e : 2 ^ Precision = 2 ^ (Log2 w + 1) * 2 ^ (Precision - 1 - Log2 w) := by
      rw [← pow_add]
      congr 1
      omega
    rw [e]
    exact Nat.mul_lt_mul_of_pos_right l2 (by positivity)
  have hpos : 0 < w * 2 ^ (Precision - 1 - Log2 w) := by positivity
  unfold RoundToFormat
  simp only [Nat.gcd_one_right, Nat.div_one, floorLog2_one w h0, hE, e1, e2, pow_zero, mul_one,
    Nat.mod_one, mul_zero]
  have c1 : ¬ (0 > 1 ∨ (0 = 1 ∧ w * 2 ^ (Precision - 1 - Log2 w) % 2 = 1)) := by omega
  simp only [c1, if_false, Nat.ne_of_lt hlt, Nat.ne_of_gt hpos]
  rw [if_neg (by omega)]

/-- Rounding 0 gives 0. -/
theorem RoundToFormat_zero (Precision : Nat) (MinExponent MaxExponent : Int) (s : Bool)
    (d : Nat) (hd : 0 < d) :
    RoundToFormat Precision MinExponent MaxExponent s 0 d = FloatValue.finite s 0 0 := by
  unfold RoundToFormat
  simp only [Nat.gcd_zero_left, Nat.zero_div, zero_mul, Nat.div_self hd, one_mul, Nat.zero_mod,
    mul_zero]
  have hD : 0 < 2 ^ (max (floorLog2 0 1 - ((Precision : Int) - 1)) MinExponent).toNat := by
    positivity
  have c1 : ¬ (0 > 2 ^ (max (floorLog2 0 1 - ((Precision : Int) - 1)) MinExponent).toNat ∨
      (0 = 2 ^ (max (floorLog2 0 1 - ((Precision : Int) - 1)) MinExponent).toNat ∧
        0 % 2 = 1)) := by omega
  have hp : (0 : Nat) ≠ 2 ^ Precision := (Nat.ne_of_lt (by positivity))
  simp only [c1, if_false, hp, if_true]

/-- The `float` of a positive whole number below `2 ^ 24` is the number itself:
its numerator is the number times its denominator. -/
theorem Float32_Round_integer (s : Bool) (w : Nat) (h0 : 0 < w) (hw : w < 2 ^ 24) :
    ∃ (m : Nat) (e : Int) (k : Nat), Float32.Round s w 1 = FloatValue.finite s m e ∧ m ≠ 0 ∧
      0 < k ∧ (FloatValue.finite s m e).Numerator = w * k ∧
      (FloatValue.finite s m e).Denominator = k ∧
      m * 2 ^ e.toNat / 2 ^ (-e).toNat = w := by
  obtain ⟨l1, l2⟩ := Log2_spec w h0
  have hl : Log2 w < 24 := by
    have : 2 ^ Log2 w < 2 ^ 24 := by omega
    exact (Nat.pow_lt_pow_iff_right (by norm_num : 1 < 2)).mp this
  have e1 : (-((Log2 w : Int) - ((24 : Nat) - 1))).toNat = 24 - 1 - Log2 w := by omega
  have e2 : ((Log2 w : Int) - ((24 : Nat) - 1)).toNat = 0 := by omega
  refine ⟨w * 2 ^ (24 - 1 - Log2 w), (Log2 w : Int) - ((24 : Nat) - 1), 2 ^ (24 - 1 - Log2 w),
    ?_, ?_, by positivity, ?_, ?_, ?_⟩
  · exact RoundToFormat_integer 24 (-149) 104 s w (by norm_num) (by norm_num) h0 hw
  · have : 0 < w * 2 ^ (24 - 1 - Log2 w) := by positivity
    omega
  · simp only [FloatValue.Numerator, e2, pow_zero, mul_one]
  · simp only [FloatValue.Denominator, e1]
  · rw [e1, e2, pow_zero, mul_one]
    exact Nat.mul_div_cancel _ (by positivity)

/-- The `double` of a positive whole number below `2 ^ 24`, converted to
`float`, is the `float` of the number. -/
theorem ofDouble_Round_integer (s : Bool) (w : Nat) (h0 : 0 < w) (hw : w < 2 ^ 24) :
    Float32.ofDouble (Double.Round s w 1) = Float32.Round s w 1 := by
  obtain ⟨l1, l2⟩ := Log2_spec w h0
  have hl : Log2 w < 24 := by
    have : 2 ^ Log2 w < 2 ^ 24 := by omega
    exact (Nat.pow_lt_pow_iff_right (by norm_num : 1 < 2)).mp this
  have e1 : (-((Log2 w : Int) - ((53 : Nat) - 1))).toNat = 53 - 1 - Log2 w := by omega
  have e2 : ((Log2 w : Int) - ((53 : Nat) - 1)).toNat = 0 := by omega
  have hd : Double.Round s w 1 = FloatValue.finite s (w * 2 ^ (53 - 1 - Log2 w))
      ((Log2 w : Int) - ((53 : Nat) - 1)) :=
    RoundToFormat_integer 53 (-1074) 971 s w (by norm_num) (by norm_num) h0
      (by
        have : (2 : Nat) ^ 24 ≤ 2 ^ 53 := by norm_num
        omega)
  rw [hd]
  simp only [Float32.ofDouble, FloatValue.Numerator, FloatValue.Denominator, e1, e2, pow_zero,
    mul_one]
  have := RoundToFormat_scale 24 (-149) 104 s w 1 (2 ^ (53 - 1 - Log2 w)) (by positivity)
  rw [one_mul] at this
  exact this

/-- The conversion to `uint32` of the `float` of a whole number below `2 ^ 24`
gives the number. -/
theorem toUInt32_Round_integer (w : Nat) (hw : w < 2 ^ 24) :
    toUInt32 (MaxZero (Float32.ofDouble (Double.Round false w 1))) = w := by
  by_cases h0 : w = 0
  · subst h0
    decide
  · have hpos : 0 < w := by omega
    rw [ofDouble_Round_integer false w hpos hw]
    obtain ⟨m, e, k, hr, _, _, _, _, hv⟩ := Float32_Round_integer false w hpos hw
    rw [hr]
    simp only [MaxZero, Bool.false_and, Bool.false_eq_true, if_false, toUInt32, hv]
    exact Nat.mod_eq_of_lt (by
      have : (2 : Nat) ^ 24 ≤ 2 ^ 32 := by norm_num
      omega)

/-- The `float` 1. -/
theorem Float32_Round_one : Float32.Round false 1 1 = FloatValue.finite false 8388608 (-23) := by
  decide

/-- The quotient of two whole numbers `P < Q ≤ 2 ^ 24` does not round to the
`float` 1. -/
theorem Float32_Round_lt_one (P Q : Nat) (h0 : 0 < P) (hlt : P < Q) (hQ : Q ≤ 2 ^ 24) :
    Float32.Round false P Q ≠ FloatValue.finite false 8388608 (-23) := by
  have hg : 0 < Nat.gcd P Q := Nat.gcd_pos_of_pos_left Q h0
  obtain ⟨P', hP'⟩ : ∃ P', P = P' * Nat.gcd P Q := ⟨P / Nat.gcd P Q,
    (Nat.div_mul_cancel (Nat.gcd_dvd_left P Q)).symm⟩
  obtain ⟨Q', hQ'⟩ : ∃ Q', Q = Q' * Nat.gcd P Q := ⟨Q / Nat.gcd P Q,
    (Nat.div_mul_cancel (Nat.gcd_dvd_right P Q)).symm⟩
  have dP : P / Nat.gcd P Q = P' := Nat.div_eq_of_eq_mul_left hg hP'
  have dQ : Q / Nat.gcd P Q = Q' := Nat.div_eq_of_eq_mul_left hg hQ'
  have hP0 : 0 < P' := by
    rcases Nat.eq_zero_or_pos P' with h | h
    · rw [h, zero_mul] at hP'; omega
    · exact h
  have hlt' : P' < Q' := by
    have : P' * Nat.gcd P Q < Q' * Nat.gcd P Q := by omega
    exact Nat.lt_of_mul_lt_mul_right this
  have hQ'le : Q' ≤ 2 ^ 24 := by
    have : Q' ≤ Q' * Nat.gcd P Q := Nat.le_mul_of_pos_right _ hg
    omega
  have he := floorLog2_neg P' Q' hP0 hlt'
  have hmax : max (floorLog2 P' Q' - (((24 : Nat) : Int) - 1)) (-149) ≤ -24 :=
    max_le (by omega) (by norm_num)
  unfold Float32.Round RoundToFormat
  simp only [dP, dQ]
  generalize max (floorLog2 P' Q' - (((24 : Nat) : Int) - 1)) (-149) = E at hmax ⊢
  have eT : E.toNat = 0 := by omega
  simp only [eT, pow_zero, mul_one]
  generalize hm2 : (if 2 * (P' * 2 ^ (-E).toNat % Q') > Q' ∨
        2 * (P' * 2 ^ (-E).toNat % Q') = Q' ∧ P' * 2 ^ (-E).toNat / Q' % 2 = 1 then
      P' * 2 ^ (-E).toNat / Q' + 1 else P' * 2 ^ (-E).toNat / Q') = m2
  intro hcontra
  by_cases hc : m2 = 2 ^ 24
  · simp only [hc, if_true] at hcontra
    norm_num at hcontra
    have hE' : E = -24 := by
      split at hcontra
      · exact absurd hcontra (by simp)
      · simp only [FloatValue.finite.injEq, true_and] at hcontra
        omega
    subst hE'
    have e24 : (-(-24 : Int)).toNat = 24 := by decide
    rw [e24] at hm2
    have hdm := Nat.div_add_mod (P' * 2 ^ 24) Q'
    have hml : P' * 2 ^ 24 / Q' < 2 ^ 24 := by
      apply Nat.div_lt_of_lt_mul
      exact Nat.mul_lt_mul_of_pos_right hlt' (by norm_num)
    generalize P' * 2 ^ 24 % Q' = r at hm2 hdm
    split at hm2
    · rename_i hup
      have hm : P' * 2 ^ 24 / Q' = 2 ^ 24 - 1 := by omega
      rw [hm] at hdm
      have hr : Q' ≤ 2 * r := by omega
      omega
    · omega
  · simp only [hc, if_false] at hcontra
    split at hcontra
    · exact absurd hcontra (by simp)
    · split at hcontra
      · exact absurd hcontra (by simp)
      · simp only [FloatValue.finite.injEq, true_and] at hcontra
        omega

/-- Rounding to `float` depends on the quotient only. -/
theorem Float32_Round_scale (s : Bool) (n d k : Nat) (hk : 0 < k) :
    Float32.Round s (n * k) (d * k) = Float32.Round s n d :=
  RoundToFormat_scale 24 (-149) 104 s n d k hk

/-- Rounding 0 to `float` gives 0. -/
theorem Float32_Round_zero (s : Bool) (d : Nat) (hd : 0 < d) :
    Float32.Round s 0 d = FloatValue.finite s 0 0 :=
  RoundToFormat_zero 24 (-149) 104 s d hd

/-- The `float` of a natural number. -/
theorem ofInt_natCast (n : Nat) : Float32.ofInt (n : Int) = Float32.Round false n 1 := by
  unfold Float32.ofInt
  have h : decide ((n : Int) < 0) = false := by
    simp
  rw [h, Int.natAbs_ofNat]

/-- The product of the `float`s of two positive whole numbers whose product is
below `2 ^ 24` is the `float` of the product. -/
theorem Float32_mul_integer (T S : Nat) (hT : 0 < T) (hS : 0 < S) (hP : T * S < 2 ^ 24) :
    Float32.mul (Float32.Round false T 1) (Float32.Round false S 1) =
      Float32.Round false (T * S) 1 := by
  have hT24 : T < 2 ^ 24 := by
    have : T ≤ T * S := Nat.le_mul_of_pos_right T hS
    omega
  have hS24 : S < 2 ^ 24 := by
    have : S ≤ T * S := Nat.le_mul_of_pos_left S hT
    omega
  obtain ⟨m, e, k, hr, hm, hk, hn, hd, _⟩ := Float32_Round_integer false T hT hT24
  obtain ⟨m2, e2, k2, hr2, hm2, hk2, hn2, hd2, _⟩ := Float32_Round_integer false S hS hS24
  rw [hr, hr2]
  simp only [Float32.mul, hn, hd, hn2, hd2, bne_self_eq_false]
  have e1 : T * k * (S * k2) = T * S * (k * k2) := by ring
  have key := Float32_Round_scale false (T * S) 1 (k * k2) (by positivity)
  rw [one_mul] at key
  rw [e1, key]

/-- The quotient of the `float`s of two positive whole numbers below `2 ^ 24`
is their quotient, rounded once. -/
theorem Float32_div_integer (P Q : Nat) (hP : 0 < P) (hQ : 0 < Q) (hP24 : P < 2 ^ 24)
    (hQ24 : Q < 2 ^ 24) :
    Float32.div (Float32.Round false P 1) (Float32.Round false Q 1) =
      Float32.Round false P Q := by
  obtain ⟨m, e, k, hr, hm, hk, hn, hd, _⟩ := Float32_Round_integer false P hP hP24
  obtain ⟨m2, e2, k2, hr2, hm2, hk2, hn2, hd2, _⟩ := Float32_Round_integer false Q hQ hQ24
  rw [hr, hr2]
  simp only [Float32.div, hm2, if_false, hn, hd, hn2, hd2, bne_self_eq_false]
  have e1 : P * k * k2 = P * (k * k2) := by ring
  have e2 : k * (Q * k2) = Q * (k * k2) := by ring
  rw [e1, e2, Float32_Round_scale false P Q (k * k2) (by positivity)]

/-- For `TilesX ≥ 1` and `1 ≤ QuiltW < 2 ^ 24`, the `float` computed as
`(float)TilesX * TileSizeX / (float)QuiltW` is 1 exactly when `TilesX` divides
`QuiltW`. -/
theorem portion_float_eq_one_iff (T Q : Nat) (hT : 1 ≤ T) (hQ0 : 1 ≤ Q) (hQ : Q < 2 ^ 24) :
    Float32.div (Float32.mul (Float32.ofInt (T : Int))
        (Float32.ofInt (Int.tdiv (Q : Int) (T : Int)))) (Float32.ofInt (Q : Int)) =
      Float32.ofInt 1 ↔ T ∣ Q := by
  have hone : Float32.ofInt 1 = FloatValue.finite false 8388608 (-23) := by decide
  have htdiv : Int.tdiv (Q : Int) (T : Int) = ((Q / T : Nat) : Int) := by
    rw [Int.tdiv_eq_ediv (by positivity) (by positivity)]
    norm_cast
  rw [hone, htdiv, ofInt_natCast, ofInt_natCast, ofInt_natCast]
  have hle : T * (Q / T) ≤ Q := Nat.mul_div_le Q T
  have hdvd : T ∣ Q ↔ T * (Q / T) = Q := by
    constructor
    · intro h
      exact Nat.mul_div_cancel' h
    · intro h
      exact ⟨Q / T, h.symm⟩
  have hz : ∀ d, 0 < d → Float32.Round false 0 d = FloatValue.finite false 0 0 :=
    fun d hd => RoundToFormat_zero 24 (-149) 104 false d hd
  rcases Nat.eq_zero_or_pos (Q / T) with hS | hS
  · have hnd : ¬ T ∣ Q := by
      rw [hdvd, hS]
      omega
    rw [hS, hz 1 (by norm_num)]
    have hfalse : Float32.div (Float32.mul (Float32.Round false T 1) (FloatValue.finite false 0 0))
        (Float32.Round false Q 1) ≠ FloatValue.finite false 8388608 (-23) := by
      obtain ⟨m2, e2, k2, hr2, hm2, hk2, hn2, hd2, _⟩ := Float32_Round_integer false Q hQ0 hQ
      rw [hr2]
      cases hA : Float32.Round false T 1 with
      | nan => simp [Float32.mul, Float32.div]
      | infinity s => simp [Float32.mul, Float32.div]
      | finite s m e =>
        have hden : 0 < (FloatValue.finite s m e).Denominator *
            (FloatValue.finite false 0 0).Denominator := by
          simp only [FloatValue.Denominator]
          positivity
        have hnum : (FloatValue.finite s m e).Numerator *
            (FloatValue.finite false 0 0).Numerator = 0 := by
          simp only [FloatValue.Numerator, zero_mul, mul_zero]
        simp only [Float32.mul, hnum]
        rw [Float32_Round_zero _ _ hden]
        have hnum2 : (FloatValue.finite (s != false) 0 0).Numerator *
            (FloatValue.finite false m2 e2).Denominator = 0 := by
          simp only [FloatValue.Numerator, zero_mul]
        have hden2 : 0 < (FloatValue.finite (s != false) 0 0).Denominator *
            (FloatValue.finite false m2 e2).Numerator := by
          rw [hn2]
          simp only [FloatValue.Denominator]
          positivity
        simp only [Float32.div, hm2, if_false, hnum2]
        rw [Float32_Round_zero _ _ hden2]
        simp
    exact ⟨fun h => absurd h hfalse, fun h => absurd h hnd⟩
  · have hP24 : T * (Q / T) < 2 ^ 24 := by omega
    have hPpos : 0 < T * (Q / T) := Nat.mul_pos (by omega) hS
    rw [Float32_mul_integer T (Q / T) (by omega) hS hP24,
      Float32_div_integer (T * (Q / T)) Q hPpos (by omega) hP24 hQ]
    rw [hdvd]
    constructor
    · intro h
      by_contra hne
      exact Float32_Round_lt_one (T * (Q / T)) Q hPpos (by omega) (by omega) h
    · intro h
      rw [h]
      have key := Float32_Round_scale false 1 1 Q (by omega)
      rw [one_mul] at key
      rw [key]
      decide

/-- For `1 ≤ TilesX ≤ QuiltW < 2 ^ 24`, the `float` computed as
`(float)TilesX * TileSizeX / (float)QuiltW` is the exact quotient
`TilesX * TileSizeX / QuiltW` rounded once. -/
theorem portion_float_eq_Round (T Q : Nat) (hT : 1 ≤ T) (hTQ : T ≤ Q) (hQ : Q < 2 ^ 24) :
    Float32.div (Float32.mul (Float32.ofInt (T : Int))
        (Float32.ofInt (Int.tdiv (Q : Int) (T : Int)))) (Float32.ofInt (Q : Int)) =
      Float32.Round false (T * (Q / T)) Q := by
  have htdiv : Int.tdiv (Q : Int) (T : Int) = ((Q / T : Nat) : Int) := by
    rw [Int.tdiv_eq_ediv (by positivity) (by positivity)]
    norm_cast
  rw [htdiv, ofInt_natCast, ofInt_natCast, ofInt_natCast]
  have hle : T * (Q / T) ≤ Q := Nat.mul_div_le Q T
  have hS : 0 < Q / T := Nat.div_pos hTQ (by omega)
  have hP24 : T * (Q / T) < 2 ^ 24 := by omega
  have hPpos : 0 < T * (Q / T) := Nat.mul_pos (by omega) hS
  rw [Float32_mul_integer T (Q / T) (by omega) hS hP24,
    Float32_div_integer (T * (Q / T)) Q hPpos (by omega) hP24 hQ]

/-! ## Theorems: resolution strings -/

/-- A digit character is one of the ten decimal digits. -/
theorem isDigit_mem (c : Char) (h : c.isDigit = true) :
    c ∈ ['0', '1', '2', '3', '4', '5', '6', '7', '8', '9'] := by
  have h1 : 48 ≤ c.toNat ∧ c.toNat ≤ 57 := by
    simp only [Char.isDigit, Bool.and_eq_true, decide_eq_true_eq] at h
    exact ⟨h.1, h.2⟩
  have h2 : c = Char.ofNat c.toNat := (Char.ofNat_toNat c).symm
  obtain ⟨a, b⟩ := h1
  rw [h2]
  generalize c.toNat = n at a b
  interval_cases n <;> decide

/-- What the string helpers do with a digit character: it is no white space,
no separator, no sign and no point, and lowering leaves it as it is. -/
theorem isDigit_props (c : Char) (h : c.isDigit = true) :
    IsWhitespace c = false ∧ c ≠ 'x' ∧ c ≠ 'X' ∧ c ≠ '-' ∧ c ≠ '+' ∧ c ≠ '.' ∧
      c.toLower = c := by
  have hm := isDigit_mem c h
  simp only [List.mem_cons, List.mem_singleton, List.not_mem_nil, or_false] at hm
  rcases hm with rfl | rfl | rfl | rfl | rfl | rfl | rfl | rfl | rfl | rfl <;> decide

/-- Only `x` and `X` are lowered to `x`. -/
theorem toLower_eq_x (c : Char) (h : c.toLower = 'x') : c = 'x' ∨ c = 'X' := by
  unfold Char.toLower at h
  simp only [] at h
  split at h
  · rename_i hc
    right
    have h2 : c = Char.ofNat c.toNat := (Char.ofNat_toNat c).symm
    rw [h2]
    obtain ⟨a, b⟩ := hc
    generalize c.toNat = n at a b h
    interval_cases n <;> first | rfl | (exact absurd h (by decide))
  · left; exact h

/-- The character of a decimal digit is a digit character with that value. -/
theorem digitChar_spec :
    ∀ k, k < 10 → (Nat.digitChar k).isDigit = true ∧ (Nat.digitChar k).toNat - 48 = k := by
  decide

/-- The value of a digit list extended by one digit. -/
theorem digitsValue_append_singleton (ds : List Char) (d : Char) :
    digitsValue (ds ++ [d]) = 10 * digitsValue ds + (d.toNat - 48) := by
  simp [digitsValue, List.foldl_append]

/-- The digits that `Nat.toDigitsCore` puts in front of its accumulator are
decimal digit characters, at least one, and their value is the number. -/
theorem toDigitsCore_spec :
    ∀ (fuel n : Nat) (ds : List Char), n < fuel →
      ∃ pre : List Char, Nat.toDigitsCore 10 fuel n ds = pre ++ ds ∧ pre ≠ [] ∧
        (∀ c ∈ pre, c.isDigit = true) ∧ digitsValue pre = n := by
  intro fuel
  induction fuel with
  | zero => intro n ds h; omega
  | succ fuel ih =>
    intro n ds hn
    obtain ⟨hd1, hd2⟩ := digitChar_spec (n % 10) (Nat.mod_lt _ (by norm_num))
    by_cases h0 : n / 10 = 0
    · refine ⟨[Nat.digitChar (n % 10)], ?_, by simp, ?_, ?_⟩
      · simp [Nat.toDigitsCore, h0]
      · intro c hc
        simp only [List.mem_singleton] at hc
        rw [hc]; exact hd1
      · simp only [digitsValue, List.foldl_cons, List.foldl_nil, hd2]
        omega
    · have hlt : n / 10 < fuel := by omega
      obtain ⟨pre, hpre, _, hall, hval⟩ := ih (n / 10) (Nat.digitChar (n % 10) :: ds) hlt
      refine ⟨pre ++ [Nat.digitChar (n % 10)], ?_, by simp, ?_, ?_⟩
      · simp [Nat.toDigitsCore, h0, hpre]
      · intro c hc
        rcases List.mem_append.mp hc with hc | hc
        · exact hall c hc
        · simp only [List.mem_singleton] at hc
          rw [hc]; exact hd1
      · rw [digitsValue_append_singleton, hval, hd2]
        omega

/-- The decimal digits of a number: digit characters, at least one, whose
value is the number. -/
theorem toDigits_spec (n : Nat) :
    Nat.toDigits 10 n ≠ [] ∧ (∀ c ∈ Nat.toDigits 10 n, c.isDigit = true) ∧
      digitsValue (Nat.toDigits 10 n) = n := by
  obtain ⟨pre, hpre, hne, hall, hval⟩ := toDigitsCore_spec (n + 1) n [] (by omega)
  have h : Nat.toDigits 10 n = pre := by
    rw [Nat.toDigits, hpre, List.append_nil]
  rw [h]
  exact ⟨hne, hall, hval⟩

/-- Dropping while a predicate holds leaves a list whose head fails it. -/
theorem dropWhile_eq_self (p : Char → Bool) :
    ∀ l : List Char, (∀ a ∈ l.head?, p a = false) → l.dropWhile p = l := by
  intro l h
  cases l with
  | nil => rfl
  | cons a t =>
    have ha : p a = false := h a (by simp)
    simp [List.dropWhile_cons, ha]

/-- Dropping while a predicate holds removes a prefix that satisfies it. -/
theorem dropWhile_append_all (p : Char → Bool) (l : List Char) :
    ∀ ws : List Char, (∀ a ∈ ws, p a = true) → (ws ++ l).dropWhile p = l.dropWhile p := by
  intro ws
  induction ws with
  | nil => intro _; rfl
  | cons a t ih =>
    intro h
    have ha : p a = true := h a (List.mem_cons_self _ _)
    simp only [List.cons_append, List.dropWhile_cons, ha, if_true]
    exact ih (fun x hx => h x (List.mem_cons_of_mem _ hx))

/-- Taking and dropping while a predicate holds splits a list after a prefix
that satisfies it, when what follows does not start with such a character. -/
theorem takeWhile_dropWhile_append (p : Char → Bool) (rest : List Char)
    (hrest : ∀ a ∈ rest.head?, p a = false) :
    ∀ ds : List Char, (∀ a ∈ ds, p a = true) →
      (ds ++ rest).takeWhile p = ds ∧ (ds ++ rest).dropWhile p = rest := by
  intro ds
  induction ds with
  | nil =>
    intro _
    cases rest with
    | nil => exact ⟨rfl, rfl⟩
    | cons a t =>
      have ha : p a = false := hrest a (by simp)
      simp [List.takeWhile_cons, List.dropWhile_cons, ha]
  | cons a t ih =>
    intro h
    have ha : p a = true := h a (List.mem_cons_self _ _)
    obtain ⟨h1, h2⟩ := ih (fun x hx => h x (List.mem_cons_of_mem _ hx))
    simp [List.takeWhile_cons, List.dropWhile_cons, ha, h1, h2]

/-- Trimming removes white space around a text that neither starts nor ends
with white space. -/
theorem TrimStartAndEnd_surrounded (ws1 ws2 core : List Char)
    (h1 : ∀ a ∈ ws1, IsWhitespace a = true) (h2 : ∀ a ∈ ws2, IsWhitespace a = true)
    (hne : core ≠ [])
    (hhead : ∀ a ∈ core.head?, IsWhitespace a = false)
    (hlast : ∀ a ∈ core.getLast?, IsWhitespace a = false) :
    TrimStartAndEnd (ws1 ++ core ++ ws2) = core := by
  unfold TrimStartAndEnd
  have hrev : (ws1 ++ core ++ ws2).reverse = ws2.reverse ++ (core.reverse ++ ws1.reverse) := by
    simp [List.reverse_append]
  rw [hrev, dropWhile_append_all IsWhitespace _ ws2.reverse
    (fun a ha => h2 a (List.mem_reverse.mp ha))]
  have hh : ∀ a ∈ (core.reverse ++ ws1.reverse).head?, IsWhitespace a = false := by
    intro a ha
    have hne2 : core.reverse ≠ [] := by simpa using hne
    rw [List.head?_append_of_ne_nil _ hne2, List.head?_reverse] at ha
    exact hlast a ha
  rw [dropWhile_eq_self IsWhitespace _ hh]
  have hrev2 : (core.reverse ++ ws1.reverse).reverse = ws1 ++ core := by
    simp [List.reverse_append]
  rw [hrev2, dropWhile_append_all IsWhitespace _ ws1 h1]
  exact dropWhile_eq_self IsWhitespace _ hhead

/-- The search for a character finds its first occurrence. -/
theorem Strchr_append (c : Char) (after : List Char) :
    ∀ before : List Char, (∀ a ∈ before, a ≠ c) →
      Strchr (before ++ c :: after) c = some (c :: after) := by
  intro before
  induction before with
  | nil => intro _; simp [Strchr]
  | cons a t ih =>
    intro h
    have ha : a ≠ c := h a (List.mem_cons_self _ _)
    simp only [List.cons_append, Strchr, beq_iff_eq, ha, if_false]
    exact ih (fun x hx => h x (List.mem_cons_of_mem _ hx))

/-- The search for a character that does not occur finds nothing. -/
theorem Strchr_eq_none (c : Char) :
    ∀ l : List Char, (∀ a ∈ l, a ≠ c) → Strchr l c = none := by
  intro l
  induction l with
  | nil => intro _; rfl
  | cons a t ih =>
    intro h
    have ha : a ≠ c := h a (List.mem_cons_self _ _)
    simp only [Strchr, beq_iff_eq, ha, if_false]
    exact ih (fun x hx => h x (List.mem_cons_of_mem _ hx))

/-- A list of digits passes the loop of `IsNumeric`. -/
theorem IsNumericLoop_digits :
    ∀ (ds : List Char) (b : Bool), (∀ a ∈ ds, a.isDigit = true) → IsNumericLoop ds b = true := by
  intro ds
  induction ds with
  | nil => intro _ _; rfl
  | cons a t ih =>
    intro b h
    have ha := h a (List.mem_cons_self _ _)
    have hp := (isDigit_props a ha).2.2.2.2.2.1
    simp only [IsNumericLoop, beq_iff_eq, hp, if_false, ha, Bool.not_true]
    exact ih b (fun x hx => h x (List.mem_cons_of_mem _ hx))

/-- A non-empty list of digits is numeric. -/
theorem IsNumeric_digits (ds : List Char) (hne : ds ≠ [])
    (h : ∀ a ∈ ds, a.isDigit = true) : IsNumeric ds = true := by
  cases ds with
  | nil => exact absurd rfl hne
  | cons a t =>
    have ha := h a (List.mem_cons_self _ _)
    obtain ⟨_, _, _, hm, hp, _, _⟩ := isDigit_props a ha
    unfold IsNumeric
    simp only [List.isEmpty_cons, Bool.false_eq_true, if_false]
    split
    · rename_i heq
      simp only [List.cons.injEq] at heq
      exact absurd heq.1 hm
    · rename_i heq
      simp only [List.cons.injEq] at heq
      exact absurd heq.1 hp
    · exact IsNumericLoop_digits _ false h

/-- A digit character is not the first letter of `inf` or `nan`, and lowering
it does not give `e`. -/
theorem isDigit_letters (c : Char) (h : c.isDigit = true) :
    c ≠ 'i' ∧ c ≠ 'n' ∧ c.toLower ≠ 'e' := by
  have hm := isDigit_mem c h
  simp only [List.mem_cons, List.mem_singleton, List.not_mem_nil, or_false] at hm
  rcases hm with rfl | rfl | rfl | rfl | rfl | rfl | rfl | rfl | rfl | rfl <;> decide

/-- On a non-empty run of digits followed by nothing, or by a character that
does not continue a decimal numeral, `strtod` reads the value of the digits,
unless the run is the single digit `0` and `x` or `X` follows. -/
theorem Strtod_digits (ds rest : List Char) (hne : ds ≠ [])
    (h : ∀ a ∈ ds, a.isDigit = true)
    (hrest : ∀ a ∈ rest.head?, a.isDigit = false ∧ a ≠ '.' ∧ a.toLower ≠ 'e')
    (hhex : ds = ['0'] → ∀ a ∈ rest.head?, a ≠ 'x' ∧ a ≠ 'X') :
    Strtod (ds ++ rest) = Double.Round false (digitsValue ds) 1 := by
  cases ds with
  | nil => exact absurd rfl hne
  | cons d t =>
    have hd := h d (List.mem_cons_self _ _)
    obtain ⟨hws, _, _, hm, hp, _, hlow⟩ := isDigit_props d hd
    obtain ⟨hi, hn, _⟩ := isDigit_letters d hd
    obtain ⟨htake, hdrop⟩ := takeWhile_dropWhile_append Char.isDigit rest
      (fun a ha => (hrest a ha).1) (d :: t) h
    have hs1 : ((d :: t) ++ rest).dropWhile IsWhitespace = (d :: t) ++ rest :=
      dropWhile_eq_self IsWhitespace _ (by
        intro a ha
        simp only [List.cons_append, List.head?_cons, Option.mem_def, Option.some.injEq] at ha
        rw [← ha]; exact hws)
    have hhead : ((d :: t) ++ rest).head? = some d := rfl
    have hminus : (some d == some '-') = false := by
      simp [hm]
    have hplus : (some d == some '+') = false := by
      simp [hp]
    have hinf : (ToLower (((d :: t) ++ rest).take 3) == ['i', 'n', 'f']) = false := by
      rw [beq_eq_false_iff_ne]
      intro heq
      simp only [List.cons_append, List.take_succ_cons, ToLower, List.map_cons, hlow,
        List.cons.injEq] at heq
      exact hi heq.1
    have hnan : (ToLower (((d :: t) ++ rest).take 3) == ['n', 'a', 'n']) = false := by
      rw [beq_eq_false_iff_ne]
      intro heq
      simp only [List.cons_append, List.take_succ_cons, ToLower, List.map_cons, hlow,
        List.cons.injEq] at heq
      exact hn heq.1
    have hhexText : HexText ((d :: t) ++ rest) = [] := by
      unfold HexText
      split
      · rename_i x r heq
        simp only [List.cons_append, List.cons.injEq] at heq
        obtain ⟨hd0, htl⟩ := heq
        have hx : x ≠ 'x' ∧ x ≠ 'X' := by
          cases t with
          | nil =>
            simp only [List.nil_append] at htl
            exact hhex (by rw [hd0]) x (by rw [htl]; simp)
          | cons d2 t2 =>
            simp only [List.cons_append, List.cons.injEq] at htl
            have hd2 := h d2 (by simp)
            rw [htl.1] at hd2
            obtain ⟨_, a, b, _⟩ := isDigit_props x hd2
            exact ⟨a, b⟩
        simp [hx.1, hx.2]
      · rfl
    have hfrac : FractionDigits Char.isDigit rest = [] := by
      unfold FractionDigits
      split
      · rename_i r
        exact absurd rfl (hrest '.' (by simp)).2.1
      · rfl
    have hafter : AfterFraction Char.isDigit rest = rest := by
      unfold AfterFraction
      split
      · rename_i r
        exact absurd rfl (hrest '.' (by simp)).2.1
      · rfl
    have hfrac0 : FractionDigits IsHexDigit [] = [] := rfl
    have hexp : ReadExponent 'e' rest = 0 := by
      unfold ReadExponent
      cases rest with
      | nil => rfl
      | cons c r =>
        have hc : (c.toLower == 'e') = false := by
          rw [beq_eq_false_iff_ne]
          exact (hrest c (by simp)).2.2
        simp only [hc, Bool.false_eq_true, if_false]
    unfold Strtod
    simp only [hs1, hhead, hminus, hplus, Bool.or_false, Bool.false_eq_true, if_false, hinf,
      hnan, hhexText, List.takeWhile_nil, List.dropWhile_nil, hfrac0, List.isEmpty_nil,
      Bool.and_self, Bool.not_true, htake, hdrop, hfrac, hafter, hexp, List.isEmpty_cons,
      Bool.false_and, List.append_nil, List.length_nil, Int.toNat_zero, neg_zero, pow_zero,
      mul_one]

/-- On a run of digits of value below `2 ^ 24` followed by nothing, or by a
character that does not continue a decimal numeral (the run not being the
single digit `0` before `x` or `X`), the `uint32` that `ParseResolution` takes
from `Atof` is the value of the digits. -/
theorem Atof_digits (ds rest : List Char) (hne : ds ≠ [])
    (h : ∀ a ∈ ds, a.isDigit = true)
    (hrest : ∀ a ∈ rest.head?, a.isDigit = false ∧ a ≠ '.' ∧ a.toLower ≠ 'e')
    (hhex : ds = ['0'] → ∀ a ∈ rest.head?, a ≠ 'x' ∧ a ≠ 'X')
    (hval : digitsValue ds < 2 ^ 24) :
    toUInt32 (MaxZero (Atof (ds ++ rest))) = digitsValue ds := by
  unfold Atof
  rw [Strtod_digits ds rest hne h hrest hhex]
  exact toUInt32_Round_integer (digitsValue ds) hval

/-- The last character of a text that ends with a non-empty run. -/
theorem getLast?_append_cons (l1 l2 : List Char) (c : Char) (h : l2 ≠ []) :
    (l1 ++ c :: l2).getLast? = l2.getLast? := by
  have e : l1 ++ c :: l2 = (l1 ++ [c]) ++ l2 := by simp
  rw [e, List.getLast?_append_of_ne_nil _ h]

/-- Lowering leaves digits as they are. -/
theorem ToLower_digits :
    ∀ ds : List Char, (∀ a ∈ ds, a.isDigit = true) → ToLower ds = ds := by
  intro ds
  induction ds with
  | nil => intro _; rfl
  | cons a t ih =>
    intro h
    have ha := (isDigit_props a (h a (List.mem_cons_self _ _))).2.2.2.2.2.2
    have ht := ih (fun x hx => h x (List.mem_cons_of_mem _ hx))
    simp only [ToLower, List.map_cons, ha] at ht ⊢
    rw [ht]

/-- The text that `ParseResolution` reads, trimmed and lowered, when two
decimal numbers are written around a separator `x` or `X` with white space
before and after. -/
theorem resolution_lowered (w h : Nat) (ws1 ws2 : List Char) (separator : Char)
    (h1 : ∀ a ∈ ws1, IsWhitespace a = true) (h2 : ∀ a ∈ ws2, IsWhitespace a = true)
    (hsep : separator = 'x' ∨ separator = 'X') :
    ToLower (TrimStartAndEnd
        (ws1 ++ (Nat.toDigits 10 w ++ separator :: Nat.toDigits 10 h) ++ ws2)) =
      Nat.toDigits 10 w ++ 'x' :: Nat.toDigits 10 h := by
  obtain ⟨wne, wall, wval⟩ := toDigits_spec w
  obtain ⟨hne, hall, hval⟩ := toDigits_spec h
  have hseplow : separator.toLower = 'x' := by
    rcases hsep with rfl | rfl <;> decide
  have hcore_ne : Nat.toDigits 10 w ++ separator :: Nat.toDigits 10 h ≠ [] := by simp
  have hhead : ∀ a ∈ (Nat.toDigits 10 w ++ separator :: Nat.toDigits 10 h).head?,
      IsWhitespace a = false := by
    intro a ha
    rw [List.head?_append_of_ne_nil _ wne] at ha
    exact (isDigit_props a (wall a (List.mem_of_mem_head? ha))).1
  have hlast : ∀ a ∈ (Nat.toDigits 10 w ++ separator :: Nat.toDigits 10 h).getLast?,
      IsWhitespace a = false := by
    intro a ha
    rw [getLast?_append_cons _ _ _ hne] at ha
    exact (isDigit_props a (hall a (List.mem_of_mem_getLast? ha))).1
  rw [TrimStartAndEnd_surrounded ws1 ws2 _ h1 h2 hcore_ne hhead hlast]
  have e1 := ToLower_digits _ wall
  have e2 := ToLower_digits _ hall
  simp only [ToLower] at e1 e2
  simp only [ToLower, List.map_append, List.map_cons, hseplow, e1, e2]

/-- The result of `ParseResolution` depends on the trimmed and lowered text
only, for texts that are not empty. -/
theorem ParseResolution_congr (s t : String) (OutX OutY : Nat) (hs : s.toList ≠ [])
    (ht : t.toList ≠ [])
    (h : ToLower (TrimStartAndEnd s.toList) = ToLower (TrimStartAndEnd t.toList)) :
    ParseResolution s OutX OutY = ParseResolution t OutX OutY := by
  have es : s.toList.isEmpty = false := by
    cases hl : s.toList with
    | nil => exact absurd hl hs
    | cons a l => rfl
  have et : t.toList.isEmpty = false := by
    cases hl : t.toList with
    | nil => exact absurd hl ht
    | cons a l => rfl
  unfold ParseResolution
  simp only [es, et, h]

/-- The result of `ParseResolution` on two decimal numbers below `2 ^ 24`, the
first not 0, written around a separator `x` or `X`, with white space before and
after. -/
theorem ParseResolution_numbers (w h : Nat) (hw0 : 1 ≤ w) (hw : w < 2 ^ 24)
    (hh : h < 2 ^ 24) (ws1 ws2 : List Char) (separator : Char)
    (h1 : ∀ a ∈ ws1, IsWhitespace a = true) (h2 : ∀ a ∈ ws2, IsWhitespace a = true)
    (hsep : separator = 'x' ∨ separator = 'X') (OutX OutY : Nat) :
    ParseResolution
        (String.mk (ws1 ++ (Nat.toDigits 10 w ++ separator :: Nat.toDigits 10 h) ++ ws2))
        OutX OutY = (true, w, h) := by
  obtain ⟨wne, wall, wval⟩ := toDigits_spec w
  obtain ⟨hne, hall, hval⟩ := toDigits_spec h
  have hlow := resolution_lowered w h ws1 ws2 separator h1 h2 hsep
  have hx : ∀ a ∈ Nat.toDigits 10 w, a ≠ 'x' := fun a ha => (isDigit_props a (wall a ha)).2.1
  have hstr := Strchr_append 'x' (Nat.toDigits 10 h) (Nat.toDigits 10 w) hx
  have hytrim : TrimStartAndEnd (Nat.toDigits 10 h) = Nat.toDigits 10 h := by
    have := TrimStartAndEnd_surrounded [] [] (Nat.toDigits 10 h) (by simp) (by simp) hne
      (fun a ha => (isDigit_props a (hall a (List.mem_of_mem_head? ha))).1)
      (fun a ha => (isDigit_props a (hall a (List.mem_of_mem_getLast? ha))).1)
    simpa using this
  have hnum := IsNumeric_digits _ hne hall
  have hlenpos : (Nat.toDigits 10 h).length > 0 := List.length_pos.mpr hne
  have hAx : toUInt32 (MaxZero (Atof (Nat.toDigits 10 w ++ 'x' :: Nat.toDigits 10 h))) = w := by
    have := Atof_digits (Nat.toDigits 10 w) ('x' :: Nat.toDigits 10 h) wne wall
      (by
        intro a ha
        simp only [List.head?_cons, Option.mem_def, Option.some.injEq] at ha
        rw [← ha]; decide)
      (by
        intro h0
        rw [h0] at wval
        have : digitsValue ['0'] = 0 := by decide
        omega)
      (by rw [wval]; exact hw)
    rw [this, wval]
  have hAy : toUInt32 (MaxZero (Atof (Nat.toDigits 10 h))) = h := by
    have := Atof_digits (Nat.toDigits 10 h) [] hne hall (by simp) (by simp)
      (by rw [hval]; exact hh)
    rw [List.append_nil] at this
    rw [this, hval]
  have hnonempty : (String.mk (ws1 ++ (Nat.toDigits 10 w ++ separator :: Nat.toDigits 10 h)
      ++ ws2)).toList.isEmpty = false := by
    simp
  unfold ParseResolution
  simp only [hnonempty, Bool.not_false, if_true]
  have hlist : (String.mk (ws1 ++ (Nat.toDigits 10 w ++ separator :: Nat.toDigits 10 h)
      ++ ws2)).toList = ws1 ++ (Nat.toDigits 10 w ++ separator :: Nat.toDigits 10 h) ++ ws2 :=
    rfl
  simp only [hlist, hlow, hstr, List.tail_cons, hytrim, hlenpos, hnum, if_true, hAx, hAy]

/-- The text `<w>x<h>`, and the same with another separator and text around
it, as lists of characters. -/
theorem resolution_string (ws1 ws2 separator : String) (w h : Nat) :
    ws1 ++ toString w ++ separator ++ toString h ++ ws2 =
      String.mk (ws1.toList ++ (Nat.toDigits 10 w ++ (separator.toList ++ Nat.toDigits 10 h))
        ++ ws2.toList) := by
  apply String.ext
  simp [toString, Nat.repr, List.asString, String.toList]

/-- When `ParseResolution` returns `true`, what it returns does not depend on
the values `OutX` and `OutY` held before. -/
theorem ParseResolution_true_out (s : String) (OutX OutY OutX2 OutY2 : Nat)
    (h : (ParseResolution s OutX OutY).1 = true) :
    ParseResolution s OutX2 OutY2 = ParseResolution s OutX OutY := by
  unfold ParseResolution at h ⊢
  by_cases h1 : (!s.toList.isEmpty) = true
  · simp only [h1, if_true] at h ⊢
    cases h2 : Strchr (ToLower (TrimStartAndEnd s.toList)) 'x' with
    | none =>
      simp only [h2] at h
      exact absurd h (by simp)
    | some found =>
      simp only [h2] at h ⊢
      by_cases h3 : (TrimStartAndEnd found.tail).length > 0
      · simp only [h3, if_true] at h ⊢
        by_cases h4 : IsNumeric (TrimStartAndEnd found.tail) = true
        · simp only [h4, if_true]
        · simp only [h4, if_false, Bool.false_eq_true] at h
      · simp only [h3, if_false] at h
        exact absurd h (by simp)
  · simp only [h1, if_false, Bool.false_eq_true] at h

/-- C13 fails at `w = 0`: for `w` and `h` below `2 ^ 24`, `ParseResolution`
applied to the decimal digits of `w`, the character `x` and the decimal digits
of `h` returns `true` and sets `OutX = w` and `OutY = h` when `w` is at least 1;
on `0x1080` it returns `true` and sets `OutX = 4224`, the text `0x1080` read as
a hexadecimal numeral, and `OutY = 1080`. -/
theorem ParseResolution_digits (w h : Nat) (hw : w < 2 ^ 24) (hh : h < 2 ^ 24)
    (OutX OutY : Nat) :
    (1 ≤ w → ParseResolution (toString w ++ "x" ++ toString h) OutX OutY = (true, w, h)) ∧
      ParseResolution (toString 0 ++ "x" ++ toString 1080) OutX OutY = (true, 4224, 1080) := by
  constructor
  · intro hw0
    have e : toString w ++ "x" ++ toString h =
        String.mk ([] ++ (Nat.toDigits 10 w ++ 'x' :: Nat.toDigits 10 h) ++ []) := by
      have := resolution_string "" "" "x" w h
      simpa using this
    rw [e]
    exact ParseResolution_numbers w h hw0 hw hh [] [] 'x' (by simp) (by simp) (Or.inl rfl)
      OutX OutY
  · have e : toString 0 ++ "x" ++ toString 1080 = "0x1080" := by decide
    rw [e, ParseResolution_true_out "0x1080" 0 0 OutX OutY (by decide)]
    decide

/-- C13 at `1920x1080`, where the claim holds, and at `0x1080`, where it fails;
`OutX = 7` and `OutY = 9` before the call. -/
theorem ParseResolution_digits_witness :
    (1920 < 2 ^ 24 ∧ 1080 < 2 ^ 24) ∧ ParseResolution "1920x1080" 7 9 = (true, 1920, 1080) ∧
      ParseResolution "0x1080" 7 9 = (true, 4224, 1080) :=
  ⟨by norm_num,
    (ParseResolution_digits 1920 1080 (by norm_num) (by norm_num) 7 9).1 (by norm_num),
    (ParseResolution_digits 1920 1080 (by norm_num) (by norm_num) 7 9).2⟩

/-- C14: for every input string that contains neither `x` nor `X`,
`ParseResolution` returns `false` and `OutX`, `OutY` keep their values. -/
theorem ParseResolution_no_separator (s : String) (OutX OutY : Nat)
    (hx : 'x' ∉ s.toList) (hX : 'X' ∉ s.toList) :
    ParseResolution s OutX OutY = (false, OutX, OutY) := by
  have hnone : Strchr (ToLower (TrimStartAndEnd s.toList)) 'x' = none := by
    apply Strchr_eq_none
    intro a ha heq
    simp only [ToLower, List.mem_map] at ha
    obtain ⟨b, hb, hba⟩ := ha
    have hb1 : b ∈ (s.toList.reverse.dropWhile IsWhitespace).reverse :=
      (List.dropWhile_suffix IsWhitespace).subset hb
    have hb2 : b ∈ s.toList.reverse :=
      (List.dropWhile_suffix IsWhitespace).subset (List.mem_reverse.mp hb1)
    have hb3 : b ∈ s.toList := List.mem_reverse.mp hb2
    rw [heq] at hba
    rcases toLower_eq_x b hba with rfl | rfl
    · exact hx hb3
    · exact hX hb3
  unfold ParseResolution
  split
  · simp only [hnone]
  · rfl

/-- C14 at the strings `abc`, `1920` and the empty string. -/
theorem ParseResolution_no_separator_witness :
    ParseResolution "abc" 7 9 = (false, 7, 9) ∧ ParseResolution "1920" 7 9 = (false, 7, 9) ∧
      ParseResolution "" 7 9 = (false, 7, 9) :=
  ⟨ParseResolution_no_separator "abc" 7 9 (by decide) (by decide),
    ParseResolution_no_separator "1920" 7 9 (by decide) (by decide),
    ParseResolution_no_separator "" 7 9 (by decide) (by decide)⟩

/-- C16: for `w`, `h` below `2^24`, `ParseResolution` gives on `<w>X<h>` the
result it gives on `<w>x<h>`, and white space put before and after either text
does not change the result. -/
theorem ParseResolution_separator_case (w h : Nat) (_hw : w < 2 ^ 24) (_hh : h < 2 ^ 24)
    (ws1 ws2 : String) (h1 : ∀ a ∈ ws1.toList, IsWhitespace a = true)
    (h2 : ∀ a ∈ ws2.toList, IsWhitespace a = true) (OutX OutY : Nat) :
    ParseResolution (toString w ++ "X" ++ toString h) OutX OutY =
        ParseResolution (toString w ++ "x" ++ toString h) OutX OutY ∧
      ParseResolution (ws1 ++ toString w ++ "X" ++ toString h ++ ws2) OutX OutY =
        ParseResolution (toString w ++ "x" ++ toString h) OutX OutY ∧
      ParseResolution (ws1 ++ toString w ++ "x" ++ toString h ++ ws2) OutX OutY =
        ParseResolution (toString w ++ "x" ++ toString h) OutX OutY := by
  have key : ∀ (a b : String) (separator : Char),
      (∀ c ∈ a.toList, IsWhitespace c = true) → (∀ c ∈ b.toList, IsWhitespace c = true) →
      (separator = 'x' ∨ separator = 'X') →
      ParseResolution (a ++ toString w ++ String.mk [separator] ++ toString h ++ b) OutX OutY =
        ParseResolution (String.mk (Nat.toDigits 10 w ++ 'x' :: Nat.toDigits 10 h))
          OutX OutY := by
    intro a b separator ha hb hsep
    rw [resolution_string a b (String.mk [separator]) w h]
    apply ParseResolution_congr
    · simp
    · simp
    · have hl := resolution_lowered w h a.toList b.toList separator ha hb hsep
      have hr := resolution_lowered w h [] [] 'x' (by simp) (by simp) (Or.inl rfl)
      simp only [List.nil_append, List.append_nil] at hr
      have e1 : (String.mk (a.toList ++ (Nat.toDigits 10 w ++
          ((String.mk [separator]).toList ++ Nat.toDigits 10 h)) ++ b.toList)).toList =
          a.toList ++ (Nat.toDigits 10 w ++ separator :: Nat.toDigits 10 h) ++ b.toList := rfl
      have e2 : (String.mk (Nat.toDigits 10 w ++ 'x' :: Nat.toDigits 10 h)).toList =
          Nat.toDigits 10 w ++ 'x' :: Nat.toDigits 10 h := rfl
      rw [e1, e2, hl, hr]
  have k0 := key "" "" 'x' (by simp) (by simp) (Or.inl rfl)
  have k1 := key "" "" 'X' (by simp) (by simp) (Or.inr rfl)
  have k2 := key ws1 ws2 'X' h1 h2 (Or.inr rfl)
  have k3 := key ws1 ws2 'x' h1 h2 (Or.inl rfl)
  have e0 : ("" : String) ++ toString w ++ String.mk ['x'] ++ toString h ++ "" =
      toString w ++ "x" ++ toString h := by
    apply String.ext; simp
  have e1 : ("" : String) ++ toString w ++ String.mk ['X'] ++ toString h ++ "" =
      toString w ++ "X" ++ toString h := by
    apply String.ext; simp
  rw [e0] at k0
  rw [e1] at k1
  exact ⟨k1.trans k0.symm, k2.trans k0.symm, k3.trans k0.symm⟩

/-- C16 at `1920X1080` between a space and a tab: the result is that of
`1920x1080`. -/
theorem ParseResolution_separator_case_witness :
    ParseResolution "1920X1080" 7 9 = ParseResolution "1920x1080" 7 9 ∧
      ParseResolution " 1920X1080\t" 7 9 = ParseResolution "1920x1080" 7 9 ∧
      ParseResolution " 1920x1080\t" 7 9 = ParseResolution "1920x1080" 7 9 :=
  ParseResolution_separator_case 1920 1080 (by norm_num) (by norm_num) " " "\t" (by decide)
    (by decide) 7 9

/-- The search for a character either finds nothing, the character not
occurring, or finds its first occurrence. -/
theorem Strchr_spec (c : Char) :
    ∀ l : List Char, (Strchr l c = none ∧ c ∉ l) ∨
      ∃ before after, l = before ++ c :: after ∧ c ∉ before ∧
        Strchr l c = some (c :: after) := by
  intro l
  induction l with
  | nil => left; simp [Strchr]
  | cons a t ih =>
    by_cases hac : a = c
    · right
      refine ⟨[], t, by simp [hac], by simp, ?_⟩
      simp [Strchr, hac]
    · rcases ih with ⟨h1, h2⟩ | ⟨before, after, h1, h2, h3⟩
      · left
        refine ⟨by simp [Strchr, hac, h1], ?_⟩
        simp only [List.mem_cons, not_or]
        exact ⟨fun h => hac h.symm, h2⟩
      · right
        refine ⟨a :: before, after, by simp [h1], ?_, by simp [Strchr, hac, h3]⟩
        simp only [List.mem_cons, not_or]
        exact ⟨fun h => hac h.symm, h2⟩

/-- The loop of `IsNumeric` accepts exactly the texts made of digits and
points with at most one point in all, the one already read included. -/
theorem IsNumericLoop_iff :
    ∀ (l : List Char) (b : Bool),
      IsNumericLoop l b = true ↔
        (∀ a ∈ l, a.isDigit = true ∨ a = '.') ∧ l.count '.' + (if b then 1 else 0) ≤ 1 := by
  intro l
  induction l with
  | nil => intro b; cases b <;> simp [IsNumericLoop]
  | cons a t ih =>
    intro b
    by_cases hp : a = '.'
    · subst hp
      cases b
      · simp [IsNumericLoop, ih, List.count_cons]
      · simp [IsNumericLoop, List.count_cons]
    · by_cases hd : a.isDigit = true
      · simp [IsNumericLoop, hp, hd, ih, List.count_cons]
      · simp [IsNumericLoop, hp, hd]

/-- C15 as stated fails: `ParseResolution` returns `true` on `abcx1080`,
`x1080`, `1920x10.5` and `1920x-5`, and writes `(0, 1080)`, `(0, 1080)`,
`(1920, 10)` and `(1920, 0)` to `OutX`, `OutY`. -/
theorem ParseResolution_accepts_malformed :
    ParseResolution "abcx1080" 7 9 = (true, 0, 1080) ∧
      ParseResolution "x1080" 7 9 = (true, 0, 1080) ∧
      ParseResolution "1920x10.5" 7 9 = (true, 1920, 10) ∧
      ParseResolution "1920x-5" 7 9 = (true, 1920, 0) := by
  refine ⟨by decide, by decide, by decide, by decide⟩

/-- C15, amended: `ParseResolution` returns `false` exactly when the input is
empty, or its trimmed and lowered text has no `x`, or the text after the first
`x`, once trimmed, is not numeric for `IsNumeric` (it is empty, or is not an
optional sign followed by digits with at most one point); whenever it returns
`false`, `OutX` and `OutY` are unchanged.  The text before the first `x` is not
examined. -/
theorem ParseResolution_false_iff (s : String) (OutX OutY : Nat) :
    ((ParseResolution s OutX OutY).1 = false →
      ParseResolution s OutX OutY = (false, OutX, OutY)) ∧
    ((ParseResolution s OutX OutY).1 = false ↔
      (s.toList = [] ∨ 'x' ∉ ToLower (TrimStartAndEnd s.toList) ∨
        ∃ before after, ToLower (TrimStartAndEnd s.toList) = before ++ 'x' :: after ∧
          'x' ∉ before ∧ IsNumeric (TrimStartAndEnd after) = false)) := by
  by_cases hempty : s.toList = []
  · have h : ParseResolution s OutX OutY = (false, OutX, OutY) := by
      unfold ParseResolution
      simp only [hempty, List.isEmpty_nil, Bool.not_true, Bool.false_eq_true, if_false]
    rw [h]
    exact ⟨fun _ => rfl, fun _ => Or.inl hempty, fun _ => rfl⟩
  · have hne : s.toList.isEmpty = false := by
      cases hs : s.toList with
      | nil => exact absurd hs hempty
      | cons a t => rfl
    rcases Strchr_spec 'x' (ToLower (TrimStartAndEnd s.toList)) with
      ⟨hnone, hnot⟩ | ⟨before, after, hsplit, hbefore, hsome⟩
    · have h : ParseResolution s OutX OutY = (false, OutX, OutY) := by
        unfold ParseResolution
        simp only [hne, Bool.not_false, if_true, hnone]
      rw [h]
      exact ⟨fun _ => rfl, fun _ => Or.inr (Or.inl hnot), fun _ => rfl⟩
    · have hmem : 'x' ∈ ToLower (TrimStartAndEnd s.toList) := by
        rw [hsplit]; simp
      by_cases hnum : IsNumeric (TrimStartAndEnd after) = true
      · have hpos : (TrimStartAndEnd after).length > 0 := by
          cases ht : TrimStartAndEnd after with
          | nil => rw [ht] at hnum; simp [IsNumeric] at hnum
          | cons a t => simp
        have h : (ParseResolution s OutX OutY).1 = true := by
          unfold ParseResolution
          simp only [hne, Bool.not_false, if_true, hsome, List.tail_cons, hpos, hnum]
        rw [h]
        refine ⟨fun hf => absurd hf (by simp), fun hf => absurd hf (by simp), ?_⟩
        rintro (h0 | h0 | ⟨before2, after2, hsplit2, hbefore2, hnum2⟩)
        · exact absurd h0 hempty
        · exact absurd hmem h0
        · have hsome2 := Strchr_append 'x' after2 before2 (fun a ha heq => hbefore2 (heq ▸ ha))
          rw [← hsplit2, hsome] at hsome2
          simp only [Option.some.injEq, List.cons.injEq, true_and] at hsome2
          rw [← hsome2, hnum] at hnum2
          exact absurd hnum2 (by simp)
      · have hnum2 : IsNumeric (TrimStartAndEnd after) = false := by
          cases hv : IsNumeric (TrimStartAndEnd after) with
          | true => exact absurd hv hnum
          | false => rfl
        have h : ParseResolution s OutX OutY = (false, OutX, OutY) := by
          unfold ParseResolution
          simp only [hne, Bool.not_false, if_true, hsome, List.tail_cons, hnum2,
            Bool.false_eq_true, if_false, ite_self]
        rw [h]
        exact ⟨fun _ => rfl,
          fun _ => Or.inr (Or.inr ⟨before, after, hsplit, hbefore, hnum2⟩), fun _ => rfl⟩

/-- C15, amended, at `1920x1080abc`: the text after `x` is not numeric, the
result is `false` and `OutX`, `OutY` keep the values 7 and 9. -/
theorem ParseResolution_false_iff_witness :
    (ParseResolution "1920x1080abc" 7 9).1 = false ∧
      ParseResolution "1920x1080abc" 7 9 = (false, 7, 9) :=
  ⟨by decide, (ParseResolution_false_iff "1920x1080abc" 7 9).1 (by decide)⟩

/-! ## Theorems: the quilt render target -/

/-- C22: whatever the member `QuiltRT` held before (null, or a target of any
size) and whatever the tiling quality, the target `GetQuiltRT` returns has
`SizeX = QuiltW` and `SizeY = QuiltH`, and after a draw call with a valid
capture component the member `QuiltRT` is that target, not null. -/
theorem GetQuiltRT_size (T : FHoloPlayTilingQuality) (Q : Option UTextureRenderTarget2D) :
    ((GetQuiltRT T Q).1.SizeX = T.QuiltW ∧ (GetQuiltRT T Q).1.SizeY = T.QuiltH) ∧
    (∀ (E : Engine) (I : DrawInputs) (c : FHoloPlayViewportClient)
        (Component : UHoloPlaySceneCaptureComponent2D),
      I.CaptureComponent = some Component → Component.TilingValues = T →
        (Draw E I Q c).2.1 = some (GetQuiltRT T Q).1) := by
  constructor
  · unfold GetQuiltRT
    cases Q with
    | none => simp
    | some Target =>
      simp only []
      split
      · exact ⟨rfl, rfl⟩
      · rename_i h
        simp only [Bool.or_eq_true, bne_iff_ne, ne_eq, not_or, not_not] at h
        exact ⟨h.1.symm, h.2.symm⟩
  · intro E I c Component hComponent hT
    subst hT
    unfold Draw
    simp only [hComponent]
    split
    · rfl
    · split
      · rfl
      · split <;> split <;> rfl

/-- C23: `GetQuiltRT` allocates a render target exactly when the member
`QuiltRT` is null on entry, and calls `ResizeTarget` exactly when `QuiltRT` was
allocated with a size other than `(QuiltW, QuiltH)`.  On an allocated target of
that size it issues no stage and returns the target as it is; on an allocated
target of another size it issues the resize and the resource update only, no
allocation, so the object is the one it was; on null it issues the allocation
and the resource update only. -/
theorem GetQuiltRT_allocation (T : FHoloPlayTilingQuality)
    (Q : Option UTextureRenderTarget2D) :
    ((∃ a b, Stage.NewQuiltRT a b ∈ (GetQuiltRT T Q).2) ↔ Q = none) ∧
    ((∃ a b, Stage.ResizeTarget a b ∈ (GetQuiltRT T Q).2) ↔
      ∃ Target, Q = some Target ∧ (Target.SizeX ≠ T.QuiltW ∨ Target.SizeY ≠ T.QuiltH)) ∧
    (∀ Target, Q = some Target → Target.SizeX = T.QuiltW → Target.SizeY = T.QuiltH →
      GetQuiltRT T Q = (Target, [])) ∧
    (∀ Target, Q = some Target → (Target.SizeX ≠ T.QuiltW ∨ Target.SizeY ≠ T.QuiltH) →
      GetQuiltRT T Q =
        ({ SizeX := T.QuiltW, SizeY := T.QuiltH },
          [Stage.ResizeTarget T.QuiltW T.QuiltH, Stage.UpdateResourceImmediate])) ∧
    (Q = none →
      GetQuiltRT T Q =
        ({ SizeX := T.QuiltW, SizeY := T.QuiltH },
          [Stage.NewQuiltRT T.QuiltW T.QuiltH, Stage.UpdateResourceImmediate])) := by
  have hnone : Q = none →
      GetQuiltRT T Q =
        ({ SizeX := T.QuiltW, SizeY := T.QuiltH },
          [Stage.NewQuiltRT T.QuiltW T.QuiltH, Stage.UpdateResourceImmediate]) := by
    intro h
    subst h
    simp [GetQuiltRT]
  have hsame : ∀ Target, Q = some Target → Target.SizeX = T.QuiltW →
      Target.SizeY = T.QuiltH → GetQuiltRT T Q = (Target, []) := by
    intro Target h hx hy
    subst h
    simp [GetQuiltRT, hx, hy]
  have hdiff : ∀ Target, Q = some Target →
      (Target.SizeX ≠ T.QuiltW ∨ Target.SizeY ≠ T.QuiltH) →
      GetQuiltRT T Q =
        ({ SizeX := T.QuiltW, SizeY := T.QuiltH },
          [Stage.ResizeTarget T.QuiltW T.QuiltH, Stage.UpdateResourceImmediate]) := by
    intro Target h hor
    subst h
    have hc : (T.QuiltW != Target.SizeX || T.QuiltH != Target.SizeY) = true := by
      simp only [Bool.or_eq_true, bne_iff_ne, ne_eq]
      rcases hor with h1 | h1
      · exact Or.inl (fun e => h1 e.symm)
      · exact Or.inr (fun e => h1 e.symm)
    simp [GetQuiltRT, hc]
  refine ⟨?_, ?_, hsame, hdiff, hnone⟩
  · cases hQ : Q with
    | none =>
      rw [← hQ, hnone hQ]
      simp [hQ]
    | some Target =>
      rw [← hQ]
      by_cases hs : Target.SizeX = T.QuiltW ∧ Target.SizeY = T.QuiltH
      · rw [hsame Target hQ hs.1 hs.2]
        simp [hQ]
      · rw [hdiff Target hQ (by
          by_cases hx : Target.SizeX = T.QuiltW
          · exact Or.inr (fun hy => hs ⟨hx, hy⟩)
          · exact Or.inl hx)]
        simp [hQ]
  · cases hQ : Q with
    | none =>
      rw [← hQ, hnone hQ]
      simp [hQ]
    | some Target =>
      rw [← hQ]
      by_cases hs : Target.SizeX = T.QuiltW ∧ Target.SizeY = T.QuiltH
      · rw [hsame Target hQ hs.1 hs.2]
        simp [hQ, hs.1, hs.2]
      · have hor : Target.SizeX ≠ T.QuiltW ∨ Target.SizeY ≠ T.QuiltH := by
          by_cases hx : Target.SizeX = T.QuiltW
          · exact Or.inr (fun hy => hs ⟨hx, hy⟩)
          · exact Or.inl hx
        rw [hdiff Target hQ hor]
        exact ⟨fun _ => ⟨Target, hQ, hor⟩, fun _ => ⟨T.QuiltW, T.QuiltH, by simp⟩⟩

/-- C24: `GetRenderTargetScreenShot` returns the flag of the pixel readback.
When it returns `true` the bitmap has the length of the readback, every pixel
has `A = 255`, and the `R`, `G` and `B` channels are those of the readback;
when it returns `false` the bitmap is the one the readback left, no alpha
touched. -/
theorem GetRenderTargetScreenShot_alpha (ReadPixels : Bool × List FColor) :
    (GetRenderTargetScreenShot ReadPixels).1 = ReadPixels.1 ∧
    (ReadPixels.1 = true →
      (GetRenderTargetScreenShot ReadPixels).2.length = ReadPixels.2.length ∧
      (∀ color ∈ (GetRenderTargetScreenShot ReadPixels).2, color.A = 255) ∧
      (GetRenderTargetScreenShot ReadPixels).2.map (fun color => (color.R, color.G, color.B)) =
        ReadPixels.2.map (fun color => (color.R, color.G, color.B))) ∧
    (ReadPixels.1 = false → (GetRenderTargetScreenShot ReadPixels).2 = ReadPixels.2) := by
  refine ⟨?_, ?_, ?_⟩
  · unfold GetRenderTargetScreenShot
    split <;> simp_all
  · intro h
    simp only [GetRenderTargetScreenShot, h, if_true, List.length_map, List.mem_map,
      List.map_map, true_and]
    constructor
    · rintro color ⟨a, _, rfl⟩
      rfl
    · apply List.map_congr_left
      intro a _
      rfl
  · intro h
    simp [GetRenderTargetScreenShot, h]

/-! ## Theorems: order of the stages -/

/-- A draw call in 2D render mode for a valid capture component with a
rendering config: the stages issued. -/
theorem Draw_render2D_aux (E : Engine) (I : DrawInputs)
    (QuiltRT : Option UTextureRenderTarget2D) (c : FHoloPlayViewportClient)
    (Component : UHoloPlaySceneCaptureComponent2D)
    (hComponent : I.CaptureComponent = some Component)
    (hConfigs : Component.RenderingConfigs ≠ [])
    (h2D : I.Settings.HoloPlayRenderingSettings.bRender2D = true) :
    (Draw E I QuiltRT c).2.2 =
      [Stage.Clear FLinearColor.Black] ++ (GetQuiltRT Component.TilingValues QuiltRT).2 ++
        [Stage.Render2DView,
          Stage.Render2DView_RenderThread
            { Viewport := I.Viewport, RenderTarget := Component.TextureTarget2DResource }] := by
  have hlen : ¬ Component.RenderingConfigs.length = 0 := by
    intro h
    exact hConfigs (List.length_eq_zero.mp h)
  simp [Draw, hComponent, hlen, h2D]

/-- The flush is not among the stages issued by `GetQuiltRT`. -/
theorem GetQuiltRT_no_flush (T : FHoloPlayTilingQuality) (Q : Option UTextureRenderTarget2D) :
    Stage.FlushRenderingCommands ∉ (GetQuiltRT T Q).2 := by
  intro h
  rcases GetQuiltRT_stages T Q _ h with h1 | h1 | h1 <;> simp at h1

/-- The flush is not among mapped copy-to-quilt commands. -/
theorem flush_not_mem_map (l : List FCopyToQuiltRenderContext) :
    Stage.FlushRenderingCommands ∉ l.map Stage.CopyToQuiltShader_RenderThread := by
  simp

/-- C21: in a draw call that issues a lenticular shader command, the stages
end with `FlushRenderingCommands`, the quilt screenshot servicing and the
lenticular shader command, in that order; everything issued before them
contains no flush and no lenticular command and contains every copy-to-quilt
command of the frame, so there is exactly one flush, it comes after all the
copy-to-quilt commands and before the lenticular command, and no copy-to-quilt
command follows it. -/
theorem Draw_flush_before_lenticular (E : Engine) (I : DrawInputs)
    (QuiltRT : Option UTextureRenderTarget2D) (c : FHoloPlayViewportClient)
    (h : lenticularCommands (Draw E I QuiltRT c).2.2 ≠ []) :
    ∃ (before : List Stage) (Effects : List Effect) (Context : FLenticularRenderContext),
      (Draw E I QuiltRT c).2.2 =
          before ++ [Stage.FlushRenderingCommands, Stage.ProcessScreenshotQuilts Effects,
            Stage.RenderLenticularShader_RenderThread Context] ∧
        Stage.FlushRenderingCommands ∉ before ∧
        lenticularCommands before = [] ∧
        copyCommands before = copyCommands (Draw E I QuiltRT c).2.2 ∧
        (Draw E I QuiltRT c).2.2.count Stage.FlushRenderingCommands = 1 := by
  have finish : ∀ (before : List Stage) (Effects : List Effect)
      (Context : FLenticularRenderContext),
      (Draw E I QuiltRT c).2.2 =
          before ++ [Stage.FlushRenderingCommands, Stage.ProcessScreenshotQuilts Effects,
            Stage.RenderLenticularShader_RenderThread Context] →
      Stage.FlushRenderingCommands ∉ before → lenticularCommands before = [] →
      ∃ (before : List Stage) (Effects : List Effect) (Context : FLenticularRenderContext),
        (Draw E I QuiltRT c).2.2 =
            before ++ [Stage.FlushRenderingCommands, Stage.ProcessScreenshotQuilts Effects,
              Stage.RenderLenticularShader_RenderThread Context] ∧
          Stage.FlushRenderingCommands ∉ before ∧
          lenticularCommands before = [] ∧
          copyCommands before = copyCommands (Draw E I QuiltRT c).2.2 ∧
          (Draw E I QuiltRT c).2.2.count Stage.FlushRenderingCommands = 1 := by
    intro before Effects Context hst hfl hle
    refine ⟨before, Effects, Context, hst, hfl, hle, ?_, ?_⟩
    · rw [hst, copyCommands_append]
      simp [copyCommands]
    · rw [hst, List.count_append, List.count_eq_zero.mpr hfl]
      simp [List.count_cons]
  cases hC : I.CaptureComponent with
  | none =>
    exfalso
    apply h
    simp [Draw, hC, lenticularCommands]
  | some Component =>
    obtain ⟨_, g2, _, _, _, _⟩ := GetQuiltRT_no_render Component.TilingValues QuiltRT
    have gf := GetQuiltRT_no_flush Component.TilingValues QuiltRT
    by_cases hnil : Component.RenderingConfigs = []
    · exact absurd (Draw_zero_configs_aborts_aux E I QuiltRT c Component hC hnil).2.2 h
    · cases h2D : I.Settings.HoloPlayRenderingSettings.bRender2D with
      | true =>
        exfalso
        apply h
        rw [Draw_render2D_aux E I QuiltRT c Component hC hnil h2D]
        simp only [lenticularCommands_append, g2]
        rfl
      | false =>
        cases hOv : Component.OverrideQuiltTexture2D with
        | some Texture =>
          obtain ⟨_, hst⟩ := Draw_override E I QuiltRT c Component Texture hC hnil h2D hOv
          refine finish ([Stage.Clear FLinearColor.Black] ++
            (GetQuiltRT Component.TilingValues QuiltRT).2 ++
            [Stage.ProcessScreenshot2D
              (c.ProcessScreenshot2D E I.Settings.HoloPlayScreenshot2DSettings.Resolution
                Component.TextureTarget2DRendering I.ReadPixels2D).2])
            ((c.ProcessScreenshot2D E I.Settings.HoloPlayScreenshot2DSettings.Resolution
              Component.TextureTarget2DRendering I.ReadPixels2D).1.ProcessScreenshotQuilts E
              (GetQuiltRT Component.TilingValues QuiltRT).1 I.ReadPixelsQuilt).2
            { Viewport := I.Viewport, QuiltRT := I.QuiltResource,
              TilingValues := Component.TilingValues, OverrideQuiltTexture2D := Texture,
              Settings := I.Settings } ?_ ?_ ?_
          · rw [hst]
            simp
          · simp [gf]
          · simp only [lenticularCommands_append, g2]
            rfl
        | none =>
          cases hcopy : (copyToQuilt I.QuiltResource Component.TilingValues
              Component.RenderingConfigs).2 with
          | true =>
            exfalso
            apply h
            rw [(Draw_aborted E I QuiltRT c Component hC hnil h2D hOv hcopy).2]
            simp only [lenticularCommands_append, g2, lenticularCommands_map]
            rfl
          | false =>
            obtain ⟨_, hst⟩ := Draw_composited E I QuiltRT c Component hC hnil h2D hOv hcopy
            refine finish ([Stage.Clear FLinearColor.Black] ++
              (GetQuiltRT Component.TilingValues QuiltRT).2 ++
              [Stage.ProcessScreenshot2D
                (c.ProcessScreenshot2D E I.Settings.HoloPlayScreenshot2DSettings.Resolution
                  Component.TextureTarget2DRendering I.ReadPixels2D).2,
               Stage.RenderViews] ++
              (copyToQuilt I.QuiltResource Component.TilingValues
                Component.RenderingConfigs).1.map Stage.CopyToQuiltShader_RenderThread)
              ((c.ProcessScreenshot2D E I.Settings.HoloPlayScreenshot2DSettings.Resolution
                Component.TextureTarget2DRendering I.ReadPixels2D).1.ProcessScreenshotQuilts E
                (GetQuiltRT Component.TilingValues QuiltRT).1 I.ReadPixelsQuilt).2
              { Viewport := I.Viewport, QuiltRT := I.QuiltResource,
                TilingValues := Component.TilingValues, OverrideQuiltTexture2D := none,
                Settings := I.Settings } ?_ ?_ ?_
            · rw [hst]
            · simp [gf]
            · simp only [lenticularCommands_append, g2, lenticularCommands_map]
              rfl

/-- C21 at the sample capture component in hologram mode: a lenticular
command is issued, and the stages contain exactly one flush. -/
theorem Draw_flush_before_lenticular_witness :
    lenticularCommands (Draw Engine.sample (DrawInputs.sample false) none {}).2.2 ≠ [] ∧
      (Draw Engine.sample (DrawInputs.sample false) none {}).2.2.count
        Stage.FlushRenderingCommands = 1 := by
  have hne : lenticularCommands (Draw Engine.sample (DrawInputs.sample false) none {}).2.2
      ≠ [] := by
    intro h
    have hl : (lenticularCommands
        (Draw Engine.sample (DrawInputs.sample false) none {}).2.2).length = 1 := by decide
    rw [h] at hl
    exact absurd hl (by decide)
  obtain ⟨_, _, _, _, _, _, _, hcount⟩ :=
    Draw_flush_before_lenticular Engine.sample (DrawInputs.sample false) none {} hne
  exact ⟨hne, hcount⟩

/-! ## Theorems: unused quilt pixels -/

namespace FHoloPlayTilingQuality

/-- The remainder left by the truncated quotient. -/
theorem unused_and_portion {a b : Int} (ha : 0 ≤ a) (hb : 1 ≤ b) :
    a - b * Int.tdiv a b = a % b ∧ a - b * Int.tdiv a b = Int.tmod a b ∧
      0 ≤ a - b * Int.tdiv a b ∧ a - b * Int.tdiv a b < b := by
  have hb0 : (0 : Int) ≤ b := by omega
  have e1 : a - b * Int.tdiv a b = a % b := by
    rw [Int.tdiv_eq_ediv ha hb0, Int.emod_def]
  refine ⟨e1, ?_, ?_, ?_⟩
  · rw [e1, Int.tmod_eq_emod ha hb0]
  · rw [e1]; exact Int.emod_nonneg _ (by omega)
  · rw [e1]; exact Int.emod_lt_of_pos _ (by omega)

/-- For integers `b ≥ 1` and `1 ≤ a < 2 ^ 24`, the `float` computed as
`(float)b * (a / b) / (float)a` is 1 exactly when `b` divides `a`. -/
theorem portion_float_int {a b : Int} (hb : 1 ≤ b) (ha : 1 ≤ a) (ha24 : a < 2 ^ 24) :
    Float32.div (Float32.mul (Float32.ofInt b) (Float32.ofInt (Int.tdiv a b)))
        (Float32.ofInt a) = Float32.ofInt 1 ↔ b ∣ a := by
  obtain ⟨T, rfl⟩ := Int.eq_ofNat_of_zero_le (by omega : 0 ≤ b)
  obtain ⟨Q, rfl⟩ := Int.eq_ofNat_of_zero_le (by omega : 0 ≤ a)
  rw [portion_float_eq_one_iff T Q (by omega) (by omega) (by omega), Int.natCast_dvd_natCast]

/-- For `1 ≤ TilesX ≤ QuiltW < 2 ^ 24`, the `float` that `Setup()` computes
for `PortionX` is the exact quotient `TilesX * TileSizeX / QuiltW`, the value of
the field `PortionX`, rounded once to `float`. -/
theorem SetupPortionX_rounds_quotient (q : FHoloPlayTilingQuality) (hX : 1 ≤ q.TilesX)
    (hXW : q.TilesX ≤ q.QuiltW) (hW : q.QuiltW < 2 ^ 24) :
    q.Setup.PortionX = ((q.TilesX * q.Setup.TileSizeX : Int) : ℚ) / (q.QuiltW : ℚ) ∧
      q.SetupPortionX =
        Float32.Round false (q.TilesX * q.Setup.TileSizeX).toNat q.QuiltW.toNat := by
  constructor
  · simp [Setup]
  · obtain ⟨T, hT⟩ := Int.eq_ofNat_of_zero_le (by omega : 0 ≤ q.TilesX)
    obtain ⟨Q, hQ⟩ := Int.eq_ofNat_of_zero_le (by omega : 0 ≤ q.QuiltW)
    have hts : q.Setup.TileSizeX = ((Q / T : Nat) : Int) := by
      show Int.tdiv q.QuiltW q.TilesX = _
      rw [hT, hQ, Int.tdiv_eq_ediv (by positivity) (by positivity)]
      norm_cast
    unfold SetupPortionX
    simp only [hts, hT, hQ]
    rw [portion_float_eq_Round T Q (by omega) (by omega) (by omega)]
    have e1 : ((T : Int) * ((Q / T : Nat) : Int)).toNat = T * (Q / T) := by
      rw [← Int.natCast_mul, Int.toNat_ofNat]
    rw [e1, Int.toNat_ofNat]

/-- C27 as stated fails at `QuiltW = 0`: `TilesX = 4` divides `QuiltW = 0`,
but the `float` that `Setup()` computes for `PortionX` is `0 / 0`, not a number,
and not 1.  It also fails at `TilesX = 2`, `QuiltW = 16777217`: 2 does not
divide `QuiltW`, but `(float)QuiltW` is `16777216` and the `float` computed for
`PortionX` is 1. -/
theorem Setup_portion_zero_quilt :
    (((1 : Int) ≤ 4 ∧ (0 : Int) ≤ 0) ∧ ((4 : Int) ∣ 0) ∧
      SetupPortionX { TilesX := 4, TilesY := 8, QuiltW := 0, QuiltH := 0 } = FloatValue.nan ∧
      SetupPortionX { TilesX := 4, TilesY := 8, QuiltW := 0, QuiltH := 0 } ≠ Float32.ofInt 1) ∧
    (((1 : Int) ≤ 2 ∧ (0 : Int) ≤ 16777217) ∧ ¬ ((2 : Int) ∣ 16777217) ∧
      SetupPortionX { TilesX := 2, TilesY := 8, QuiltW := 16777217, QuiltH := 2048 } =
        Float32.ofInt 1) := by
  refine ⟨⟨by decide, by decide, by decide, by decide⟩, by decide, by decide, by decide⟩

/-- C27, amended: for `TilesX ≥ 1` and `QuiltW ≥ 0`, the number of quilt
pixel columns left unused after `Setup()`, `QuiltW - TilesX * TileSizeX`, is
`QuiltW mod TilesX`, so it is at least 0 and less than `TilesX`; and for
`1 ≤ QuiltW < 2 ^ 24`, the `float` that `Setup()` computes for `PortionX` is 1
exactly when `TilesX` divides `QuiltW`.  Likewise for the rows with `TilesY`,
`QuiltH` and `PortionY`. -/
theorem Setup_unused_columns (q : FHoloPlayTilingQuality)
    (hX : 1 ≤ q.TilesX) (hY : 1 ≤ q.TilesY) (hW : 0 ≤ q.QuiltW) (hH : 0 ≤ q.QuiltH) :
    (q.QuiltW - q.TilesX * q.Setup.TileSizeX = q.QuiltW % q.TilesX ∧
      q.QuiltW - q.TilesX * q.Setup.TileSizeX = Int.tmod q.QuiltW q.TilesX ∧
      0 ≤ q.QuiltW - q.TilesX * q.Setup.TileSizeX ∧
      q.QuiltW - q.TilesX * q.Setup.TileSizeX < q.TilesX ∧
      (1 ≤ q.QuiltW → q.QuiltW < 2 ^ 24 →
        (q.SetupPortionX = Float32.ofInt 1 ↔ q.TilesX ∣ q.QuiltW))) ∧
    (q.QuiltH - q.TilesY * q.Setup.TileSizeY = q.QuiltH % q.TilesY ∧
      q.QuiltH - q.TilesY * q.Setup.TileSizeY = Int.tmod q.QuiltH q.TilesY ∧
      0 ≤ q.QuiltH - q.TilesY * q.Setup.TileSizeY ∧
      q.QuiltH - q.TilesY * q.Setup.TileSizeY < q.TilesY ∧
      (1 ≤ q.QuiltH → q.QuiltH < 2 ^ 24 →
        (q.SetupPortionY = Float32.ofInt 1 ↔ q.TilesY ∣ q.QuiltH))) := by
  obtain ⟨a1, a2, a3, a4⟩ := unused_and_portion hW hX
  obtain ⟨b1, b2, b3, b4⟩ := unused_and_portion hH hY
  exact ⟨⟨a1, a2, a3, a4, fun h1 h2 => portion_float_int hX h1 h2⟩,
    ⟨b1, b2, b3, b4, fun h1 h2 => portion_float_int hY h1 h2⟩⟩

/-- C27, amended, at the geometry of the 4K preset: one column and one row
are unused (`4096 mod 5 = 1`, `4096 mod 9 = 1`), and the `float` computed for
`PortionX` is not 1; and at `TilesX = 8`, `QuiltW = 3360`, where 8 divides
3360: the `float` computed for `PortionX` is 1. -/
theorem Setup_unused_columns_witness :
    ((1 : Int) ≤ 5 ∧ (1 : Int) ≤ 9 ∧ (0 : Int) ≤ 4096 ∧ (0 : Int) ≤ 4096) ∧
      (4096 : Int) - 5 *
        (Setup { TilesX := 5, TilesY := 9, QuiltW := 4096, QuiltH := 4096 }).TileSizeX = 1 ∧
      (4096 : Int) - 9 *
        (Setup { TilesX := 5, TilesY := 9, QuiltW := 4096, QuiltH := 4096 }).TileSizeY = 1 ∧
      SetupPortionX { TilesX := 5, TilesY := 9, QuiltW := 4096, QuiltH := 4096 } ≠
        Float32.ofInt 1 ∧
      SetupPortionX { TilesX := 8, TilesY := 6, QuiltW := 3360, QuiltH := 3360 } =
        Float32.ofInt 1 := by
  have h := Setup_unused_columns { TilesX := 5, TilesY := 9, QuiltW := 4096, QuiltH := 4096 }
    (by decide) (by decide) (by decide) (by decide)
  have h2 := Setup_unused_columns { TilesX := 8, TilesY := 6, QuiltW := 3360, QuiltH := 3360 }
    (by decide) (by decide) (by decide) (by decide)
  refine ⟨by decide, h.1.1.trans (by decide), h.2.1.trans (by decide), ?_,
    (h2.1.2.2.2.2 (by decide) (by decide)).mpr (by decide)⟩
  intro hp
  have hd := (h.1.2.2.2.2 (by decide) (by decide)).mp hp
  exact absurd hd (by decide)

end FHoloPlayTilingQuality

/-! ## Theorems: numbering of the copy-to-quilt commands -/

/-- The commands of one rendering config carry the view indices of the config,
counted from the index the inner loop starts with, and its number of views. -/
theorem copyViews_views (QuiltRT : Nat) (T : FHoloPlayTilingQuality)
    (cfg : FHoloPlayRenderingConfig) (Resource : Nat) :
    ∀ (views : List Nat) (vi cur : Nat),
      (copyViews QuiltRT T cfg Resource views vi cur).1.map
          (fun Context => (Context.ViewIndex, Context.TotalViews)) =
        (List.range' vi views.length).map
          (fun j : Nat => ((j : Int), (cfg.ViewInfoArr.length : Int))) := by
  intro views
  induction views with
  | nil => intro vi cur; rfl
  | cons v rest ih =>
    intro vi cur
    simp only [copyViews, List.map_cons, List.length_cons, List.range'_succ, ih]

/-- When every rendering config has a render target with a resource, the
commands carry, config after config, the view indices `0, 1, ...` of the config
and its number of views. -/
theorem copyConfigs_views (QuiltRT : Nat) (T : FHoloPlayTilingQuality) :
    ∀ (cfgs : List FHoloPlayRenderingConfig) (cur : Nat),
      (∀ cfg ∈ cfgs, cfg.hasResource = true) →
      (copyConfigs QuiltRT T cfgs cur).1.map
          (fun Context => (Context.ViewIndex, Context.TotalViews)) =
        cfgs.flatMap (fun cfg =>
          (List.range cfg.ViewInfoArr.length).map
            (fun j : Nat => ((j : Int), (cfg.ViewInfoArr.length : Int)))) := by
  intro cfgs
  induction cfgs with
  | nil => intro cur _; rfl
  | cons cfg rest ih =>
    intro cur hall
    have hcfg := hall cfg (List.mem_cons_self _ _)
    rcases hrt : cfg.RenderTarget with _ | _ | Resource
    · simp [FHoloPlayRenderingConfig.hasResource, hrt] at hcfg
    · simp [FHoloPlayRenderingConfig.hasResource, hrt] at hcfg
    · have h1 := copyViews_views QuiltRT T cfg Resource cfg.ViewInfoArr 0 cur
      have h2 := ih (copyViews QuiltRT T cfg Resource cfg.ViewInfoArr 0 cur).2
        (fun x hx => hall x (List.mem_cons_of_mem _ hx))
      simp only [copyConfigs, hrt, List.map_append, h1, h2, List.flatMap_cons,
        List.range_eq_range']

/-- C29: in a draw call that reaches compositing (valid capture component,
`bRender2D` false, no override quilt) with every render target and resource
non-null, and `N`, the sum of the view counts of the rendering configs, at most
`2^32`: the copy-to-quilt commands carry the global view indices
`0, 1, ..., N - 1` in the order issued, and, config after config, the view
indices `0, ..., views - 1` of the config with `TotalViews` the number of views
of the config. -/
theorem Draw_global_view_indices (E : Engine) (I : DrawInputs)
    (QuiltRT : Option UTextureRenderTarget2D) (c : FHoloPlayViewportClient)
    (Component : UHoloPlaySceneCaptureComponent2D)
    (hComponent : I.CaptureComponent = some Component)
    (h2D : I.Settings.HoloPlayRenderingSettings.bRender2D = false)
    (hOverride : Component.OverrideQuiltTexture2D = none)
    (hall : ∀ cfg ∈ Component.RenderingConfigs, cfg.hasResource = true)
    (hN : (Component.RenderingConfigs.map fun cfg => cfg.ViewInfoArr.length).sum ≤ 2 ^ 32) :
    (copyCommands (Draw E I QuiltRT c).2.2).map (fun Context => Context.CurrentViewIndex) =
        List.range (Component.RenderingConfigs.map fun cfg => cfg.ViewInfoArr.length).sum ∧
      (copyCommands (Draw E I QuiltRT c).2.2).map
          (fun Context => (Context.ViewIndex, Context.TotalViews)) =
        Component.RenderingConfigs.flatMap (fun cfg =>
          (List.range cfg.ViewInfoArr.length).map
            (fun j : Nat => ((j : Int), (cfg.ViewInfoArr.length : Int)))) := by
  obtain ⟨hdone, hlen⟩ := copyConfigs_complete I.QuiltResource Component.TilingValues
    Component.RenderingConfigs 0 (by norm_num) hall
  have hcmds : copyCommands (Draw E I QuiltRT c).2.2 =
      (copyConfigs I.QuiltResource Component.TilingValues Component.RenderingConfigs 0).1 := by
    by_cases hnil : Component.RenderingConfigs = []
    · rw [(Draw_zero_configs_aborts_aux E I QuiltRT c Component hComponent hnil).2.1, hnil]
      rfl
    · obtain ⟨g1, _, _, _, _, _⟩ := GetQuiltRT_no_render Component.TilingValues QuiltRT
      rw [(Draw_composited E I QuiltRT c Component hComponent hnil h2D hOverride hdone).2]
      simp only [copyCommands_append, g1, copyCommands_map]
      simp [copyCommands, copyToQuilt]
  rw [hcmds]
  constructor
  · apply List.ext_getElem
    · simp [hlen]
    · intro k hk1 hk2
      simp only [List.length_map, hlen] at hk1
      have hget := copyConfigs_index I.QuiltResource Component.TilingValues
        Component.RenderingConfigs 0 (by norm_num) k _
        (List.getElem?_eq_getElem (by rw [hlen]; exact hk1))
      simp only [List.getElem_map, List.getElem_range, hget.1, Nat.zero_add]
      exact Nat.mod_eq_of_lt (by omega)
  · exact copyConfigs_views I.QuiltResource Component.TilingValues Component.RenderingConfigs 0
      hall

/-- C29 at a capture component with configs of two views and one view: the
global indices are `0, 1, 2` and the per-config indices `0, 1` of 2 and `0` of
1. -/
theorem Draw_global_view_indices_witness :
    (copyCommands (Draw Engine.sample
        (DrawInputs.sampleFor UHoloPlaySceneCaptureComponent2D.sampleTwoConfigs) none {}).2.2).map
        (fun Context => Context.CurrentViewIndex) = [0, 1, 2] ∧
      (copyCommands (Draw Engine.sample
        (DrawInputs.sampleFor UHoloPlaySceneCaptureComponent2D.sampleTwoConfigs) none {}).2.2).map
          (fun Context => (Context.ViewIndex, Context.TotalViews)) =
        [(0, 2), (1, 2), (0, 1)] := by
  have h := Draw_global_view_indices Engine.sample
    (DrawInputs.sampleFor UHoloPlaySceneCaptureComponent2D.sampleTwoConfigs) none {}
    UHoloPlaySceneCaptureComponent2D.sampleTwoConfigs rfl rfl rfl (by decide) (by decide)
  exact ⟨h.1.trans (by decide), h.2.trans (by decide)⟩

/-! ## Theorems: cropping a screenshot -/

/-- A move inside an array keeps its length. -/
theorem Memmove_length (Data : List FColor) (Dest Src Count : Nat)
    (h1 : Dest + Count ≤ Data.length) (h2 : Src + Count ≤ Data.length) :
    (Memmove Data Dest Src Count).length = Data.length := by
  simp only [Memmove, List.length_append, List.length_take, List.length_drop]
  omega

/-- The elements of an array after a move inside it. -/
theorem Memmove_getElem? (Data : List FColor) (Dest Src Count : Nat)
    (h1 : Dest + Count ≤ Data.length) (h2 : Src + Count ≤ Data.length) (i : Nat) :
    (i < Dest → (Memmove Data Dest Src Count)[i]? = Data[i]?) ∧
      (Dest ≤ i → i < Dest + Count →
        (Memmove Data Dest Src Count)[i]? = Data[Src + (i - Dest)]?) ∧
      (Dest + Count ≤ i → (Memmove Data Dest Src Count)[i]? = Data[i]?) := by
  have hl1 : (Data.take Dest).length = Dest := by
    rw [List.length_take]; omega
  have hl2 : ((Data.drop Src).take Count).length = Count := by
    rw [List.length_take, List.length_drop]; omega
  refine ⟨?_, ?_, ?_⟩
  · intro hi
    unfold Memmove
    rw [List.append_assoc, List.getElem?_append_left (by omega), List.getElem?_take_of_lt hi]
  · intro hd hi
    unfold Memmove
    rw [List.getElem?_append_left (by rw [List.length_append]; omega),
      List.getElem?_append_right (by omega), hl1,
      List.getElem?_take_of_lt (by omega), List.getElem?_drop]
  · intro hi
    unfold Memmove
    rw [List.getElem?_append_right (by rw [List.length_append]; omega), List.length_append,
      hl1, hl2, List.getElem?_drop]
    congr 1
    omega

/-- The loop of `ClipScreenshot` started at `Row` for `n` rows on an array that
still holds the original pixels from index `Row * NewWidth` on: the length is
kept, what lies before `Row * NewWidth` is kept, each of the `n` rows holds the
pixels of its row of the capture region, and what lies after the rows is
still original. -/
theorem ClipRows_spec (W W' T L : Nat) (orig : List FColor) (hL : L + W' ≤ W) :
    ∀ (n Row : Nat) (Data : List FColor),
      Data.length = orig.length →
      (∀ i, Row * W' ≤ i → Data[i]? = orig[i]?) →
      (Row + n + T) * W ≤ orig.length →
      (ClipRows W W' T L n Row Data).length = orig.length ∧
      (∀ i, i < Row * W' → (ClipRows W W' T L n Row Data)[i]? = Data[i]?) ∧
      (∀ r c, Row ≤ r → r < Row + n → c < W' →
        (ClipRows W W' T L n Row Data)[r * W' + c]? = orig[(r + T) * W + L + c]?) ∧
      (∀ i, (Row + n) * W' ≤ i → (ClipRows W W' T L n Row Data)[i]? = orig[i]?) := by
  intro n
  induction n with
  | zero =>
    intro Row Data hlen htail _
    refine ⟨hlen, fun i _ => rfl, fun r c h1 h2 _ => ?_, fun i hi => ?_⟩
    · omega
    · exact htail i (by simpa using hi)
  | succ n ih =>
    intro Row Data hlen htail hbound
    have hWW : W' ≤ W := by omega
    have ha : Row * W' ≤ Row * W := Nat.mul_le_mul_left Row hWW
    have e1 : (Row + 1) * W' = Row * W' + W' := by ring
    have e2 : (Row + T) * W = Row * W + T * W := by ring
    have e3 : (Row + (n + 1) + T) * W = Row * W + n * W + W + T * W := by ring
    have e4 : (Row + 1 + n + T) * W = Row * W + n * W + W + T * W := by ring
    have e5 : (Row + (n + 1)) * W' = (Row + 1 + n) * W' := by ring
    have c1 : ((Row : Int) * (W' : Int)).toNat = Row * W' := by
      have : ((Row : Int) * (W' : Int)) = ((Row * W' : Nat) : Int) := by push_cast; ring
      rw [this, Int.toNat_ofNat]
    have c2 : (((Row : Int) + (T : Int)) * (W : Int) + (L : Int)).toNat = (Row + T) * W + L := by
      have : (((Row : Int) + (T : Int)) * (W : Int) + (L : Int)) =
          (((Row + T) * W + L : Nat) : Int) := by push_cast; ring
      rw [this, Int.toNat_ofNat]
    have c3 : ((W' : Int)).toNat = W' := Int.toNat_ofNat W'
    have hd : Row * W' + W' ≤ Data.length := by rw [hlen]; omega
    have hs : (Row + T) * W + L + W' ≤ Data.length := by rw [hlen]; omega
    have hstep : ClipRows W W' T L (n + 1) Row Data =
        ClipRows W W' T L n (Row + 1)
          (Memmove Data (Row * W') ((Row + T) * W + L) W') := by
      simp only [ClipRows, c1, c2, c3]
    rw [hstep]
    have hm := Memmove_getElem? Data (Row * W') ((Row + T) * W + L) W' hd hs
    have hlen1 : (Memmove Data (Row * W') ((Row + T) * W + L) W').length = orig.length := by
      rw [Memmove_length Data _ _ _ hd hs, hlen]
    have htail1 : ∀ i, (Row + 1) * W' ≤ i →
        (Memmove Data (Row * W') ((Row + T) * W + L) W')[i]? = orig[i]? := by
      intro i hi
      rw [(hm i).2.2 (by omega)]
      exact htail i (by omega)
    obtain ⟨r1, r2, r3, r4⟩ := ih (Row + 1) _ hlen1 htail1 (by omega)
    refine ⟨r1, ?_, ?_, ?_⟩
    · intro i hi
      rw [r2 i (by omega), (hm i).1 hi]
    · intro r c hr1 hr2 hc
      by_cases hr : r = Row
      · subst hr
        rw [r2 _ (by omega), (hm _).2.1 (by omega) (by omega)]
        have hidx : (r + T) * W + L + (r * W' + c - r * W') = (r + T) * W + L + c := by omega
        rw [hidx]
        exact htail _ (by omega)
      · exact r3 r c (by omega) (by omega) hc
    · intro i hi
      exact r4 i (by rw [← e5]; exact hi)

/-- C28: for a bitmap of length `W * H` with `Size = (W, H)` and a rectangle
of width `W'` and height `H'`, not both 0, with `Min.X + W' ≤ W` and
`Min.Y + H' ≤ H`: after `ClipScreenshot`, `Size = (W', H')`, the bitmap has
length `W' * H'`, and for `r < H'`, `c < W'` the pixel at index `r * W' + c` is
the original pixel at index `(r + Min.Y) * W + (c + Min.X)`.  For an empty
rectangle, whatever `Size` and the bitmap, both are unchanged. -/
theorem ClipScreenshot_crops (W H W' H' L T : Nat) (z : Int) (Bitmap : List FColor)
    (hlen : Bitmap.length = W * H) (hX : L + W' ≤ W) (hY : T + H' ≤ H)
    (hne : ¬ (W' = 0 ∧ H' = 0)) :
    ((ClipScreenshot { X := W, Y := H, Z := z }
        { MinX := L, MinY := T, MaxX := L + W', MaxY := T + H' } Bitmap).1 =
        { X := W', Y := H', Z := 0 } ∧
      (ClipScreenshot { X := W, Y := H, Z := z }
        { MinX := L, MinY := T, MaxX := L + W', MaxY := T + H' } Bitmap).2.length = W' * H' ∧
      (∀ r c, r < H' → c < W' →
        r * W' + c < W' * H' ∧ (r + T) * W + (c + L) < Bitmap.length ∧
        (ClipScreenshot { X := W, Y := H, Z := z }
          { MinX := L, MinY := T, MaxX := L + W', MaxY := T + H' } Bitmap).2[r * W' + c]? =
          Bitmap[(r + T) * W + (c + L)]?)) ∧
    (∀ (Size : FIntVector) (SourceRect : FIntRect) (Pixels : List FColor),
      SourceRect.IsEmpty = true → ClipScreenshot Size SourceRect Pixels = (Size, Pixels)) := by
  constructor
  · have hw : (FIntRect.mk L T (L + W') (T + H')).Width = (W' : Int) := by
      simp [FIntRect.Width]
    have hh : (FIntRect.mk L T (L + W') (T + H')).Height = (H' : Int) := by
      simp [FIntRect.Height]
    have hempty : (FIntRect.mk L T (L + W') (T + H')).IsEmpty = false := by
      simp only [FIntRect.IsEmpty, hw, hh]
      cases hb : ((W' : Int) == 0 && (H' : Int) == 0) with
      | false => rfl
      | true =>
        simp only [Bool.and_eq_true, beq_iff_eq] at hb
        exact absurd ⟨by exact_mod_cast hb.1, by exact_mod_cast hb.2⟩ hne
    have hsmall : W' * H' ≤ W * H := Nat.mul_le_mul (by omega) (by omega)
    have t1 : ((W' : Int) * (H' : Int)).toNat = W' * H' := by
      have : ((W' : Int) * (H' : Int)) = ((W' * H' : Nat) : Int) := by push_cast; ring
      rw [this, Int.toNat_ofNat]
    have t2 : ((W : Int) * (H : Int) - (W' : Int) * (H' : Int)).toNat = W * H - W' * H' := by
      have : ((W : Int) * (H : Int) - (W' : Int) * (H' : Int)) =
          ((W * H - W' * H' : Nat) : Int) := by
        rw [Nat.cast_sub hsmall]; push_cast; ring
      rw [this, Int.toNat_ofNat]
    have t3 : ((H' : Int)).toNat = H' := Int.toNat_ofNat H'
    have hbound : (0 + H' + T) * W ≤ Bitmap.length := by
      rw [hlen, Nat.mul_comm W H]
      exact Nat.mul_le_mul_right W (by omega)
    obtain ⟨r1, _, r3, _⟩ := ClipRows_spec W W' T L Bitmap hX H' 0 Bitmap rfl
      (fun _ _ => rfl) hbound
    have hres : ClipScreenshot { X := W, Y := H, Z := z }
        { MinX := L, MinY := T, MaxX := L + W', MaxY := T + H' } Bitmap =
        ({ X := W', Y := H', Z := 0 },
          (ClipRows W W' T L H' 0 Bitmap).take (W' * H')) := by
      unfold ClipScreenshot
      simp only [hempty, Bool.not_false, if_true, hw, hh, t1, t2, t3, RemoveAt]
      have hdrop : (ClipRows W W' T L H' 0 Bitmap).drop (W' * H' + (W * H - W' * H')) = [] := by
        apply List.drop_eq_nil_of_le
        rw [r1, hlen]; omega
      rw [hdrop, List.append_nil]
    rw [hres]
    refine ⟨rfl, ?_, ?_⟩
    · simp only [List.length_take, r1, hlen]
      omega
    · intro r c hr hc
      have h1 : r * W' + c < W' * H' := by
        have : (r + 1) * W' ≤ H' * W' := Nat.mul_le_mul_right W' (by omega)
        have e : (r + 1) * W' = r * W' + W' := by ring
        rw [Nat.mul_comm W' H']
        omega
      have h2 : (r + T) * W + (c + L) < Bitmap.length := by
        have : (r + T + 1) * W ≤ H * W := Nat.mul_le_mul_right W (by omega)
        have e : (r + T + 1) * W = (r + T) * W + W := by ring
        rw [hlen, Nat.mul_comm W H]
        omega
      refine ⟨h1, h2, ?_⟩
      simp only []
      rw [List.getElem?_take_of_lt h1, r3 r c (by omega) (by omega) hc]
      congr 1
      omega
  · intro Size SourceRect Pixels hE
    simp [ClipScreenshot, hE]

/-- C28 at the 4 by 3 sample bitmap and the 2 by 2 rectangle at column 1,
row 1: the clipped bitmap has the four pixels of rows 1, 2 and columns 1, 2. -/
theorem ClipScreenshot_crops_witness :
    (ClipScreenshot { X := 4, Y := 3, Z := 0 } { MinX := 1, MinY := 1, MaxX := 3, MaxY := 3 }
        sampleBitmap).1 = { X := 2, Y := 2, Z := 0 } ∧
      (ClipScreenshot { X := 4, Y := 3, Z := 0 } { MinX := 1, MinY := 1, MaxX := 3, MaxY := 3 }
        sampleBitmap).2.length = 4 ∧
      (ClipScreenshot { X := 4, Y := 3, Z := 0 } { MinX := 1, MinY := 1, MaxX := 3, MaxY := 3 }
        sampleBitmap).2[3]? = sampleBitmap[10]? := by
  have h := (ClipScreenshot_crops 4 3 2 2 1 1 0 sampleBitmap (by decide) (by decide) (by decide)
    (by decide)).1
  exact ⟨h.1, h.2.1, (h.2.2 1 1 (by decide) (by decide)).2.2⟩

/-! ## Theorems: console commands -/

/-- Skipping blanks twice is skipping them once. -/
theorem SkipBlanks_idem (Stream : List Char) : SkipBlanks (SkipBlanks Stream) = SkipBlanks Stream := by
  induction Stream with
  | nil => rfl
  | cons a t ih =>
    by_cases h : (a == ' ' || a == '\t') = true
    · have e : SkipBlanks (a :: t) = SkipBlanks t := by
        simp only [SkipBlanks, List.dropWhile_cons, h, if_true]
      rw [e, ih]
    · have e : SkipBlanks (a :: t) = a :: t := by
        simp only [SkipBlanks, List.dropWhile_cons, h, if_false, Bool.false_eq_true]
      rw [e, e]

/-- The blanks before a command do not matter to `FParse::Command`. -/
theorem Command_SkipBlanks (Stream : List Char) (Match : String) :
    FParse.Command (SkipBlanks Stream) Match = FParse.Command Stream Match := by
  simp only [FParse.Command, SkipBlanks_idem]

/-- After a failed `FParse::Command` the stream stands after its first blanks. -/
theorem Command_false_snd (Stream : List Char) (Match : String)
    (h : (FParse.Command Stream Match).1 = false) :
    (FParse.Command Stream Match).2 = SkipBlanks Stream := by
  unfold FParse.Command at h ⊢
  simp only at h ⊢
  split
  · rename_i hm
    rw [if_pos hm] at h
    split
    · rename_i hd
      rw [hd] at h
      exact absurd h (by simp)
    · rename_i c Rest hd
      rw [hd] at h
      split
      · rename_i ha
        simp only [if_pos ha] at h
        exact absurd h (by simp)
      · rfl
  · rfl

/-- A failed `FParse::Command` does not change what the next one finds. -/
theorem Command_after_fail {Stream : List Char} {Match : String}
    (h : (FParse.Command Stream Match).1 = false) (Next : String) :
    FParse.Command (FParse.Command Stream Match).2 Next = FParse.Command Stream Next := by
  rw [Command_false_snd Stream Match h, Command_SkipBlanks]

/-- When `FParse::Command` succeeds, the stream after the blanks starts with
the name, but for case. -/
theorem Command_true_take (Stream : List Char) (Match : String)
    (h : (FParse.Command Stream Match).1 = true) :
    ToLower ((SkipBlanks Stream).take Match.length) = ToLower Match.toList := by
  unfold FParse.Command at h
  simp only at h
  by_cases hm : (ToLower ((SkipBlanks Stream).take Match.length) == ToLower Match.toList) = true
  · exact eq_of_beq hm
  · rw [if_neg hm] at h
    exact absurd h (by simp)

/-- Two names of which neither starts with the other, but for case, are not
both recognised at the start of a stream. -/
theorem Command_exclusive (Stream : List Char) (First Second : String)
    (h : (FParse.Command Stream First).1 = true)
    (hne : (ToLower Second.toList).take First.length ≠
      (ToLower First.toList).take Second.length) :
    (FParse.Command Stream Second).1 = false := by
  cases h2 : (FParse.Command Stream Second).1 with
  | false => rfl
  | true =>
    exfalso
    apply hne
    rw [← Command_true_take Stream First h, ← Command_true_take Stream Second h2]
    simp only [ToLower, ← List.map_take, List.take_take, Nat.min_comm]

/-- The method `Exec` passes what follows `HoloPlay.Window` to `HandleWindowCommand`. -/
theorem Exec_Window (I : ExecInputs) (s : ExecState) (Cmd rest : List Char)
    (h : FParse.Command Cmd "HoloPlay.Window" = (true, rest)) :
    Exec I s Cmd = HandleWindowCommand s rest := by
  have h1 : (FParse.Command Cmd "HoloPlay.Window").1 = true := by rw [h]
  have f1 := Command_exclusive Cmd "HoloPlay.Window" "HoloPlay.LenticularScreenshot" h1 (by decide)
  have f2 := Command_exclusive Cmd "HoloPlay.Window" "HoloPlay.ScreenshotQuilt" h1 (by decide)
  have f3 := Command_exclusive Cmd "HoloPlay.Window" "HoloPlay.Screenshot2D" h1 (by decide)
  unfold Exec
  simp only [Command_after_fail f1, Command_after_fail f2, Command_after_fail f3, f1, f2, f3, h, Bool.false_eq_true, if_false, if_true]

/-- The method `Exec` passes what follows `HoloPlay.Shader` to `HandleShaderCommand`. -/
theorem Exec_Shader (I : ExecInputs) (s : ExecState) (Cmd rest : List Char)
    (h : FParse.Command Cmd "HoloPlay.Shader" = (true, rest)) :
    Exec I s Cmd = HandleShaderCommand s rest := by
  have h1 : (FParse.Command Cmd "HoloPlay.Shader").1 = true := by rw [h]
  have f1 := Command_exclusive Cmd "HoloPlay.Shader" "HoloPlay.LenticularScreenshot" h1 (by decide)
  have f2 := Command_exclusive Cmd "HoloPlay.Shader" "HoloPlay.ScreenshotQuilt" h1 (by decide)
  have f3 := Command_exclusive Cmd "HoloPlay.Shader" "HoloPlay.Screenshot2D" h1 (by decide)
  have f4 := Command_exclusive Cmd "HoloPlay.Shader" "HoloPlay.Window" h1 (by decide)
  unfold Exec
  simp only [Command_after_fail f1, Command_after_fail f2, Command_after_fail f3, Command_after_fail f4, f1, f2, f3, f4, h, Bool.false_eq_true, if_false, if_true]

/-- The method `Exec` passes what follows `HoloPlay.Scene` to `HandleSceneCommand`. -/
theorem Exec_Scene (I : ExecInputs) (s : ExecState) (Cmd rest : List Char)
    (h : FParse.Command Cmd "HoloPlay.Scene" = (true, rest)) :
    Exec I s Cmd = HandleSceneCommand s rest := by
  have h1 : (FParse.Command Cmd "HoloPlay.Scene").1 = true := by rw [h]
  have f1 := Command_exclusive Cmd "HoloPlay.Scene" "HoloPlay.LenticularScreenshot" h1 (by decide)
  have f2 := Command_exclusive Cmd "HoloPlay.Scene" "HoloPlay.ScreenshotQuilt" h1 (by decide)
  have f3 := Command_exclusive Cmd "HoloPlay.Scene" "HoloPlay.Screenshot2D" h1 (by decide)
  have f4 := Command_exclusive Cmd "HoloPlay.Scene" "HoloPlay.Window" h1 (by decide)
  have f5 := Command_exclusive Cmd "HoloPlay.Scene" "HoloPlay.Shader" h1 (by decide)
  unfold Exec
  simp only [Command_after_fail f1, Command_after_fail f2, Command_after_fail f3, Command_after_fail f4, Command_after_fail f5, f1, f2, f3, f4, f5, h, Bool.false_eq_true, if_false, if_true]

/-- The method `Exec` passes what follows `HoloPlay.Tilling` to `HandleTillingCommand`. -/
theorem Exec_Tilling (I : ExecInputs) (s : ExecState) (Cmd rest : List Char)
    (h : FParse.Command Cmd "HoloPlay.Tilling" = (true, rest)) :
    Exec I s Cmd = HandleTillingCommand I s rest := by
  have h1 : (FParse.Command Cmd "HoloPlay.Tilling").1 = true := by rw [h]
  have f1 := Command_exclusive Cmd "HoloPlay.Tilling" "HoloPlay.LenticularScreenshot" h1 (by decide)
  have f2 := Command_exclusive Cmd "HoloPlay.Tilling" "HoloPlay.ScreenshotQuilt" h1 (by decide)
  have f3 := Command_exclusive Cmd "HoloPlay.Tilling" "HoloPlay.Screenshot2D" h1 (by decide)
  have f4 := Command_exclusive Cmd "HoloPlay.Tilling" "HoloPlay.Window" h1 (by decide)
  have f5 := Command_exclusive Cmd "HoloPlay.Tilling" "HoloPlay.Shader" h1 (by decide)
  have f6 := Command_exclusive Cmd "HoloPlay.Tilling" "HoloPlay.Scene" h1 (by decide)
  unfold Exec
  simp only [Command_after_fail f1, Command_after_fail f2, Command_after_fail f3, Command_after_fail f4, Command_after_fail f5, Command_after_fail f6, f1, f2, f3, f4, f5, f6, h, Bool.false_eq_true, if_false, if_true]

/-- The method `Exec` passes what follows `HoloPlay.Rendering` to `HandleRenderingCommand`. -/
theorem Exec_Rendering (I : ExecInputs) (s : ExecState) (Cmd rest : List Char)
    (h : FParse.Command Cmd "HoloPlay.Rendering" = (true, rest)) :
    Exec I s Cmd = HandleRenderingCommand s rest := by
  have h1 : (FParse.Command Cmd "HoloPlay.Rendering").1 = true := by rw [h]
  have f1 := Command_exclusive Cmd "HoloPlay.Rendering" "HoloPlay.LenticularScreenshot" h1 (by decide)
  have f2 := Command_exclusive Cmd "HoloPlay.Rendering" "HoloPlay.ScreenshotQuilt" h1 (by decide)
  have f3 := Command_exclusive Cmd "HoloPlay.Rendering" "HoloPlay.Screenshot2D" h1 (by decide)
  have f4 := Command_exclusive Cmd "HoloPlay.Rendering" "HoloPlay.Window" h1 (by decide)
  have f5 := Command_exclusive Cmd "HoloPlay.Rendering" "HoloPlay.Shader" h1 (by decide)
  have f6 := Command_exclusive Cmd "HoloPlay.Rendering" "HoloPlay.Scene" h1 (by decide)
  have f7 := Command_exclusive Cmd "HoloPlay.Rendering" "HoloPlay.Tilling" h1 (by decide)
  unfold Exec
  simp only [Command_after_fail f1, Command_after_fail f2, Command_after_fail f3, Command_after_fail f4, Command_after_fail f5, Command_after_fail f6, Command_after_fail f7, f1, f2, f3, f4, f5, f6, f7, h, Bool.false_eq_true, if_false, if_true]

/-- A command line on which `Exec` recognises none of its eight names is
refused with the state as it was and no call made. -/
theorem Exec_unknown (I : ExecInputs) (s : ExecState) (Cmd : List Char)
    (h : Recognised Cmd ExecCommands = false) : Exec I s Cmd = (false, s, []) := by
  simp only [Recognised, ExecCommands, List.any_cons, List.any_nil, Bool.or_false,
    Bool.or_eq_false_iff] at h
  obtain ⟨f1, f2, f3, f4, f5, f6, f7, f8⟩ := h
  unfold Exec
  simp only [Command_after_fail f1, Command_after_fail f2, Command_after_fail f3,
    Command_after_fail f4, Command_after_fail f5, Command_after_fail f6, Command_after_fail f7,
    f1, f2, f3, f4, f5, f6, f7, f8, Bool.false_eq_true, if_false]

/-- The method `HandleWindowCommand` refuses a stream on which it recognises
neither sub-command, with the state as it was and no call made. -/
theorem HandleWindowCommand_unrecognised (s : ExecState) (Cmd : List Char)
    (h : Recognised Cmd WindowCommands = false) : HandleWindowCommand s Cmd = (false, s, []) := by
  simp only [Recognised, WindowCommands, List.any_cons, List.any_nil, Bool.or_false,
    Bool.or_eq_false_iff] at h
  obtain ⟨f1, f2⟩ := h
  unfold HandleWindowCommand
  simp only [Command_after_fail f1, f1, f2, Bool.false_eq_true, if_false]

/-- The method `HandleShaderCommand` refuses a stream on which it recognises
none of its sub-commands, with the state as it was and no call made. -/
theorem HandleShaderCommand_unrecognised (s : ExecState) (Cmd : List Char)
    (h : Recognised Cmd ShaderCommands = false) : HandleShaderCommand s Cmd = (false, s, []) := by
  simp only [Recognised, ShaderCommands, List.any_cons, List.any_nil, Bool.or_false,
    Bool.or_eq_false_iff] at h
  obtain ⟨f1, f2, f3, f4, f5, f6, f7, f8⟩ := h
  unfold HandleShaderCommand
  simp only [Command_after_fail f1, Command_after_fail f2, Command_after_fail f3,
    Command_after_fail f4, Command_after_fail f5, Command_after_fail f6, Command_after_fail f7,
    f1, f2, f3, f4, f5, f6, f7, f8, Bool.false_eq_true, if_false]

/-- The method `HandleTillingCommand` refuses a stream on which it recognises
none of its sub-commands, with the state as it was and no call made. -/
theorem HandleTillingCommand_unrecognised (I : ExecInputs) (s : ExecState) (Cmd : List Char)
    (h : Recognised Cmd TillingCommands = false) :
    HandleTillingCommand I s Cmd = (false, s, []) := by
  simp only [Recognised, TillingCommands, List.any_cons, List.any_nil, Bool.or_false,
    Bool.or_eq_false_iff] at h
  obtain ⟨f1, f2, f3, f4, f5, f6⟩ := h
  unfold HandleTillingCommand
  split
  · rfl
  · simp only [Command_after_fail f1, Command_after_fail f2, Command_after_fail f3,
      Command_after_fail f4, Command_after_fail f5, f1, f2, f3, f4, f5, f6, Bool.false_eq_true,
      if_false]

/-- The method `HandleRenderingCommand` refuses a stream on which it does not
recognise `Render2D`, with the state as it was and no call made. -/
theorem HandleRenderingCommand_unrecognised (s : ExecState) (Cmd : List Char)
    (h : Recognised Cmd RenderingCommands = false) :
    HandleRenderingCommand s Cmd = (false, s, []) := by
  simp only [Recognised, RenderingCommands, List.any_cons, List.any_nil, Bool.or_false] at h
  unfold HandleRenderingCommand
  simp only [h, Bool.false_eq_true, if_false]

/-- A failed `ParseResolution` leaves `OutX` and `OutY` as they were. -/
theorem ParseResolution_false_out (s : String) (OutX OutY : Nat)
    (h : (ParseResolution s OutX OutY).1 = false) :
    (ParseResolution s OutX OutY).2 = (OutX, OutY) := by
  unfold ParseResolution at h ⊢
  by_cases h1 : (!s.toList.isEmpty) = true
  · simp only [h1, if_true] at h ⊢
    cases h2 : Strchr (ToLower (TrimStartAndEnd s.toList)) 'x' with
    | none => rfl
    | some found =>
      simp only [h2] at h ⊢
      by_cases h3 : (TrimStartAndEnd found.tail).length > 0
      · simp only [h3, if_true] at h ⊢
        by_cases h4 : IsNumeric (TrimStartAndEnd found.tail) = true
        · simp only [h4, if_true] at h
          exact absurd h (by simp)
        · simp only [h4, if_false, Bool.false_eq_true]
      · simp only [h3, if_false]
  · simp only [h1, if_false, Bool.false_eq_true]

/-- Reading `ClientSize` after assigning it. -/
theorem ClientSize_setClientSize (s : ExecState) (Value : FIntPoint) :
    (s.setClientSize Value).ClientSize = Value := rfl

/-- Assigning `PlacementMode` leaves `ClientSize` as it was. -/
theorem ClientSize_setPlacementMode (s : ExecState) (Mode : Nat) :
    (s.setWindow { s.Settings.HoloPlayWindowSettings with PlacementMode := Mode }).ClientSize =
      s.ClientSize := rfl

/-- Assigning `ClientSize` leaves `LastExecutedPlayModeType` as it was. -/
theorem PlayModeType_setClientSize (s : ExecState) (Value : FIntPoint) :
    (s.setClientSize Value).Settings.HoloPlayWindowSettings.LastExecutedPlayModeType =
      s.Settings.HoloPlayWindowSettings.LastExecutedPlayModeType := rfl

/-- What `HandleWindowCommand` does once it has recognised `ClientSize`: it
returns `true`, restarts the player and saves, and `ClientSize` is the parsed
pair taken as `int32` when both numbers are positive, the previous value
otherwise. -/
theorem HandleWindowCommand_ClientSize_aux (s : ExecState) (Cmd rest : List Char)
    (h : FParse.Command Cmd "ClientSize" = (true, rest)) :
    (HandleWindowCommand s Cmd).1 = true ∧
    (HandleWindowCommand s Cmd).2.2 =
      [CommandEffect.RestartPlayer s.Settings.HoloPlayWindowSettings.LastExecutedPlayModeType,
        CommandEffect.HoloPlaySave] ∧
    (HandleWindowCommand s Cmd).2.1.ClientSize =
      if 0 < (ParseResolution (String.mk rest) 0 0).2.1 ∧
          0 < (ParseResolution (String.mk rest) 0 0).2.2 then
        { X := toInt32 (ParseResolution (String.mk rest) 0 0).2.1,
          Y := toInt32 (ParseResolution (String.mk rest) 0 0).2.2 }
      else s.ClientSize := by
  generalize hP : ParseResolution (String.mk rest) 0 0 = P
  by_cases hpos : 0 < P.2.1 ∧ 0 < P.2.2
  · have hb : (decide (P.2.1 > 0) && decide (P.2.2 > 0)) = true := by
      simp [hpos.1, hpos.2]
    rw [if_pos hpos]
    cases hc : (FParse.Command rest "PlacementMode").1
    · unfold HandleWindowCommand
      simp only [h, hP, hb, hc, if_true, Bool.false_eq_true, if_false]
      refine ⟨trivial, ?_, ?_⟩
      · rw [PlayModeType_setClientSize]
        rfl
      · rw [ClientSize_setClientSize]
    · cases hn : IsNumeric (FParse.Command rest "PlacementMode").2
      · unfold HandleWindowCommand
        simp only [h, hP, hb, hc, hn, if_true, Bool.false_eq_true, if_false]
        refine ⟨trivial, ?_, ?_⟩
        · rw [PlayModeType_setClientSize]
          rfl
        · rw [ClientSize_setClientSize]
      · unfold HandleWindowCommand
        simp only [h, hP, hb, hc, hn, if_true, Bool.false_eq_true, if_false]
        refine ⟨trivial, ?_, ?_⟩
        · rw [PlayModeType_setClientSize]
          rfl
        · rw [ClientSize_setPlacementMode, ClientSize_setClientSize]
  · have hb : (decide (P.2.1 > 0) && decide (P.2.2 > 0)) = false := by
      cases hv : (decide (P.2.1 > 0) && decide (P.2.2 > 0)) with
      | false => rfl
      | true =>
        simp only [Bool.and_eq_true, decide_eq_true_eq] at hv
        exact absurd hv hpos
    rw [if_neg hpos]
    cases hc : (FParse.Command rest "PlacementMode").1
    · unfold HandleWindowCommand
      simp only [h, hP, hb, hc, if_true, Bool.false_eq_true, if_false]
      exact ⟨trivial, rfl, trivial⟩
    · cases hn : IsNumeric (FParse.Command rest "PlacementMode").2
      · unfold HandleWindowCommand
        simp only [h, hP, hb, hc, hn, if_true, Bool.false_eq_true, if_false]
        exact ⟨trivial, rfl, trivial⟩
      · unfold HandleWindowCommand
        simp only [h, hP, hb, hc, hn, if_true, Bool.false_eq_true, if_false]
        refine ⟨trivial, rfl, ?_⟩
        rw [ClientSize_setPlacementMode]

/-- C25 fails: whenever `HandleWindowCommand` has recognised `ClientSize` and
`ParseResolution` returns `false` on the argument, `HandleWindowCommand` returns
`true`; it restarts the player and saves the settings, and `ClientSize` keeps
its value. -/
theorem HandleWindowCommand_malformed_handled (s : ExecState) (Cmd rest : List Char)
    (h : FParse.Command Cmd "ClientSize" = (true, rest))
    (hbad : (ParseResolution (String.mk rest) 0 0).1 = false) :
    (HandleWindowCommand s Cmd).1 = true ∧
    (HandleWindowCommand s Cmd).2.2 =
      [CommandEffect.RestartPlayer s.Settings.HoloPlayWindowSettings.LastExecutedPlayModeType,
        CommandEffect.HoloPlaySave] ∧
    (HandleWindowCommand s Cmd).2.1.ClientSize = s.ClientSize := by
  obtain ⟨r1, r2, r3⟩ := HandleWindowCommand_ClientSize_aux s Cmd rest h
  refine ⟨r1, r2, ?_⟩
  rw [r3, ParseResolution_false_out _ 0 0 hbad]
  simp

/-- C25 fails at `ClientSize abc` and at `ClientSize 1920`: `ParseResolution`
returns `false` on `abc` and on `1920`, and `HandleWindowCommand` returns
`true`. -/
theorem HandleWindowCommand_malformed_handled_witness :
    ((ParseResolution "abc" 0 0).1 = false ∧
      (HandleWindowCommand ExecState.sample "ClientSize abc".toList).1 = true ∧
      (HandleWindowCommand ExecState.sample "ClientSize abc".toList).2.2 =
        [CommandEffect.RestartPlayer EHoloPlayModeType.PlayMode_InSeparateWindow,
          CommandEffect.HoloPlaySave]) ∧
    ((ParseResolution "1920" 0 0).1 = false ∧
      (HandleWindowCommand ExecState.sample "ClientSize 1920".toList).1 = true) :=
  ⟨⟨by decide,
      (HandleWindowCommand_malformed_handled ExecState.sample "ClientSize abc".toList
        "abc".toList (by decide) (by decide)).1,
      (HandleWindowCommand_malformed_handled ExecState.sample "ClientSize abc".toList
        "abc".toList (by decide) (by decide)).2.1⟩,
    ⟨by decide,
      (HandleWindowCommand_malformed_handled ExecState.sample "ClientSize 1920".toList
        "1920".toList (by decide) (by decide)).1⟩⟩

/-- C26 as stated fails: on `HoloPlay.Scene foo` the handler is
`HandleSceneCommand`, which recognises no sub-command, and `Exec` returns
`true`. -/
theorem Exec_Scene_returns_true :
    FParse.Command "HoloPlay.Scene foo".toList "HoloPlay.Scene" = (true, "foo".toList) ∧
      (Exec ExecInputs.sample ExecState.sample "HoloPlay.Scene foo".toList).1 = true := by
  have h : FParse.Command "HoloPlay.Scene foo".toList "HoloPlay.Scene" = (true, "foo".toList) := by
    decide
  refine ⟨h, ?_⟩
  rw [Exec_Scene _ _ _ _ h]
  rfl

/-- C26, amended: `Exec` returns `false`, with the state as it was and nothing
saved, restarted or updated, on every command line on which it recognises none
of its eight names, and on every `HoloPlay.Window`, `HoloPlay.Shader`,
`HoloPlay.Tilling` or `HoloPlay.Rendering` line on which the handler recognises
none of its sub-commands.  On every `HoloPlay.Scene` line it returns `true`,
with the state as it was and nothing saved. -/
theorem Exec_rejects_unrecognised (I : ExecInputs) (s : ExecState) (Cmd : List Char) :
    (Recognised Cmd ExecCommands = false → Exec I s Cmd = (false, s, [])) ∧
    (∀ rest, FParse.Command Cmd "HoloPlay.Window" = (true, rest) →
      Recognised rest WindowCommands = false → Exec I s Cmd = (false, s, [])) ∧
    (∀ rest, FParse.Command Cmd "HoloPlay.Shader" = (true, rest) →
      Recognised rest ShaderCommands = false → Exec I s Cmd = (false, s, [])) ∧
    (∀ rest, FParse.Command Cmd "HoloPlay.Tilling" = (true, rest) →
      Recognised rest TillingCommands = false → Exec I s Cmd = (false, s, [])) ∧
    (∀ rest, FParse.Command Cmd "HoloPlay.Rendering" = (true, rest) →
      Recognised rest RenderingCommands = false → Exec I s Cmd = (false, s, [])) ∧
    (∀ rest, FParse.Command Cmd "HoloPlay.Scene" = (true, rest) →
      Exec I s Cmd = (true, s, [])) := by
  refine ⟨Exec_unknown I s Cmd, ?_, ?_, ?_, ?_, ?_⟩
  · intro rest h hr
    rw [Exec_Window I s Cmd rest h, HandleWindowCommand_unrecognised s rest hr]
  · intro rest h hr
    rw [Exec_Shader I s Cmd rest h, HandleShaderCommand_unrecognised s rest hr]
  · intro rest h hr
    rw [Exec_Tilling I s Cmd rest h, HandleTillingCommand_unrecognised I s rest hr]
  · intro rest h hr
    rw [Exec_Rendering I s Cmd rest h, HandleRenderingCommand_unrecognised s rest hr]
  · intro rest h
    rw [Exec_Scene I s Cmd rest h]
    rfl

/-- C26, amended, at `HoloPlay.Foo 1` (no such command), `HoloPlay.Window Bogus
1`, `HoloPlay.Shader Gamma 2`, `HoloPlay.Tilling SixteenK` and
`HoloPlay.Rendering Render3D 1` (no such sub-command): `false`, nothing changed;
and at `HoloPlay.Scene foo`: `true`, nothing changed. -/
theorem Exec_rejects_unrecognised_witness :
    Exec ExecInputs.sample ExecState.sample "HoloPlay.Foo 1".toList =
        (false, ExecState.sample, []) ∧
      Exec ExecInputs.sample ExecState.sample "HoloPlay.Window Bogus 1".toList =
        (false, ExecState.sample, []) ∧
      Exec ExecInputs.sample ExecState.sample "HoloPlay.Shader Gamma 2".toList =
        (false, ExecState.sample, []) ∧
      Exec ExecInputs.sample ExecState.sample "HoloPlay.Tilling SixteenK".toList =
        (false, ExecState.sample, []) ∧
      Exec ExecInputs.sample ExecState.sample "HoloPlay.Rendering Render3D 1".toList =
        (false, ExecState.sample, []) ∧
      Exec ExecInputs.sample ExecState.sample "HoloPlay.Scene foo".toList =
        (true, ExecState.sample, []) :=
  ⟨(Exec_rejects_unrecognised ExecInputs.sample ExecState.sample "HoloPlay.Foo 1".toList).1
      (by decide),
    (Exec_rejects_unrecognised ExecInputs.sample ExecState.sample
      "HoloPlay.Window Bogus 1".toList).2.1 "Bogus 1".toList (by decide) (by decide),
    (Exec_rejects_unrecognised ExecInputs.sample ExecState.sample
      "HoloPlay.Shader Gamma 2".toList).2.2.1 "Gamma 2".toList (by decide) (by decide),
    (Exec_rejects_unrecognised ExecInputs.sample ExecState.sample
      "HoloPlay.Tilling SixteenK".toList).2.2.2.1 "SixteenK".toList (by decide) (by decide),
    (Exec_rejects_unrecognised ExecInputs.sample ExecState.sample
      "HoloPlay.Rendering Render3D 1".toList).2.2.2.2.1 "Render3D 1".toList (by decide)
      (by decide),
    (Exec_rejects_unrecognised ExecInputs.sample ExecState.sample
      "HoloPlay.Scene foo".toList).2.2.2.2.2 "foo".toList (by decide)⟩

/-- C30 fails above `2 ^ 31`: once `HandleWindowCommand` has recognised
`ClientSize`, with `(X, Y)` the numbers `ParseResolution` leaves from `(0, 0)`:
`ClientSize` becomes `(X, Y)` taken as `int32` when `X > 0` and `Y > 0`, which is
`(X, Y)` when both are below `2 ^ 31`, and keeps its value when `X = 0` or
`Y = 0`, as it does whenever `ParseResolution` returns `false`. -/
theorem HandleWindowCommand_ClientSize (s : ExecState) (Cmd rest : List Char)
    (h : FParse.Command Cmd "ClientSize" = (true, rest)) :
    (0 < (ParseResolution (String.mk rest) 0 0).2.1 →
      0 < (ParseResolution (String.mk rest) 0 0).2.2 →
      (HandleWindowCommand s Cmd).2.1.ClientSize =
          { X := toInt32 (ParseResolution (String.mk rest) 0 0).2.1,
            Y := toInt32 (ParseResolution (String.mk rest) 0 0).2.2 } ∧
        ((ParseResolution (String.mk rest) 0 0).2.1 < 2 ^ 31 →
          (ParseResolution (String.mk rest) 0 0).2.2 < 2 ^ 31 →
          (HandleWindowCommand s Cmd).2.1.ClientSize =
            { X := (ParseResolution (String.mk rest) 0 0).2.1,
              Y := (ParseResolution (String.mk rest) 0 0).2.2 })) ∧
    (((ParseResolution (String.mk rest) 0 0).2.1 = 0 ∨
        (ParseResolution (String.mk rest) 0 0).2.2 = 0) →
      (HandleWindowCommand s Cmd).2.1.ClientSize = s.ClientSize) ∧
    ((ParseResolution (String.mk rest) 0 0).1 = false →
      (HandleWindowCommand s Cmd).2.1.ClientSize = s.ClientSize) := by
  obtain ⟨_, _, r3⟩ := HandleWindowCommand_ClientSize_aux s Cmd rest h
  refine ⟨?_, ?_, ?_⟩
  · intro hx hy
    have e := r3
    rw [if_pos ⟨hx, hy⟩] at e
    refine ⟨e, ?_⟩
    intro bx bY
    rw [e]
    have ex : toInt32 (ParseResolution (String.mk rest) 0 0).2.1 =
        (ParseResolution (String.mk rest) 0 0).2.1 := by
      unfold toInt32
      omega
    have ey : toInt32 (ParseResolution (String.mk rest) 0 0).2.2 =
        (ParseResolution (String.mk rest) 0 0).2.2 := by
      unfold toInt32
      omega
    rw [ex, ey]
  · intro hz
    rw [r3, if_neg (by omega)]
  · intro hbad
    rw [r3, ParseResolution_false_out _ 0 0 hbad]
    simp

/-- C30 fails at `ClientSize 3000000000x1080`: `ParseResolution` gives
`(3000000000, 1080)` and `ClientSize` becomes `(-1294967296, 1080)`.  It also
fails at the claim's example `ClientSize 0x1080`: the width is read as the
hexadecimal numeral `0x1080` and `ClientSize` becomes `(4224, 1080)`.  At
`ClientSize 1920x1080` it becomes `(1920, 1080)`; at `ClientSize 1920x0` and at
`ClientSize abc` it keeps the default `(2560, 1600)`. -/
theorem HandleWindowCommand_ClientSize_witness :
    (ParseResolution "3000000000x1080" 0 0 = (true, 3000000000, 1080) ∧
      (HandleWindowCommand ExecState.sample "ClientSize 3000000000x1080".toList).2.1.ClientSize =
        { X := -1294967296, Y := 1080 }) ∧
    (ParseResolution "0x1080" 0 0 = (true, 4224, 1080) ∧
      (HandleWindowCommand ExecState.sample "ClientSize 0x1080".toList).2.1.ClientSize =
        { X := 4224, Y := 1080 }) ∧
    (HandleWindowCommand ExecState.sample "ClientSize 1920x1080".toList).2.1.ClientSize =
      { X := 1920, Y := 1080 } ∧
    (HandleWindowCommand ExecState.sample "ClientSize 1920x0".toList).2.1.ClientSize =
      { X := 2560, Y := 1600 } ∧
    (HandleWindowCommand ExecState.sample "ClientSize abc".toList).2.1.ClientSize =
      { X := 2560, Y := 1600 } := by
  have p1 : ParseResolution (String.mk "3000000000x1080".toList) 0 0 =
      (true, 3000000000, 1080) := by decide
  have p2 : ParseResolution (String.mk "1920x1080".toList) 0 0 = (true, 1920, 1080) := by decide
  have p3 : ParseResolution (String.mk "1920x0".toList) 0 0 = (true, 1920, 0) := by decide
  have p4 : (ParseResolution (String.mk "abc".toList) 0 0).1 = false := by decide
  have p5 : ParseResolution (String.mk "0x1080".toList) 0 0 = (true, 4224, 1080) := by decide
  have t1 := (HandleWindowCommand_ClientSize ExecState.sample
    "ClientSize 3000000000x1080".toList "3000000000x1080".toList (by decide)).1
  have t2 := (HandleWindowCommand_ClientSize ExecState.sample
    "ClientSize 1920x1080".toList "1920x1080".toList (by decide)).1
  have t3 := (HandleWindowCommand_ClientSize ExecState.sample
    "ClientSize 1920x0".toList "1920x0".toList (by decide)).2.1
  have t4 := (HandleWindowCommand_ClientSize ExecState.sample
    "ClientSize abc".toList "abc".toList (by decide)).2.2 p4
  have t5 := (HandleWindowCommand_ClientSize ExecState.sample
    "ClientSize 0x1080".toList "0x1080".toList (by decide)).1
  rw [p1] at t1
  rw [p2] at t2
  rw [p3] at t3
  rw [p5] at t5
  refine ⟨⟨p1, ?_⟩, ⟨p5, ?_⟩, ?_, t3 (Or.inr rfl), t4⟩
  · rw [(t1 (by decide) (by decide)).1]
    decide
  · exact (t5 (by decide) (by decide)).2 (by decide) (by decide)
  · exact (t2 (by decide) (by decide)).2 (by decide) (by decide)

end HoloPlay
